import Mathlib

/-!
# BSP builder (bsp_builder/src/main.cpp): a verification development

Shallow embedding of the tree builder.

Conventions of the embedding:
* `float` values are rationals (`ℚ`).  The first part computes with them
  exactly; the part "Float arithmetic with rounding" follows the same source
  lines with every float operation rounded by a parameter `rnd`, and `f32` is
  the rounding of binary32.  The literal `0.999999f` is the value of that
  binary32 constant, `16777199 / 16777216` (= 1 - 17 / 2 ^ 24).  The one float
  that has to be allowed to be `+infinity` (`best_metric`, `min_split_metric`)
  is a `FloatInf`.
* `std::sqrt` is not part of the source file: it is a parameter `sqrt : ℚ → ℚ`
  of every function that reaches `Vec3::length`.
* `int` and `size_t` are unbounded (`Int`, `Nat`) in the first part; the part
  "Index arithmetic in `int`" follows the selection pass, the recursion and the
  constructor with the index `3 * vert + i` computed in 32-bit `int`.
* `std::vector::operator[]` is unchecked.  The embedding makes every such
  access explicit: an access outside the container ends the run with
  `Fault.outOfRange` (undefined behaviour in C++; the source has no check and
  no `throw`).
* mutating `Vec3` methods are functions returning the new value.
* `build_bsp_tree` is recursive; the embedding recurses on a fuel counter and
  reports `Fault.outOfFuel` when the counter runs out.
-/

namespace Bsp

/-- Ways a run can stop without a result. -/
inductive Fault where
  /-- an `operator[]` outside its container (undefined behaviour, nothing is reported) -/
  | outOfRange
  /-- an `assert(0)` was reached -/
  | assertFailed
  /-- the recursion budget of the embedding ran out (no counterpart in the source) -/
  | outOfFuel
deriving DecidableEq

/-- A float that may be `+infinity`: `none` is `std::numeric_limits<float>::infinity()`. -/
abbrev FloatInf := Option ℚ

/-- The comparison `m < f` for a finite `m` and a possibly infinite `f`. -/
def FloatInf.above (f : FloatInf) (m : ℚ) : Bool :=
  match f with
  | none => true
  | some v => decide (m < v)

/-- The comparison `m > f` for a finite `m` and a possibly infinite `f`. -/
def FloatInf.below (f : FloatInf) (m : ℚ) : Bool :=
  match f with
  | none => false
  | some v => decide (m > v)

/-- Source: `typedef std::tuple<int, int, int> Face` -/
abbrev Face := Int × Int × Int

/-- Source: `typedef std::tuple<float, float, float> Vertex` -/
abbrev Vertex := ℚ × ℚ × ℚ

/-- Unchecked `xs[i]` of a `std::vector`, for a `size_t` index. -/
def at_index {α : Type} (xs : List α) (i : Nat) : Except Fault α :=
  match xs[i]? with
  | some a => .ok a
  | none => .error .outOfRange

/-- Unchecked `xs[i]` for an `int` index (a negative `int` converts to a huge `size_t`). -/
def at_int {α : Type} (xs : List α) (i : Int) : Except Fault α :=
  if i < 0 then .error .outOfRange else at_index xs i.toNat

/-- Source: `std::array<T, 3>` -/
structure Array3 (α : Type) where
  e0 : α
  e1 : α
  e2 : α
deriving DecidableEq

/-- Element `a[i]` of a `std::array<T, 3>`; the source only uses `i` in `0, 1, 2`. -/
def Array3.get {α : Type} (a : Array3 α) (i : Nat) : α :=
  match i with
  | 0 => a.e0
  | 1 => a.e1
  | _ => a.e2

/-- Source: `struct Vec3` -/
structure Vec3 where
  x : ℚ
  y : ℚ
  z : ℚ
deriving DecidableEq

namespace Vec3

/-- Source: `Vec3()` -/
def zero : Vec3 := ⟨0, 0, 0⟩

/-- Source: `Vec3(Vertex v)` -/
def ofVertex (v : Vertex) : Vec3 := ⟨v.1, v.2.1, v.2.2⟩

/-- Source: `length()` -/
def length (sqrt : ℚ → ℚ) (v : Vec3) : ℚ :=
  sqrt (v.x * v.x + v.y * v.y + v.z * v.z)

/-- Source: `scale(s)` -/
def scale (v : Vec3) (s : ℚ) : Vec3 := ⟨v.x * s, v.y * s, v.z * s⟩

/-- Source: `normalize()` -/
def normalize (sqrt : ℚ → ℚ) (v : Vec3) : Vec3 :=
  let len := v.length sqrt
  if len = 0 then v else v.scale (1 / len)

/-- Source: `add(v)` -/
def add (u v : Vec3) : Vec3 := ⟨u.x + v.x, u.y + v.y, u.z + v.z⟩

/-- Source: `sub(v)` -/
def sub (u v : Vec3) : Vec3 := ⟨u.x - v.x, u.y - v.y, u.z - v.z⟩

/-- Source: `sub_vectors(v1, v2)`: the receiver becomes `v1 - v2`. -/
def sub_vectors (v1 v2 : Vec3) : Vec3 := ⟨v1.x - v2.x, v1.y - v2.y, v1.z - v2.z⟩

/-- Source: `cross_product(v)` -/
def cross_product (u v : Vec3) : Vec3 :=
  ⟨u.y * v.z - u.z * v.y, u.z * v.x - u.x * v.z, u.x * v.y - u.y * v.x⟩

/-- Source: `dot_product(v)` -/
def dot_product (u v : Vec3) : ℚ := v.x * u.x + v.y * u.y + v.z * u.z

/-- Source: `equals(v)` -/
def equals (u v : Vec3) : Bool := u.x == v.x && u.y == v.y && u.z == v.z

end Vec3

/-- Source: `class Plane` -/
structure Plane where
  val : ℚ
  axis : Int
  normal : Vec3
  point : Vec3
  d : ℚ
deriving DecidableEq

/-- Source: `Plane(val, axis)` -/
def Plane.new (val : ℚ) (axis : Int) : Except Fault Plane :=
  let finish (normal point : Vec3) : Plane :=
    { val := val, axis := axis, normal := normal, point := point,
      d := -(normal.dot_product point) }
  match axis with
  | 0 => .ok (finish { Vec3.zero with x := 1 } { Vec3.zero with x := val })
  | 1 => .ok (finish { Vec3.zero with y := 1 } { Vec3.zero with y := val })
  | 2 => .ok (finish { Vec3.zero with z := 1 } { Vec3.zero with z := val })
  | _ => .error .assertFailed

/-- Source: `enum class PolyType` -/
inductive PolyType where
  | FRONT
  | BACK
  | COPLANAR
  | STRADDLE
deriving DecidableEq

/-- Source: `class Poly` -/
structure Poly where
  indexes : Array3 Int
  points : Array3 Vec3
  center : Vec3
  normal : Vec3
  d : ℚ
deriving DecidableEq

/-- Source: `Poly(face, verts)` -/
def Poly.new (sqrt : ℚ → ℚ) (face : Face) (verts : List Vertex) : Except Fault Poly := do
  let p0 ← at_int verts face.1
  let p1 ← at_int verts face.2.1
  let p2 ← at_int verts face.2.2
  let points : Array3 Vec3 := ⟨Vec3.ofVertex p0, Vec3.ofVertex p1, Vec3.ofVertex p2⟩
  let indexes : Array3 Int := ⟨face.1, face.2.1, face.2.2⟩
  let center := (((Vec3.zero.add points.e0).add points.e1).add points.e2).scale (1 / 3)
  let a := Vec3.sub_vectors (points.get 0) (points.get 1)
  let b := Vec3.sub_vectors (points.get 2) (points.get 1)
  let normal := (a.cross_product b).normalize sqrt
  pure { indexes := indexes, points := points, center := center, normal := normal,
         d := -(normal.dot_product center) }

/-- The edge loop of `Poly::intersects`, from the vertices still to visit and
the current `last_side_parallel`. -/
def Poly.intersects_loop (poly : Poly) (plane : Plane) : List Nat → Bool → Bool
  | [], _ => false
  | vertex :: rest, last_side_parallel =>
    let prevVertex := if vertex ≠ 0 then vertex - 1 else 3 - 1
    let EdgeDelta := Vec3.sub_vectors (poly.points.get vertex) (poly.points.get prevVertex)
    let denom := EdgeDelta.dot_product plane.normal
    if denom ≠ 0 then
      let numer := (poly.points.get prevVertex).dot_product plane.normal + plane.d
      let t := -numer / denom
      if ¬ (last_side_parallel = true ∧ t = 0) then
        if t > 0 ∧ t < 16777199 / 16777216 then
          true
        else
          poly.intersects_loop plane rest (decide (denom = 0))
      else
        poly.intersects_loop plane rest (decide (denom = 0))
    else
      poly.intersects_loop plane rest (decide (denom = 0))

/-- Source: `Poly::intersects(plane)` -/
def Poly.intersects (poly : Poly) (plane : Plane) : Bool :=
  if !(poly.normal.equals plane.normal) then
    poly.intersects_loop plane [0, 1, 2] false
  else
    false

/-- Source: `Poly::clasify(plane)` -/
def Poly.clasify (poly : Poly) (plane : Plane) : PolyType :=
  if poly.intersects plane then
    PolyType.STRADDLE
  else
    let delta := Vec3.sub_vectors poly.center plane.point
    let dotp := delta.dot_product plane.normal
    if dotp = 0 then PolyType.COPLANAR
    else if dotp < 0 then PolyType.FRONT
    else PolyType.BACK

/-- A `Node*`: `nullptr`, or a `struct Node`. -/
inductive NodePtr where
  | null
  | node (split_plane : Plane) (front_faces back_faces : List Nat)
      (front_node back_node : NodePtr)
deriving DecidableEq

/-- Source: `typedef std::array<Plane, 3> AxisPlanes` -/
abbrev AxisPlanes := Array3 Plane

/-- A `Plane*` into the `planes` table: the address of `planes[vert][axis]`. -/
structure PlanePtr where
  vert : Int
  axis : Nat
deriving DecidableEq

/-- Source: `class BspBuilder` -/
structure BspBuilder where
  root : NodePtr
  polys : List Poly
  planes : List AxisPlanes
  vert_count : Nat
  coplanar_weight : ℚ
  intersect_weight : ℚ
  split_weight : ℚ
  min_split_metric : FloatInf
deriving DecidableEq

/-- Dereference `*p` of a `Plane*` into the table. -/
def BspBuilder.deref (b : BspBuilder) (p : PlanePtr) : Except Fault Plane := do
  let axis_planes ← at_int b.planes p.vert
  pure (axis_planes.get p.axis)

/-- The four counters of `find_best_split_plane`. -/
structure Counts where
  coplanar_count : Nat
  intersect_count : Nat
  front_count : Nat
  back_count : Nat
deriving DecidableEq

/-- The counting loop of `find_best_split_plane` (lines 329-347). -/
def BspBuilder.count_loop (b : BspBuilder) (split_plane : Plane) :
    List Nat → Counts → Except Fault Counts
  | [], c => pure c
  | poly_index :: rest, c => do
    let poly ← at_index b.polys poly_index
    match poly.clasify split_plane with
    | PolyType.STRADDLE =>
      b.count_loop split_plane rest { c with intersect_count := c.intersect_count + 1 }
    | PolyType.COPLANAR =>
      b.count_loop split_plane rest { c with coplanar_count := c.coplanar_count + 1 }
    | PolyType.FRONT =>
      b.count_loop split_plane rest { c with front_count := c.front_count + 1 }
    | PolyType.BACK =>
      b.count_loop split_plane rest { c with back_count := c.back_count + 1 }

/-- Lines 324-361 of `find_best_split_plane`: the counts of one candidate plane
and its metric; `none` when one of the two `continue` statements is taken. -/
def BspBuilder.plane_metric (b : BspBuilder) (poly_indexes : List Nat) (split_plane : Plane) :
    Except Fault (Option ℚ) := do
  let poly_count := poly_indexes.length
  let c ← b.count_loop split_plane poly_indexes ⟨0, 0, 0, 0⟩
  if c.front_count = 0 ∨ c.back_count = 0 then
    pure none
  else
    let split_ratio : ℚ := (c.front_count : ℚ) / ((c.front_count + c.back_count : Nat) : ℚ)
    let intersect_ratio : ℚ := (c.intersect_count : ℚ) / (poly_count : ℚ)
    let coplanar_ratio : ℚ := (c.coplanar_count : ℚ) / (poly_count : ℚ)
    let metric : ℚ := |1 / 2 - split_ratio| * b.split_weight +
                      intersect_ratio * b.intersect_weight +
                      coplanar_ratio * b.coplanar_weight
    if b.min_split_metric.below metric then
      pure none
    else
      pure (some metric)

/-- The local variables of `find_best_split_plane` that live across iterations. -/
structure Search where
  best_metric : FloatInf
  best_split_plane : Option PlanePtr
  plane_flags : List Bool
deriving DecidableEq

/-- One iteration of the inner loop of `find_best_split_plane` (lines 315-366). -/
def BspBuilder.test_plane (b : BspBuilder) (poly_indexes : List Nat) (test_poly : Poly)
    (i : Nat) (st : Search) : Except Fault Search := do
  let vert := test_poly.indexes.get i
  let flag ← at_int st.plane_flags (3 * vert + i)
  if flag then
    pure st
  else
    let st := { st with plane_flags := st.plane_flags.set (3 * vert + i).toNat true }
    let axis_planes ← at_int b.planes vert
    let split_plane := axis_planes.get i
    match ← b.plane_metric poly_indexes split_plane with
    | none => pure st
    | some metric =>
      if st.best_metric.above metric then
        pure { st with best_metric := some metric, best_split_plane := some ⟨vert, i⟩ }
      else
        pure st

/-- The inner loop `for (int i = 0; i < 3; ++i)` of `find_best_split_plane`. -/
def BspBuilder.inner_loop (b : BspBuilder) (poly_indexes : List Nat) (test_poly : Poly) :
    List Nat → Search → Except Fault Search
  | [], st => pure st
  | i :: rest, st => do
    let st ← b.test_plane poly_indexes test_poly i st
    b.inner_loop poly_indexes test_poly rest st

/-- The outer loop `for (size_t test_poly_index : poly_indexes)` of
`find_best_split_plane`, over the indexes still to visit. -/
def BspBuilder.outer_loop (b : BspBuilder) (poly_indexes : List Nat) :
    List Nat → Search → Except Fault Search
  | [], st => pure st
  | test_poly_index :: rest, st => do
    let test_poly ← at_index b.polys test_poly_index
    let st ← b.inner_loop poly_indexes test_poly [0, 1, 2] st
    b.outer_loop poly_indexes rest st

/-- Source: `BspBuilder::find_best_split_plane(poly_indexes)`; `none` is `nullptr`. -/
def BspBuilder.find_best_split_plane (b : BspBuilder) (poly_indexes : List Nat) :
    Except Fault (Option PlanePtr) := do
  let st ← b.outer_loop poly_indexes poly_indexes
    { best_metric := none, best_split_plane := none,
      plane_flags := List.replicate (b.vert_count * 3) false }
  pure st.best_split_plane

/-- The routing loop of `build_bsp_tree` (lines 267-287), from the indexes still
to visit and the current `front` and `back`. -/
def BspBuilder.route (b : BspBuilder) (split_plane : Plane) :
    List Nat → List Nat → List Nat → Except Fault (List Nat × List Nat)
  | [], front, back => pure (front, back)
  | poly_index :: rest, front, back => do
    let poly ← at_index b.polys poly_index
    match poly.clasify split_plane with
    | PolyType.STRADDLE => b.route split_plane rest (front ++ [poly_index]) (back ++ [poly_index])
    | PolyType.COPLANAR => b.route split_plane rest (front ++ [poly_index]) (back ++ [poly_index])
    | PolyType.FRONT => b.route split_plane rest (front ++ [poly_index]) back
    | PolyType.BACK => b.route split_plane rest front (back ++ [poly_index])

/-- Source: `BspBuilder::build_bsp_tree(poly_indexes)`, with a recursion budget. -/
def BspBuilder.build_bsp_tree (b : BspBuilder) : Nat → List Nat → Except Fault NodePtr
  | 0, _ => .error .outOfFuel
  | fuel + 1, poly_indexes => do
    match ← b.find_best_split_plane poly_indexes with
    | none => pure NodePtr.null
    | some p =>
      let split_plane ← b.deref p
      let (front, back) ← b.route split_plane poly_indexes [] []
      let front_node ← b.build_bsp_tree fuel front
      let front_faces := if front_node = NodePtr.null then front else []
      let back_node ← b.build_bsp_tree fuel back
      let back_faces := if back_node = NodePtr.null then back else []
      pure (NodePtr.node split_plane front_faces back_faces front_node back_node)

/-- The first loop of the constructor (lines 223-227): one `Poly` per face. -/
def make_polys (sqrt : ℚ → ℚ) (verts : List Vertex) : List Face → Except Fault (List Poly)
  | [] => pure []
  | face :: rest => do
    let poly ← Poly.new sqrt face verts
    let polys ← make_polys sqrt verts rest
    pure (poly :: polys)

/-- The second loop of the constructor (lines 230-238): three planes per vertex. -/
def make_planes : List Vertex → Except Fault (List AxisPlanes)
  | [] => pure []
  | v :: rest => do
    let vertx := Vec3.ofVertex v
    let px ← Plane.new vertx.x 0
    let py ← Plane.new vertx.y 1
    let pz ← Plane.new vertx.z 2
    let planes ← make_planes rest
    pure (⟨px, py, pz⟩ :: planes)

/-- Source: `BspBuilder(verts, faces, coplanar_weight, intersect_weight, split_weight,
min_split_metric)`; `fuel` bounds the recursion of `build_bsp_tree`. -/
def BspBuilder.new (sqrt : ℚ → ℚ) (fuel : Nat) (verts : List Vertex) (faces : List Face)
    (coplanar_weight intersect_weight split_weight : ℚ) (min_split_metric : FloatInf) :
    Except Fault BspBuilder := do
  let polys ← make_polys sqrt verts faces
  let poly_indexes := List.range faces.length
  let planes ← make_planes verts
  let b : BspBuilder :=
    { root := NodePtr.null, polys := polys, planes := planes, vert_count := verts.length,
      coplanar_weight := coplanar_weight, intersect_weight := intersect_weight,
      split_weight := split_weight, min_split_metric := min_split_metric }
  let root ← b.build_bsp_tree fuel poly_indexes
  pure { b with root := root }

/-! ## Specification-side definitions -/

/-- Classification of face `f` against `plane`; `none` when `f` is outside the `polys` table. -/
def BspBuilder.type_of (b : BspBuilder) (plane : Plane) (f : Nat) : Option PolyType :=
  b.polys[f]?.map (fun poly => poly.clasify plane)

/-- Number of faces of the subset `s` whose classification against `plane` is `ty`. -/
def BspBuilder.count_of (b : BspBuilder) (plane : Plane) (s : List Nat) (ty : PolyType) : Nat :=
  s.countP (fun f => decide (b.type_of plane f = some ty))

/-- The metric of the specification, from the four counts of `plane` over `s`. -/
def BspBuilder.metric_of (b : BspBuilder) (s : List Nat) (plane : Plane) : ℚ :=
  |1 / 2 - (b.count_of plane s PolyType.FRONT : ℚ) /
      ((b.count_of plane s PolyType.FRONT : ℚ) + (b.count_of plane s PolyType.BACK : ℚ))|
      * b.split_weight
    + ((b.count_of plane s PolyType.STRADDLE : ℚ) / (s.length : ℚ)) * b.intersect_weight
    + ((b.count_of plane s PolyType.COPLANAR : ℚ) / (s.length : ℚ)) * b.coplanar_weight

/-- Acceptance of the specification: both one-sided counts are at least 1 and the
metric is not greater than `min_split_metric`. -/
def BspBuilder.accepts (b : BspBuilder) (s : List Nat) (plane : Plane) : Prop :=
  1 ≤ b.count_of plane s PolyType.FRONT ∧ 1 ≤ b.count_of plane s PolyType.BACK ∧
    ∀ v ∈ b.min_split_metric, b.metric_of s plane ≤ v

instance (b : BspBuilder) (s : List Nat) (plane : Plane) : Decidable (b.accepts s plane) := by
  unfold BspBuilder.accepts; infer_instance

/-- Every index of the subset `s` is a position of the `polys` table. -/
def BspBuilder.InRange (b : BspBuilder) (s : List Nat) : Prop :=
  ∀ f ∈ s, f < b.polys.length

/-- The planes met by one selection pass, in iteration order: for each face of
the subset, the plane of vertex `i` on axis `i`, for `i = 0, 1, 2`. -/
def BspBuilder.candidates (b : BspBuilder) (s : List Nat) : List PlanePtr :=
  s.flatMap (fun f =>
    match b.polys[f]? with
    | some poly => [⟨poly.indexes.get 0, 0⟩, ⟨poly.indexes.get 1, 1⟩, ⟨poly.indexes.get 2, 2⟩]
    | none => [])

/-- The metric of candidate `c` over the subset `s` when the candidate is
accepted, `none` when it is not. -/
def BspBuilder.score (b : BspBuilder) (s : List Nat) (c : PlanePtr) : Option ℚ :=
  match b.deref c with
  | .ok plane => if b.accepts s plane then some (b.metric_of s plane) else none
  | .error _ => none

/-- The tables of the builder fit together: one `AxisPlanes` per vertex, and
every vertex index stored in a `Poly` is a vertex. -/
structure BspBuilder.WF (b : BspBuilder) : Prop where
  planes_length : b.planes.length = b.vert_count
  indexes_lt : ∀ poly ∈ b.polys, ∀ i, i < 3 →
    0 ≤ poly.indexes.get i ∧ poly.indexes.get i < b.vert_count

/-- Candidate `c` is accepted with metric `m`, every accepted candidate before
it in `seen` has a larger metric and none after it has a smaller one. -/
def BspBuilder.FirstBest (b : BspBuilder) (s : List Nat) (seen : List PlanePtr)
    (c : PlanePtr) (m : ℚ) : Prop :=
  ∃ pre post, seen = pre ++ c :: post ∧ b.score s c = some m ∧
    (∀ c' ∈ pre, ∀ m', b.score s c' = some m' → m < m') ∧
    (∀ c' ∈ post, ∀ m', b.score s c' = some m' → m ≤ m')

/-- Invariant of the selection pass after the candidates `seen`. -/
structure BspBuilder.SearchInv (b : BspBuilder) (s : List Nat) (seen : List PlanePtr)
    (st : Search) : Prop where
  flags_length : st.plane_flags.length = b.vert_count * 3
  flags : ∀ (v : Int) (i : Nat), 0 ≤ v → v < b.vert_count → i < 3 →
    (st.plane_flags[(3 * v + i).toNat]? = some true ↔ (⟨v, i⟩ : PlanePtr) ∈ seen)
  no_best : st.best_split_plane = none →
    st.best_metric = none ∧ ∀ c ∈ seen, b.score s c = none
  best : ∀ c, st.best_split_plane = some c →
    ∃ m, st.best_metric = some m ∧ b.FirstBest s seen c m

/-- Routing of the specification: a face goes to the front subset when it is
FRONT, STRADDLE or COPLANAR. -/
def BspBuilder.to_front (b : BspBuilder) (plane : Plane) (f : Nat) : Bool :=
  decide (b.type_of plane f = some PolyType.FRONT ∨ b.type_of plane f = some PolyType.STRADDLE ∨
    b.type_of plane f = some PolyType.COPLANAR)

/-- Routing of the specification: a face goes to the back subset when it is
BACK, STRADDLE or COPLANAR. -/
def BspBuilder.to_back (b : BspBuilder) (plane : Plane) (f : Nat) : Bool :=
  decide (b.type_of plane f = some PolyType.BACK ∨ b.type_of plane f = some PolyType.STRADDLE ∨
    b.type_of plane f = some PolyType.COPLANAR)

/-- A property `P` holds at every `Node` of the tree `t` built from the subset
`s`: `P s plane front back front_faces back_faces front_node back_node`, where
`front` and `back` are the subsets the routing loop makes from `s`, and the
children are the trees of `front` and `back`. -/
def BspBuilder.EveryNode (b : BspBuilder)
    (P : List Nat → Plane → List Nat → List Nat → List Nat → List Nat → NodePtr → NodePtr → Prop) :
    List Nat → NodePtr → Prop
  | _, NodePtr.null => True
  | s, NodePtr.node split_plane front_faces back_faces front_node back_node =>
    ∃ front back, b.route split_plane s [] [] = Except.ok (front, back) ∧
      P s split_plane front back front_faces back_faces front_node back_node ∧
      b.EveryNode P front front_node ∧ b.EveryNode P back back_node

/-- What `build_bsp_tree` establishes at a `Node` made from the subset `s`. -/
structure BspBuilder.NodeOK (b : BspBuilder) (s : List Nat) (plane : Plane)
    (front back front_faces back_faces : List Nat) (front_node back_node : NodePtr) : Prop where
  chosen : ∃ p, b.find_best_split_plane s = Except.ok (some p) ∧ b.deref p = Except.ok plane
  accepted : b.accepts s plane
  in_range : b.InRange s
  front_eq : front = s.filter (b.to_front plane)
  back_eq : back = s.filter (b.to_back plane)
  front_faces_eq : front_faces = if front_node = NodePtr.null then front else []
  back_faces_eq : back_faces = if back_node = NodePtr.null then back else []

/-- Coordinate `a` of a vector (`0` is x, `1` is y, `2` is z). -/
def Vec3.coord (v : Vec3) (a : Nat) : ℚ :=
  match a with
  | 0 => v.x
  | 1 => v.y
  | _ => v.z

/-- The edge from a vertex with coordinate `c_prev` to a vertex with coordinate
`c_vert` crosses the plane at `val`: the edge is not parallel to the plane and its
intersection fraction lies strictly between `0` and `0.999999`. -/
def crosses (c_prev c_vert val : ℚ) : Prop :=
  c_vert - c_prev ≠ 0 ∧ 0 < (val - c_prev) / (c_vert - c_prev) ∧
    (val - c_prev) / (c_vert - c_prev) < 16777199 / 16777216

instance (c_prev c_vert val : ℚ) : Decidable (crosses c_prev c_vert val) := by
  unfold crosses; infer_instance

/-- A plane is the axis-aligned plane of axis `a` through `val`. -/
structure Plane.Aligned (plane : Plane) (a : Nat) (val : ℚ) : Prop where
  axis_lt : a < 3
  val_eq : plane.val = val
  axis_eq : plane.axis = (a : Int)
  d_eq : plane.d = -val
  dot_normal : ∀ u : Vec3, u.dot_product plane.normal = u.coord a
  point_coord : plane.point.coord a = val

/-- The three vertex indices of a face are positions of the vertex list. -/
def FaceValid (verts : List Vertex) (face : Face) : Prop :=
  (0 ≤ face.1 ∧ face.1 < verts.length) ∧ (0 ≤ face.2.1 ∧ face.2.1 < verts.length) ∧
    (0 ≤ face.2.2 ∧ face.2.2 < verts.length)

instance (verts : List Vertex) (face : Face) : Decidable (FaceValid verts face) := by
  unfold FaceValid; infer_instance

/-- Every face index of the mesh is in `[0, vertex_count)`. -/
def FacesValid (verts : List Vertex) (faces : List Face) : Prop :=
  ∀ face ∈ faces, FaceValid verts face

instance (verts : List Vertex) (faces : List Face) : Decidable (FacesValid verts faces) := by
  unfold FacesValid; infer_instance

/-- What the `Poly` constructor stores for a face: the indices, the three vertex
positions and their arithmetic mean. -/
structure Poly.Made (poly : Poly) (face : Face) (verts : List Vertex) : Prop where
  indexes_eq : poly.indexes = ⟨face.1, face.2.1, face.2.2⟩
  p0 : ∃ v, verts[face.1.toNat]? = some v ∧ poly.points.e0 = Vec3.ofVertex v
  p1 : ∃ v, verts[face.2.1.toNat]? = some v ∧ poly.points.e1 = Vec3.ofVertex v
  p2 : ∃ v, verts[face.2.2.toNat]? = some v ∧ poly.points.e2 = Vec3.ofVertex v
  center_eq : ∀ a, poly.center.coord a =
    (poly.points.e0.coord a + poly.points.e1.coord a + poly.points.e2.coord a) / 3

/-- The tables of `b` are the ones the constructor makes from the mesh. -/
structure BspBuilder.Built (b : BspBuilder) (sqrt : ℚ → ℚ) (verts : List Vertex)
    (faces : List Face) : Prop where
  faces_valid : FacesValid verts faces
  polys_made : List.Forall₂ (fun face poly => Poly.new sqrt face verts = Except.ok poly ∧
    poly.Made face verts) faces b.polys
  planes_made : List.Forall₂ (fun v (ap : AxisPlanes) => ∀ i, i < 3 →
    Plane.new ((Vec3.ofVertex v).coord i) (i : Int) = Except.ok (ap.get i)) verts b.planes
  vert_count_eq : b.vert_count = verts.length

/-- One triangle in the plane z = 0. -/
def tri_verts : List Vertex := [(0, 0, 0), (1, 0, 0), (0, 1, 0)]

/-- The face of the single triangle. -/
def tri_face : Face := (0, 1, 2)

/-- A small mesh: two triangles apart on the x axis. -/
def demo_verts : List Vertex :=
  [(1, 1, 0), (0, 0, 0), (1, 0, 1), (4, 0, 0), (3, 1, 0), (3, 0, 1)]

/-- The faces of the small mesh. -/
def demo_faces : List Face := [(0, 1, 2), (3, 4, 5)]

/-- Every vertex of the list lies on one side of the plane of axis `a` through
`val` (the plane itself included). -/
def one_sided (verts : List Vertex) (a : Nat) (val : ℚ) : Prop :=
  (∀ v ∈ verts, (Vec3.ofVertex v).coord a ≤ val) ∨
  (∀ v ∈ verts, val ≤ (Vec3.ofVertex v).coord a)

instance (verts : List Vertex) (a : Nat) (val : ℚ) : Decidable (one_sided verts a val) := by
  unfold one_sided; infer_instance

/-- For every face, the plane of vertex `i` on axis `i` has the whole vertex list
on one side, for `i = 0, 1, 2`. -/
def all_candidates_one_sided (verts : List Vertex) (faces : List Face) : Prop :=
  ∀ face ∈ faces,
    (∀ vert ∈ verts[face.1.toNat]?, one_sided verts 0 (Vec3.ofVertex vert).x) ∧
    (∀ vert ∈ verts[face.2.1.toNat]?, one_sided verts 1 (Vec3.ofVertex vert).y) ∧
    (∀ vert ∈ verts[face.2.2.toNat]?, one_sided verts 2 (Vec3.ofVertex vert).z)

instance (verts : List Vertex) (faces : List Face) :
    Decidable (all_candidates_one_sided verts faces) := by
  unfold all_candidates_one_sided; infer_instance

/-- Every vertex coordinate is `0` or `1`: the vertices are corners of the unit cube. -/
def unit_coords (verts : List Vertex) : Prop :=
  ∀ v ∈ verts, (v.1 = 0 ∨ v.1 = 1) ∧ (v.2.1 = 0 ∨ v.2.1 = 1) ∧ (v.2.2 = 0 ∨ v.2.2 = 1)

instance (verts : List Vertex) : Decidable (unit_coords verts) := by
  unfold unit_coords; infer_instance

/-- The 8 corners of the unit cube. -/
def cube_verts : List Vertex :=
  [(0, 0, 0), (1, 0, 0), (1, 1, 0), (0, 1, 0), (0, 0, 1), (1, 0, 1), (1, 1, 1), (0, 1, 1)]

/-- The 12 triangles of the unit cube, two per cube face. -/
def cube_faces : List Face :=
  [(0, 1, 2), (0, 2, 3), (4, 5, 6), (4, 6, 7), (0, 1, 5), (0, 5, 4),
   (3, 2, 6), (3, 6, 7), (0, 3, 7), (0, 7, 4), (1, 2, 6), (1, 6, 5)]

/-- Two triangles apart on the x axis; vertex 1 of the first one has the largest
x of that triangle. -/
def skew_verts : List Vertex :=
  [(0, 0, 0), (1, 1, 0), (1, 0, 1), (4, 0, 0), (3, 1, 0), (3, 0, 1)]

/-- The faces of the two-triangle mesh `skew_verts`. -/
def skew_faces : List Face := [(0, 1, 2), (3, 4, 5)]

/-- The three planes of one table entry, as a list. -/
def Array3.toList {α : Type} (a : Array3 α) : List α := [a.e0, a.e1, a.e2]

/-- The edge loop of `Poly::intersects` with the guard
`!(last_side_parallel && t == 0.0f)` removed: the crossing condition
`0 < t < 0.999999` is tested alone. -/
def Poly.intersects_loop_unguarded (poly : Poly) (plane : Plane) : List Nat → Bool
  | [] => false
  | vertex :: rest =>
    let prevVertex := if vertex ≠ 0 then vertex - 1 else 3 - 1
    let EdgeDelta := Vec3.sub_vectors (poly.points.get vertex) (poly.points.get prevVertex)
    let denom := EdgeDelta.dot_product plane.normal
    if denom ≠ 0 then
      let numer := (poly.points.get prevVertex).dot_product plane.normal + plane.d
      let t := -numer / denom
      if t > 0 ∧ t < 16777199 / 16777216 then
        true
      else
        poly.intersects_loop_unguarded plane rest
    else
      poly.intersects_loop_unguarded plane rest

/-- The variant of `Poly::intersects` without the guard on `last_side_parallel`. -/
def Poly.intersects_unguarded (poly : Poly) (plane : Plane) : Bool :=
  if !(poly.normal.equals plane.normal) then
    poly.intersects_loop_unguarded plane [0, 1, 2]
  else
    false

/-- A triangle in the plane z = 0 that the plane x = 1/2 cuts. -/
def cut_poly : Poly :=
  { indexes := ⟨0, 1, 2⟩, points := ⟨⟨0, 0, 0⟩, ⟨1, 0, 0⟩, ⟨0, 1, 0⟩⟩,
    center := ⟨1 / 3, 1 / 3, 0⟩, normal := ⟨0, 0, -1⟩, d := 0 }

/-- The plane x = 1/2, as `Plane(0.5, 0)` makes it. -/
def cut_plane : Plane :=
  { val := 1 / 2, axis := 0, normal := ⟨1, 0, 0⟩, point := ⟨1 / 2, 0, 0⟩, d := -(1 / 2) }

/-- A thin triangle: vertex 0 at x = -1, vertex 1 at x = 1/10000000, vertex 2 at x = 0. -/
def sliver_verts : List Vertex := [(-1, 0, 0), (1 / 10000000, 1, 0), (0, 0, 1)]

/-- One iteration of the inner loop of `find_best_split_plane` in the variant
without the `plane_flags` test: the candidate is evaluated every time it is met. -/
def BspBuilder.test_plane_no_flags (b : BspBuilder) (poly_indexes : List Nat)
    (test_poly : Poly) (i : Nat) (st : Search) : Except Fault Search := do
  let vert := test_poly.indexes.get i
  let axis_planes ← at_int b.planes vert
  let split_plane := axis_planes.get i
  match ← b.plane_metric poly_indexes split_plane with
  | none => pure st
  | some metric =>
    if st.best_metric.above metric then
      pure { st with best_metric := some metric, best_split_plane := some ⟨vert, i⟩ }
    else
      pure st

/-- The inner loop of the variant without the `plane_flags` test. -/
def BspBuilder.inner_loop_no_flags (b : BspBuilder) (poly_indexes : List Nat)
    (test_poly : Poly) : List Nat → Search → Except Fault Search
  | [], st => pure st
  | i :: rest, st => do
    let st ← b.test_plane_no_flags poly_indexes test_poly i st
    b.inner_loop_no_flags poly_indexes test_poly rest st

/-- The outer loop of the variant without the `plane_flags` test. -/
def BspBuilder.outer_loop_no_flags (b : BspBuilder) (poly_indexes : List Nat) :
    List Nat → Search → Except Fault Search
  | [], st => pure st
  | test_poly_index :: rest, st => do
    let test_poly ← at_index b.polys test_poly_index
    let st ← b.inner_loop_no_flags poly_indexes test_poly [0, 1, 2] st
    b.outer_loop_no_flags poly_indexes rest st

/-- The variant of `find_best_split_plane` that never skips a candidate. -/
def BspBuilder.find_best_split_plane_no_flags (b : BspBuilder) (poly_indexes : List Nat) :
    Except Fault (Option PlanePtr) := do
  let st ← b.outer_loop_no_flags poly_indexes poly_indexes
    { best_metric := none, best_split_plane := none, plane_flags := [] }
  pure st.best_split_plane

/-- Invariant of the pass without flags after the candidates `seen`. -/
structure BspBuilder.BestInv (b : BspBuilder) (s : List Nat) (seen : List PlanePtr)
    (st : Search) : Prop where
  no_best : st.best_split_plane = none →
    st.best_metric = none ∧ ∀ c ∈ seen, b.score s c = none
  best : ∀ c, st.best_split_plane = some c →
    ∃ m, st.best_metric = some m ∧ b.FirstBest s seen c m

/-- The coplanar ratio of a plane over the subset `s`. -/
def BspBuilder.coplanar_ratio_of (b : BspBuilder) (s : List Nat) (plane : Plane) : ℚ :=
  (b.count_of plane s PolyType.COPLANAR : ℚ) / (s.length : ℚ)

/-- All face indices stored in the `front_faces` and `back_faces` lists of a tree. -/
def NodePtr.leaf_faces : NodePtr → List Nat
  | NodePtr.null => []
  | NodePtr.node _ front_faces back_faces front_node back_node =>
    front_faces ++ back_faces ++ front_node.leaf_faces ++ back_node.leaf_faces

/-- Division that records a zero divisor: `none` when the divisor is `0`. -/
def div_checked (x y : ℚ) : Option ℚ :=
  if y = 0 then none else some (x / y)

/-- Lines 324-361 of `find_best_split_plane` with the divisor of each of the
three divisions checked: the result is `none` when a zero divisor is met and
`some` of the result of `plane_metric` otherwise. -/
def BspBuilder.plane_metric_checked (b : BspBuilder) (poly_indexes : List Nat)
    (split_plane : Plane) : Except Fault (Option (Option ℚ)) := do
  let poly_count := poly_indexes.length
  let c ← b.count_loop split_plane poly_indexes ⟨0, 0, 0, 0⟩
  if c.front_count = 0 ∨ c.back_count = 0 then
    pure (some none)
  else
    match div_checked (c.front_count : ℚ) ((c.front_count + c.back_count : Nat) : ℚ),
        div_checked (c.intersect_count : ℚ) (poly_count : ℚ),
        div_checked (c.coplanar_count : ℚ) (poly_count : ℚ) with
    | some split_ratio, some intersect_ratio, some coplanar_ratio =>
      let metric : ℚ := |1 / 2 - split_ratio| * b.split_weight +
                        intersect_ratio * b.intersect_weight +
                        coplanar_ratio * b.coplanar_weight
      if b.min_split_metric.below metric then
        pure (some none)
      else
        pure (some (some metric))
    | _, _, _ => pure none

/-- Three triangles along the x axis; the middle one lies in the plane x = 2. -/
def weight_verts : List Vertex :=
  [(1, 0, 0), (0, 1, 0), (0, 0, 1), (2, 0, 0), (2, 1, 0), (2, 0, 1),
   (4, 0, 0), (3, 1, 0), (3, 0, 1)]

/-- The faces of the three-triangle mesh `weight_verts`. -/
def weight_faces : List Face := [(0, 1, 2), (3, 4, 5), (6, 7, 8)]

/-! ## Float arithmetic with rounding

The definitions above compute with exact rationals.  The definitions of this
part follow the same source lines with the rounding of `float` made explicit:
every arithmetic operation of the source returns `rnd` of the exact result,
where `rnd : ℚ → ℚ` is the rounding of the machine (a parameter), `sqrt` is the
machine square root (its result already rounded), comparisons and negation are
exact, and an `int` converted to `float` is rounded as well.  With `rnd = id`
these are the exact definitions.  Overflow to infinity and NaN are outside the
model. -/

namespace Vec3

/-- Source: `length()`, every operation rounded. -/
def length_float (rnd sqrt : ℚ → ℚ) (v : Vec3) : ℚ :=
  sqrt (rnd (rnd (rnd (v.x * v.x) + rnd (v.y * v.y)) + rnd (v.z * v.z)))

/-- Source: `scale(s)`, every operation rounded. -/
def scale_float (rnd : ℚ → ℚ) (v : Vec3) (s : ℚ) : Vec3 :=
  ⟨rnd (v.x * s), rnd (v.y * s), rnd (v.z * s)⟩

/-- Source: `normalize()`, every operation rounded. -/
def normalize_float (rnd sqrt : ℚ → ℚ) (v : Vec3) : Vec3 :=
  let len := v.length_float rnd sqrt
  if len = 0 then v else v.scale_float rnd (rnd (1 / len))

/-- Source: `add(v)`, every operation rounded. -/
def add_float (rnd : ℚ → ℚ) (u v : Vec3) : Vec3 :=
  ⟨rnd (u.x + v.x), rnd (u.y + v.y), rnd (u.z + v.z)⟩

/-- Source: `sub_vectors(v1, v2)`, every operation rounded. -/
def sub_vectors_float (rnd : ℚ → ℚ) (v1 v2 : Vec3) : Vec3 :=
  ⟨rnd (v1.x - v2.x), rnd (v1.y - v2.y), rnd (v1.z - v2.z)⟩

/-- Source: `cross_product(v)`, every operation rounded. -/
def cross_product_float (rnd : ℚ → ℚ) (u v : Vec3) : Vec3 :=
  ⟨rnd (rnd (u.y * v.z) - rnd (u.z * v.y)), rnd (rnd (u.z * v.x) - rnd (u.x * v.z)),
    rnd (rnd (u.x * v.y) - rnd (u.y * v.x))⟩

/-- Source: `dot_product(v)`, every operation rounded. -/
def dot_product_float (rnd : ℚ → ℚ) (u v : Vec3) : ℚ :=
  rnd (rnd (rnd (v.x * u.x) + rnd (v.y * u.y)) + rnd (v.z * u.z))

end Vec3

/-- Source: `Poly(face, verts)`, every float operation rounded. -/
def Poly.new_float (rnd sqrt : ℚ → ℚ) (face : Face) (verts : List Vertex) :
    Except Fault Poly := do
  let p0 ← at_int verts face.1
  let p1 ← at_int verts face.2.1
  let p2 ← at_int verts face.2.2
  let points : Array3 Vec3 := ⟨Vec3.ofVertex p0, Vec3.ofVertex p1, Vec3.ofVertex p2⟩
  let indexes : Array3 Int := ⟨face.1, face.2.1, face.2.2⟩
  let center := (((Vec3.zero.add_float rnd points.e0).add_float rnd points.e1).add_float rnd
    points.e2).scale_float rnd (rnd (1 / 3))
  let a := Vec3.sub_vectors_float rnd (points.get 0) (points.get 1)
  let b := Vec3.sub_vectors_float rnd (points.get 2) (points.get 1)
  let normal := (a.cross_product_float rnd b).normalize_float rnd sqrt
  pure { indexes := indexes, points := points, center := center, normal := normal,
         d := -(normal.dot_product_float rnd center) }

/-- The edge loop of `Poly::intersects`, every float operation rounded. -/
def Poly.intersects_loop_float (rnd : ℚ → ℚ) (poly : Poly) (plane : Plane) :
    List Nat → Bool → Bool
  | [], _ => false
  | vertex :: rest, last_side_parallel =>
    let prevVertex := if vertex ≠ 0 then vertex - 1 else 3 - 1
    let EdgeDelta :=
      Vec3.sub_vectors_float rnd (poly.points.get vertex) (poly.points.get prevVertex)
    let denom := EdgeDelta.dot_product_float rnd plane.normal
    if denom ≠ 0 then
      let numer := rnd ((poly.points.get prevVertex).dot_product_float rnd plane.normal + plane.d)
      let t := rnd (-numer / denom)
      if ¬ (last_side_parallel = true ∧ t = 0) then
        if t > 0 ∧ t < 16777199 / 16777216 then
          true
        else
          poly.intersects_loop_float rnd plane rest (decide (denom = 0))
      else
        poly.intersects_loop_float rnd plane rest (decide (denom = 0))
    else
      poly.intersects_loop_float rnd plane rest (decide (denom = 0))

/-- Source: `Poly::intersects(plane)`, every float operation rounded. -/
def Poly.intersects_float (rnd : ℚ → ℚ) (poly : Poly) (plane : Plane) : Bool :=
  if !(poly.normal.equals plane.normal) then
    poly.intersects_loop_float rnd plane [0, 1, 2] false
  else
    false

/-- Source: `Poly::clasify(plane)`, every float operation rounded. -/
def Poly.clasify_float (rnd : ℚ → ℚ) (poly : Poly) (plane : Plane) : PolyType :=
  if poly.intersects_float rnd plane then
    PolyType.STRADDLE
  else
    let delta := Vec3.sub_vectors_float rnd poly.center plane.point
    let dotp := delta.dot_product_float rnd plane.normal
    if dotp = 0 then PolyType.COPLANAR
    else if dotp < 0 then PolyType.FRONT
    else PolyType.BACK

/-- The counting loop of `find_best_split_plane` (lines 329-347), over the
rounded classification. -/
def BspBuilder.count_loop_float (b : BspBuilder) (rnd : ℚ → ℚ) (split_plane : Plane) :
    List Nat → Counts → Except Fault Counts
  | [], c => pure c
  | poly_index :: rest, c => do
    let poly ← at_index b.polys poly_index
    match poly.clasify_float rnd split_plane with
    | PolyType.STRADDLE =>
      b.count_loop_float rnd split_plane rest { c with intersect_count := c.intersect_count + 1 }
    | PolyType.COPLANAR =>
      b.count_loop_float rnd split_plane rest { c with coplanar_count := c.coplanar_count + 1 }
    | PolyType.FRONT =>
      b.count_loop_float rnd split_plane rest { c with front_count := c.front_count + 1 }
    | PolyType.BACK =>
      b.count_loop_float rnd split_plane rest { c with back_count := c.back_count + 1 }

/-- The metric of lines 349-354 from the four counts, every float operation
rounded: the casts `(float)count`, the three divisions, the subtraction from
`0.5f`, the three products and the two sums. -/
def metric_float (rnd : ℚ → ℚ) (front_count back_count intersect_count coplanar_count
    poly_count : Nat) (split_weight intersect_weight coplanar_weight : ℚ) : ℚ :=
  let split_ratio : ℚ := rnd (rnd (front_count : ℚ) / rnd ((front_count + back_count : Nat) : ℚ))
  let intersect_ratio : ℚ := rnd (rnd (intersect_count : ℚ) / rnd (poly_count : ℚ))
  let coplanar_ratio : ℚ := rnd (rnd (coplanar_count : ℚ) / rnd (poly_count : ℚ))
  rnd (rnd (rnd (|rnd (1 / 2 - split_ratio)| * split_weight) +
      rnd (intersect_ratio * intersect_weight)) +
    rnd (coplanar_ratio * coplanar_weight))

/-- Lines 324-361 of `find_best_split_plane` with rounded float operations: the
counts of one candidate plane and its metric; `none` when one of the two
`continue` statements is taken. -/
def BspBuilder.plane_metric_float (b : BspBuilder) (rnd : ℚ → ℚ) (poly_indexes : List Nat)
    (split_plane : Plane) : Except Fault (Option ℚ) := do
  let poly_count := poly_indexes.length
  let c ← b.count_loop_float rnd split_plane poly_indexes ⟨0, 0, 0, 0⟩
  if c.front_count = 0 ∨ c.back_count = 0 then
    pure none
  else
    let metric : ℚ := metric_float rnd c.front_count c.back_count c.intersect_count
      c.coplanar_count poly_count b.split_weight b.intersect_weight b.coplanar_weight
    if b.min_split_metric.below metric then
      pure none
    else
      pure (some metric)

/-- One iteration of the inner loop of `find_best_split_plane` (lines 315-366),
with rounded float operations. -/
def BspBuilder.test_plane_float (b : BspBuilder) (rnd : ℚ → ℚ) (poly_indexes : List Nat)
    (test_poly : Poly) (i : Nat) (st : Search) : Except Fault Search := do
  let vert := test_poly.indexes.get i
  let flag ← at_int st.plane_flags (3 * vert + i)
  if flag then
    pure st
  else
    let st := { st with plane_flags := st.plane_flags.set (3 * vert + i).toNat true }
    let axis_planes ← at_int b.planes vert
    let split_plane := axis_planes.get i
    match ← b.plane_metric_float rnd poly_indexes split_plane with
    | none => pure st
    | some metric =>
      if st.best_metric.above metric then
        pure { st with best_metric := some metric, best_split_plane := some ⟨vert, i⟩ }
      else
        pure st

/-- The inner loop of `find_best_split_plane`, with rounded float operations. -/
def BspBuilder.inner_loop_float (b : BspBuilder) (rnd : ℚ → ℚ) (poly_indexes : List Nat)
    (test_poly : Poly) : List Nat → Search → Except Fault Search
  | [], st => pure st
  | i :: rest, st => do
    let st ← b.test_plane_float rnd poly_indexes test_poly i st
    b.inner_loop_float rnd poly_indexes test_poly rest st

/-- The outer loop of `find_best_split_plane`, with rounded float operations. -/
def BspBuilder.outer_loop_float (b : BspBuilder) (rnd : ℚ → ℚ) (poly_indexes : List Nat) :
    List Nat → Search → Except Fault Search
  | [], st => pure st
  | test_poly_index :: rest, st => do
    let test_poly ← at_index b.polys test_poly_index
    let st ← b.inner_loop_float rnd poly_indexes test_poly [0, 1, 2] st
    b.outer_loop_float rnd poly_indexes rest st

/-- Source: `BspBuilder::find_best_split_plane(poly_indexes)` with rounded float
operations; `none` is `nullptr`. -/
def BspBuilder.find_best_split_plane_float (b : BspBuilder) (rnd : ℚ → ℚ)
    (poly_indexes : List Nat) : Except Fault (Option PlanePtr) := do
  let st ← b.outer_loop_float rnd poly_indexes poly_indexes
    { best_metric := none, best_split_plane := none,
      plane_flags := List.replicate (b.vert_count * 3) false }
  pure st.best_split_plane

/-- Integer nearest to `q`, ties to the even one. -/
def round_even (q : ℚ) : Int :=
  let f := ⌊q⌋
  let r := q - f
  if r < 1 / 2 then f
  else if 1 / 2 < r then f + 1
  else if f % 2 = 0 then f else f + 1

/-- The binary32 value nearest to `q` (ties to even; 24 bits of significand,
least exponent -126, denormal numbers included; values beyond the largest
finite float are not mapped to infinity). -/
def f32 (q : ℚ) : ℚ :=
  if q = 0 then 0
  else
    let e : Int := max (Int.log 2 |q|) (-126)
    (round_even (q / 2 ^ (e - 23)) : ℚ) * 2 ^ (e - 23)

/-- Classification of face `f` by the rounded `clasify`; `none` outside the table. -/
def BspBuilder.type_of_float (b : BspBuilder) (rnd : ℚ → ℚ) (plane : Plane) (f : Nat) :
    Option PolyType :=
  b.polys[f]?.map (fun poly => poly.clasify_float rnd plane)

/-- Number of faces of `s` whose rounded classification against `plane` is `ty`. -/
def BspBuilder.count_of_float (b : BspBuilder) (rnd : ℚ → ℚ) (plane : Plane) (s : List Nat)
    (ty : PolyType) : Nat :=
  s.countP (fun f => decide (b.type_of_float rnd plane f = some ty))

/-- The metric the code computes for `plane` over `s`: the formula of the
specification on the four counts, every float operation rounded. -/
def BspBuilder.metric_of_float (b : BspBuilder) (rnd : ℚ → ℚ) (s : List Nat) (plane : Plane) :
    ℚ :=
  metric_float rnd (b.count_of_float rnd plane s PolyType.FRONT)
    (b.count_of_float rnd plane s PolyType.BACK) (b.count_of_float rnd plane s PolyType.STRADDLE)
    (b.count_of_float rnd plane s PolyType.COPLANAR) s.length
    b.split_weight b.intersect_weight b.coplanar_weight

/-- Acceptance: both one-sided counts are at least 1 and the computed metric is
not greater than `min_split_metric`. -/
def BspBuilder.accepts_float (b : BspBuilder) (rnd : ℚ → ℚ) (s : List Nat) (plane : Plane) :
    Prop :=
  1 ≤ b.count_of_float rnd plane s PolyType.FRONT ∧
    1 ≤ b.count_of_float rnd plane s PolyType.BACK ∧
    ∀ v ∈ b.min_split_metric, b.metric_of_float rnd s plane ≤ v

instance (b : BspBuilder) (rnd : ℚ → ℚ) (s : List Nat) (plane : Plane) :
    Decidable (b.accepts_float rnd s plane) := by
  unfold BspBuilder.accepts_float; infer_instance

/-- The computed metric of candidate `c` over the subset `s` when the candidate
is accepted, `none` when it is not. -/
def BspBuilder.score_float (b : BspBuilder) (rnd : ℚ → ℚ) (s : List Nat) (c : PlanePtr) :
    Option ℚ :=
  match b.deref c with
  | .ok plane => if b.accepts_float rnd s plane then some (b.metric_of_float rnd s plane) else none
  | .error _ => none

/-- The crossing test of one edge as the code computes it, from coordinate
`c_prev` of the previous vertex, coordinate `c_vert` of the vertex and the
plane value: the computed extent of the edge is not zero and the computed
fraction `t` lies strictly between `0` and `0.999999f`. -/
def crosses_float (rnd : ℚ → ℚ) (c_prev c_vert val : ℚ) : Prop :=
  rnd (c_vert - c_prev) ≠ 0 ∧
    0 < rnd (-(rnd (rnd c_prev + -val)) / rnd (c_vert - c_prev)) ∧
    rnd (-(rnd (rnd c_prev + -val)) / rnd (c_vert - c_prev)) < 16777199 / 16777216

instance (rnd : ℚ → ℚ) (c_prev c_vert val : ℚ) :
    Decidable (crosses_float rnd c_prev c_vert val) := by
  unfold crosses_float; infer_instance

/-- The value an `int` (32 bits, two's complement) holds for the arithmetic
result `x`.  Signed overflow is undefined behaviour in C++; the embedding takes
the wrapped value, as the usual targets do. -/
def wrap_int (x : Int) : Int := (x + 2147483648) % 4294967296 - 2147483648

/-- The index expression `3 * vert + i` of lines 317 and 321, in `int` arithmetic. -/
def flag_index (vert : Int) (i : Nat) : Int := wrap_int (wrap_int (3 * vert) + i)

/-- One iteration of the inner loop of `find_best_split_plane` (lines 315-366),
with the index of `plane_flags` computed in `int`. -/
def BspBuilder.test_plane_int32 (b : BspBuilder) (poly_indexes : List Nat) (test_poly : Poly)
    (i : Nat) (st : Search) : Except Fault Search := do
  let vert := test_poly.indexes.get i
  let flag ← at_int st.plane_flags (flag_index vert i)
  if flag then
    pure st
  else
    let st := { st with plane_flags := st.plane_flags.set (flag_index vert i).toNat true }
    let axis_planes ← at_int b.planes vert
    let split_plane := axis_planes.get i
    match ← b.plane_metric poly_indexes split_plane with
    | none => pure st
    | some metric =>
      if st.best_metric.above metric then
        pure { st with best_metric := some metric, best_split_plane := some ⟨vert, i⟩ }
      else
        pure st

/-- The inner loop of `find_best_split_plane`, with the flag index in `int`. -/
def BspBuilder.inner_loop_int32 (b : BspBuilder) (poly_indexes : List Nat) (test_poly : Poly) :
    List Nat → Search → Except Fault Search
  | [], st => pure st
  | i :: rest, st => do
    let st ← b.test_plane_int32 poly_indexes test_poly i st
    b.inner_loop_int32 poly_indexes test_poly rest st

/-- The outer loop of `find_best_split_plane`, with the flag index in `int`. -/
def BspBuilder.outer_loop_int32 (b : BspBuilder) (poly_indexes : List Nat) :
    List Nat → Search → Except Fault Search
  | [], st => pure st
  | test_poly_index :: rest, st => do
    let test_poly ← at_index b.polys test_poly_index
    let st ← b.inner_loop_int32 poly_indexes test_poly [0, 1, 2] st
    b.outer_loop_int32 poly_indexes rest st

/-- Source: `BspBuilder::find_best_split_plane(poly_indexes)`, with the index
of `plane_flags` computed in `int`; `none` is `nullptr`. -/
def BspBuilder.find_best_split_plane_int32 (b : BspBuilder) (poly_indexes : List Nat) :
    Except Fault (Option PlanePtr) := do
  let st ← b.outer_loop_int32 poly_indexes poly_indexes
    { best_metric := none, best_split_plane := none,
      plane_flags := List.replicate (b.vert_count * 3) false }
  pure st.best_split_plane

/-- A mesh of 715827884 vertices. -/
def huge_verts : List Vertex := List.replicate 715827884 (0, 0, 0)

/-- One face, whose first index is the last vertex of `huge_verts`. -/
def huge_faces : List Face := [(715827883, 0, 0)]

/-- Source: `BspBuilder::build_bsp_tree(poly_indexes)`, with a recursion budget
and the flag index of the selection pass computed in `int`. -/
def BspBuilder.build_bsp_tree_int32 (b : BspBuilder) : Nat → List Nat → Except Fault NodePtr
  | 0, _ => .error .outOfFuel
  | fuel + 1, poly_indexes => do
    match ← b.find_best_split_plane_int32 poly_indexes with
    | none => pure NodePtr.null
    | some p =>
      let split_plane ← b.deref p
      let (front, back) ← b.route split_plane poly_indexes [] []
      let front_node ← b.build_bsp_tree_int32 fuel front
      let front_faces := if front_node = NodePtr.null then front else []
      let back_node ← b.build_bsp_tree_int32 fuel back
      let back_faces := if back_node = NodePtr.null then back else []
      pure (NodePtr.node split_plane front_faces back_faces front_node back_node)

/-- Source: the constructor `BspBuilder(...)`, with the flag index of the
selection pass computed in `int`; `fuel` bounds the recursion. -/
def BspBuilder.new_int32 (sqrt : ℚ → ℚ) (fuel : Nat) (verts : List Vertex) (faces : List Face)
    (coplanar_weight intersect_weight split_weight : ℚ) (min_split_metric : FloatInf) :
    Except Fault BspBuilder := do
  let polys ← make_polys sqrt verts faces
  let poly_indexes := List.range faces.length
  let planes ← make_planes verts
  let b : BspBuilder :=
    { root := NodePtr.null, polys := polys, planes := planes, vert_count := verts.length,
      coplanar_weight := coplanar_weight, intersect_weight := intersect_weight,
      split_weight := split_weight, min_split_metric := min_split_metric }
  let root ← b.build_bsp_tree_int32 fuel poly_indexes
  pure { b with root := root }

theorem bind_ok {α β : Type} (a : α) (f : α → Except Fault β) :
    (Except.ok a >>= f) = f a := rfl

theorem bind_error {α β : Type} (e : Fault) (f : α → Except Fault β) :
    ((Except.error e : Except Fault α) >>= f) = Except.error e := rfl

theorem pure_eq_ok {α : Type} (a : α) : (pure a : Except Fault α) = Except.ok a := rfl

theorem at_index_of_lt {α : Type} (xs : List α) (i : Nat) (h : i < xs.length) :
    at_index xs i = Except.ok xs[i] := by
  simp [at_index, List.getElem?_eq_getElem h]

theorem at_index_ok_iff {α : Type} (xs : List α) (i : Nat) (a : α) :
    at_index xs i = Except.ok a ↔ xs[i]? = some a := by
  unfold at_index
  cases h : xs[i]? <;> simp

theorem count_loop_eq (b : BspBuilder) (plane : Plane) (s : List Nat) (h : b.InRange s)
    (c : Counts) :
    b.count_loop plane s c = Except.ok
      { coplanar_count := c.coplanar_count + b.count_of plane s PolyType.COPLANAR,
        intersect_count := c.intersect_count + b.count_of plane s PolyType.STRADDLE,
        front_count := c.front_count + b.count_of plane s PolyType.FRONT,
        back_count := c.back_count + b.count_of plane s PolyType.BACK } := by
  induction s generalizing c with
  | nil => simp [BspBuilder.count_loop, BspBuilder.count_of, pure_eq_ok]
  | cons f rest ih =>
    have hf : f < b.polys.length := h f (List.mem_cons_self _ _)
    have hr : b.InRange rest := fun g hg => h g (List.mem_cons_of_mem _ hg)
    have hty : b.type_of plane f = some (b.polys[f].clasify plane) := by
      simp [BspBuilder.type_of, List.getElem?_eq_getElem hf]
    simp only [BspBuilder.count_loop, at_index_of_lt _ _ hf, bind_ok]
    cases hc : b.polys[f].clasify plane <;>
      simp only [hc] at hty ⊢ <;>
      rw [ih hr] <;>
      simp [BspBuilder.count_of, List.countP_cons, hty] <;> omega

theorem below_eq_true_iff (f : FloatInf) (m : ℚ) :
    f.below m = true ↔ ¬ ∀ v ∈ f, m ≤ v := by
  cases f with
  | none => simp [FloatInf.below]
  | some v => simp [FloatInf.below]

theorem plane_metric_eq (b : BspBuilder) (s : List Nat) (plane : Plane) (h : b.InRange s) :
    b.plane_metric s plane =
      Except.ok (if b.accepts s plane then some (b.metric_of s plane) else none) := by
  unfold BspBuilder.plane_metric
  simp only [count_loop_eq b plane s h, bind_ok, Nat.zero_add]
  by_cases h0 : b.count_of plane s PolyType.FRONT = 0 ∨ b.count_of plane s PolyType.BACK = 0
  · have hna : ¬ b.accepts s plane := by
      intro ha
      rcases ha with ⟨h1, h2, _⟩
      omega
    simp [h0, hna, pure_eq_ok]
  · rw [if_neg h0]
    have hm : (|1 / 2 - (b.count_of plane s PolyType.FRONT : ℚ) /
          ((b.count_of plane s PolyType.FRONT + b.count_of plane s PolyType.BACK : Nat) : ℚ)|
          * b.split_weight
        + ((b.count_of plane s PolyType.STRADDLE : ℚ) / (s.length : ℚ)) * b.intersect_weight
        + ((b.count_of plane s PolyType.COPLANAR : ℚ) / (s.length : ℚ)) * b.coplanar_weight)
        = b.metric_of s plane := by
      simp [BspBuilder.metric_of, Nat.cast_add]
    simp only [hm]
    by_cases hb : b.min_split_metric.below (b.metric_of s plane) = true
    · have hna : ¬ b.accepts s plane := by
        intro ha
        exact (below_eq_true_iff _ _).1 hb ha.2.2
      simp [hb, hna, pure_eq_ok]
    · have ha : b.accepts s plane := by
        refine ⟨by omega, by omega, ?_⟩
        by_contra hc
        exact hb ((below_eq_true_iff _ _).2 hc)
      simp [hb, ha, pure_eq_ok]

theorem BspBuilder.FirstBest.le_of_mem {b : BspBuilder} {s : List Nat} {seen : List PlanePtr}
    {c : PlanePtr} {m : ℚ} (h : b.FirstBest s seen c m) {c' : PlanePtr} (hc : c' ∈ seen)
    {m' : ℚ} (hs : b.score s c' = some m') : m ≤ m' := by
  obtain ⟨pre, post, rfl, hcm, hpre, hpost⟩ := h
  rcases List.mem_append.1 hc with h1 | h1
  · exact le_of_lt (hpre c' h1 m' hs)
  · rcases List.mem_cons.1 h1 with h2 | h2
    · subst h2
      rw [hcm] at hs
      exact le_of_eq (Option.some.inj hs)
    · exact hpost c' h2 m' hs

theorem BspBuilder.FirstBest.snoc {b : BspBuilder} {s : List Nat} {seen : List PlanePtr}
    {c : PlanePtr} {m : ℚ} (h : b.FirstBest s seen c m) (c2 : PlanePtr)
    (hle : ∀ m', b.score s c2 = some m' → m ≤ m') : b.FirstBest s (seen ++ [c2]) c m := by
  obtain ⟨pre, post, rfl, hcm, hpre, hpost⟩ := h
  refine ⟨pre, post ++ [c2], by simp, hcm, hpre, ?_⟩
  intro c' hc' m' hs
  rcases List.mem_append.1 hc' with h1 | h1
  · exact hpost c' h1 m' hs
  · have : c' = c2 := by simpa using h1
    subst this
    exact hle m' hs

theorem BspBuilder.FirstBest.replace {b : BspBuilder} {s : List Nat} {seen : List PlanePtr}
    (c2 : PlanePtr) (m2 : ℚ) (hs2 : b.score s c2 = some m2)
    (hlt : ∀ c' ∈ seen, ∀ m', b.score s c' = some m' → m2 < m') :
    b.FirstBest s (seen ++ [c2]) c2 m2 :=
  ⟨seen, [], rfl, hs2, hlt, by simp⟩

theorem set_flag_iff (flags : List Bool) (j k : Nat) (hj : j < flags.length) :
    (flags.set j true)[k]? = some true ↔ (flags[k]? = some true ∨ k = j) := by
  rw [List.getElem?_set]
  by_cases hjk : j = k
  · subst hjk
    simp [hj]
  · simp [hjk]
    intro h
    exact absurd h.symm hjk

theorem deref_eq (b : BspBuilder) (v : Int) (i : Nat) (h0 : 0 ≤ v)
    (h1 : v.toNat < b.planes.length) :
    b.deref ⟨v, i⟩ = Except.ok (b.planes[v.toNat].get i) := by
  have : ¬ v < 0 := by omega
  simp [BspBuilder.deref, at_int, this, at_index_of_lt _ _ h1, bind_ok, pure_eq_ok]

theorem test_plane_step (b : BspBuilder) (hb : b.WF) (s : List Nat) (hs : b.InRange s)
    (poly : Poly) (hp : poly ∈ b.polys) (i : Nat) (hi : i < 3)
    (seen : List PlanePtr) (st : Search) (inv : b.SearchInv s seen st) :
    ∃ st', b.test_plane s poly i st = Except.ok st' ∧
      b.SearchInv s (seen ++ [⟨poly.indexes.get i, i⟩]) st' := by
  obtain ⟨hv0, hv1⟩ := hb.indexes_lt poly hp i hi
  generalize hv : poly.indexes.get i = v at hv0 hv1
  have hidx : (3 * v + (i : Int)).toNat < st.plane_flags.length := by
    rw [inv.flags_length]; omega
  have hnn : ¬ (3 * v + (i : Int)) < 0 := by omega
  have hpl : v.toNat < b.planes.length := by rw [hb.planes_length]; omega
  have hflags := inv.flags v i hv0 hv1 hi
  unfold BspBuilder.test_plane
  simp only [hv, at_int, hnn, if_false, at_index_of_lt _ _ hidx, bind_ok]
  have hget : st.plane_flags[(3 * v + (i : Int)).toNat]? =
      some st.plane_flags[(3 * v + (i : Int)).toNat] := List.getElem?_eq_getElem hidx
  by_cases hflag : st.plane_flags[(3 * v + (i : Int)).toNat] = true
  · -- the plane was tested before
    have hmem : (⟨v, i⟩ : PlanePtr) ∈ seen := hflags.1 (by rw [hget, hflag])
    refine ⟨st, by simp [hflag, pure_eq_ok], ?_⟩
    refine ⟨inv.flags_length, ?_, ?_, ?_⟩
    · intro v' i' h0 h1 h2
      rw [inv.flags v' i' h0 h1 h2]
      constructor
      · intro h; exact List.mem_append_left _ h
      · intro h
        rcases List.mem_append.1 h with h | h
        · exact h
        · have : (⟨v', i'⟩ : PlanePtr) = ⟨v, i⟩ := by simpa using h
          rw [this]; exact hmem
    · intro hn
      refine ⟨(inv.no_best hn).1, ?_⟩
      intro c hc
      rcases List.mem_append.1 hc with h | h
      · exact (inv.no_best hn).2 c h
      · have : c = ⟨v, i⟩ := by simpa using h
        rw [this]; exact (inv.no_best hn).2 _ hmem
    · intro c hc
      obtain ⟨m, hm, hfb⟩ := inv.best c hc
      exact ⟨m, hm, hfb.snoc _ (fun m' hs' => hfb.le_of_mem hmem hs')⟩
  · -- a new plane
    have hnot : (⟨v, i⟩ : PlanePtr) ∉ seen := by
      intro h
      have := hflags.2 h
      rw [hget] at this
      exact hflag (Option.some.inj this)
    have hflag' : st.plane_flags[(3 * v + (i : Int)).toNat] = false := by
      simpa using hflag
    have hfl : ∀ (v' : Int) (i' : Nat), 0 ≤ v' → v' < b.vert_count → i' < 3 →
        ((st.plane_flags.set (3 * v + (i : Int)).toNat true)[(3 * v' + (i' : Int)).toNat]?
          = some true ↔ (⟨v', i'⟩ : PlanePtr) ∈ seen ++ [⟨v, i⟩]) := by
      intro v' i' h0 h1 h2
      rw [set_flag_iff _ _ _ hidx, inv.flags v' i' h0 h1 h2, List.mem_append]
      have : (3 * v' + (i' : Int)).toNat = (3 * v + (i : Int)).toNat ↔ v' = v ∧ i' = i := by
        omega
      rw [this]
      simp
    have hscore : b.score s ⟨v, i⟩ =
        if b.accepts s (b.planes[v.toNat].get i) then
          some (b.metric_of s (b.planes[v.toNat].get i)) else none := by
      simp [BspBuilder.score, deref_eq b v i hv0 hpl]
    have hvn : ¬ v < 0 := by omega
    simp only [hflag', Bool.false_eq_true, if_false, hvn, at_index_of_lt _ _ hpl, bind_ok,
      plane_metric_eq b s _ hs]
    by_cases hacc : b.accepts s (b.planes[v.toNat].get i)
    · simp only [hacc, if_true] at hscore ⊢
      generalize hm : b.metric_of s (b.planes[v.toNat].get i) = metric at hscore ⊢
      by_cases habove : st.best_metric.above metric = true
      · refine ⟨_, by simp [habove, pure_eq_ok]; rfl, ?_⟩
        refine ⟨by simp [inv.flags_length], hfl, by simp, ?_⟩
        intro c hc
        have hc' : c = ⟨v, i⟩ := by simpa using hc.symm
        subst hc'
        refine ⟨metric, rfl, BspBuilder.FirstBest.replace _ _ hscore ?_⟩
        intro c' hc' m' hs'
        cases hbest : st.best_split_plane with
        | none =>
          have := (inv.no_best hbest).2 c' hc'
          rw [this] at hs'
          exact absurd hs' (by simp)
        | some cb =>
          obtain ⟨m, hm', hfb⟩ := inv.best cb hbest
          have h1 : metric < m := by simpa [FloatInf.above, hm'] using habove
          exact lt_of_lt_of_le h1 (hfb.le_of_mem hc' hs')
      · refine ⟨_, by simp [habove, pure_eq_ok]; rfl, ?_⟩
        refine ⟨by simp [inv.flags_length], hfl, ?_, ?_⟩
        · intro hn
          have hn' : st.best_split_plane = none := hn
          have := (inv.no_best hn').1
          simp [FloatInf.above, this] at habove
        · intro c hc
          have hc' : st.best_split_plane = some c := hc
          obtain ⟨m, hm', hfb⟩ := inv.best c hc'
          refine ⟨m, hm', hfb.snoc _ ?_⟩
          intro m' hs'
          rw [hscore] at hs'
          have : metric = m' := Option.some.inj hs'
          subst this
          simpa [FloatInf.above, hm'] using habove
    · simp only [hacc, if_false] at hscore ⊢
      refine ⟨_, by simp [pure_eq_ok]; rfl, ?_⟩
      refine ⟨by simp [inv.flags_length], hfl, ?_, ?_⟩
      · intro hn
        have hn' : st.best_split_plane = none := hn
        refine ⟨(inv.no_best hn').1, ?_⟩
        intro c hc
        rcases List.mem_append.1 hc with h | h
        · exact (inv.no_best hn').2 c h
        · have : c = ⟨v, i⟩ := by simpa using h
          rw [this]; exact hscore
      · intro c hc
        have hc' : st.best_split_plane = some c := hc
        obtain ⟨m, hm', hfb⟩ := inv.best c hc'
        refine ⟨m, hm', hfb.snoc _ ?_⟩
        intro m' hs'
        rw [hscore] at hs'
        exact absurd hs' (by simp)

theorem inner_loop_step (b : BspBuilder) (hb : b.WF) (s : List Nat) (hs : b.InRange s)
    (poly : Poly) (hp : poly ∈ b.polys) (seen : List PlanePtr) (st : Search)
    (inv : b.SearchInv s seen st) :
    ∃ st', b.inner_loop s poly [0, 1, 2] st = Except.ok st' ∧
      b.SearchInv s (seen ++ [⟨poly.indexes.get 0, 0⟩, ⟨poly.indexes.get 1, 1⟩,
        ⟨poly.indexes.get 2, 2⟩]) st' := by
  obtain ⟨st0, h0, inv0⟩ := test_plane_step b hb s hs poly hp 0 (by omega) seen st inv
  obtain ⟨st1, h1, inv1⟩ := test_plane_step b hb s hs poly hp 1 (by omega) _ st0 inv0
  obtain ⟨st2, h2, inv2⟩ := test_plane_step b hb s hs poly hp 2 (by omega) _ st1 inv1
  refine ⟨st2, ?_, ?_⟩
  · simp only [BspBuilder.inner_loop, h0, h1, h2, bind_ok, pure_eq_ok]
  · simpa [List.append_assoc] using inv2

theorem outer_loop_steps (b : BspBuilder) (hb : b.WF) (s : List Nat) (hs : b.InRange s)
    (rest : List Nat) (hr : b.InRange rest) (seen : List PlanePtr) (st : Search)
    (inv : b.SearchInv s seen st) :
    ∃ st', b.outer_loop s rest st = Except.ok st' ∧
      b.SearchInv s (seen ++ b.candidates rest) st' := by
  induction rest generalizing seen st with
  | nil => exact ⟨st, by simp [BspBuilder.outer_loop, pure_eq_ok], by
      simpa [BspBuilder.candidates] using inv⟩
  | cons f rest ih =>
    have hf : f < b.polys.length := hr f (List.mem_cons_self _ _)
    have hr' : b.InRange rest := fun g hg => hr g (List.mem_cons_of_mem _ hg)
    have hp : b.polys[f] ∈ b.polys := List.getElem_mem _
    obtain ⟨st1, h1, inv1⟩ := inner_loop_step b hb s hs b.polys[f] hp seen st inv
    obtain ⟨st2, h2, inv2⟩ := ih hr' _ st1 inv1
    refine ⟨st2, ?_, ?_⟩
    · simp only [BspBuilder.outer_loop, at_index_of_lt _ _ hf, bind_ok, h1, h2]
    · have hc : b.candidates (f :: rest) =
          [⟨b.polys[f].indexes.get 0, 0⟩, ⟨b.polys[f].indexes.get 1, 1⟩,
            ⟨b.polys[f].indexes.get 2, 2⟩] ++ b.candidates rest := by
        simp [BspBuilder.candidates, List.getElem?_eq_getElem hf]
      rw [hc, ← List.append_assoc]
      exact inv2

theorem search_init (b : BspBuilder) (s : List Nat) :
    b.SearchInv s []
      { best_metric := none, best_split_plane := none,
        plane_flags := List.replicate (b.vert_count * 3) false } := by
  refine ⟨by simp, ?_, by simp, by simp⟩
  intro v i _ _ _
  simp [List.getElem?_replicate]

theorem find_best_split_plane_spec (b : BspBuilder) (hb : b.WF) (s : List Nat)
    (hs : b.InRange s) :
    ∃ r, b.find_best_split_plane s = Except.ok r ∧
      (r = none ↔ ∀ c ∈ b.candidates s, b.score s c = none) ∧
      (∀ c, r = some c → ∃ m, b.FirstBest s (b.candidates s) c m) := by
  obtain ⟨st, h, inv⟩ := outer_loop_steps b hb s hs s hs [] _ (search_init b s)
  rw [List.nil_append] at inv
  refine ⟨st.best_split_plane, ?_, ?_, ?_⟩
  · simp only [BspBuilder.find_best_split_plane, h, bind_ok, pure_eq_ok]
  · constructor
    · intro hn
      exact (inv.no_best hn).2
    · intro hall
      cases hbest : st.best_split_plane with
      | none => rfl
      | some c =>
        obtain ⟨m, _, pre, post, hseen, hsc, _⟩ := inv.best c hbest
        have hmem : c ∈ b.candidates s := by rw [hseen]; simp
        rw [hall c hmem] at hsc
        exact absurd hsc (by simp)
  · intro c hc
    obtain ⟨m, _, hfb⟩ := inv.best c hc
    exact ⟨m, hfb⟩

theorem route_eq (b : BspBuilder) (plane : Plane) (s : List Nat) (h : b.InRange s)
    (front back : List Nat) :
    b.route plane s front back =
      Except.ok (front ++ s.filter (b.to_front plane), back ++ s.filter (b.to_back plane)) := by
  induction s generalizing front back with
  | nil => simp [BspBuilder.route, pure_eq_ok]
  | cons f rest ih =>
    have hf : f < b.polys.length := h f (List.mem_cons_self _ _)
    have hr : b.InRange rest := fun g hg => h g (List.mem_cons_of_mem _ hg)
    have hty : b.type_of plane f = some (b.polys[f].clasify plane) := by
      simp [BspBuilder.type_of, List.getElem?_eq_getElem hf]
    simp only [BspBuilder.route, at_index_of_lt _ _ hf, bind_ok]
    cases hc : b.polys[f].clasify plane <;>
      simp only [hc] at hty ⊢ <;>
      rw [ih hr] <;>
      simp [BspBuilder.to_front, BspBuilder.to_back, List.filter_cons, hty]

theorem score_some (b : BspBuilder) (s : List Nat) (c : PlanePtr) (m : ℚ)
    (h : b.score s c = some m) :
    ∃ plane, b.deref c = Except.ok plane ∧ b.accepts s plane ∧ m = b.metric_of s plane := by
  unfold BspBuilder.score at h
  cases hd : b.deref c with
  | error e => simp [hd] at h
  | ok plane =>
    simp only [hd] at h
    by_cases ha : b.accepts s plane
    · simp only [ha, if_true] at h
      exact ⟨plane, rfl, ha, (Option.some.inj h).symm⟩
    · simp [ha] at h

theorem exists_of_count_pos (b : BspBuilder) (plane : Plane) (s : List Nat) (ty : PolyType)
    (h : 1 ≤ b.count_of plane s ty) : ∃ f ∈ s, b.type_of plane f = some ty := by
  have : 0 < s.countP (fun f => decide (b.type_of plane f = some ty)) := h
  obtain ⟨f, hf, hp⟩ := List.countP_pos_iff.1 this
  exact ⟨f, hf, by simpa using hp⟩

theorem front_length_lt (b : BspBuilder) (plane : Plane) (s : List Nat)
    (h : 1 ≤ b.count_of plane s PolyType.BACK) :
    (s.filter (b.to_front plane)).length < s.length := by
  obtain ⟨f, hf, hty⟩ := exists_of_count_pos b plane s _ h
  apply List.length_filter_lt_length_iff_exists.2
  exact ⟨f, hf, by simp [BspBuilder.to_front, hty]⟩

theorem back_length_lt (b : BspBuilder) (plane : Plane) (s : List Nat)
    (h : 1 ≤ b.count_of plane s PolyType.FRONT) :
    (s.filter (b.to_back plane)).length < s.length := by
  obtain ⟨f, hf, hty⟩ := exists_of_count_pos b plane s _ h
  apply List.length_filter_lt_length_iff_exists.2
  exact ⟨f, hf, by simp [BspBuilder.to_back, hty]⟩

theorem BspBuilder.InRange.filter {b : BspBuilder} {s : List Nat} (h : b.InRange s) (p : Nat → Bool) :
    b.InRange (s.filter p) :=
  fun f hf => h f (List.mem_filter.1 hf).1

theorem build_bsp_tree_spec (b : BspBuilder) (hb : b.WF) (n : Nat) :
    ∀ s : List Nat, s.length = n → b.InRange s →
    ∃ t, (∀ fuel, s.length < fuel → b.build_bsp_tree fuel s = Except.ok t) ∧
      b.EveryNode b.NodeOK s t := by
  induction n using Nat.strong_induction_on with
  | _ n ih =>
    intro s hn hs
    obtain ⟨r, hfind, hnone, hsome⟩ := find_best_split_plane_spec b hb s hs
    cases r with
    | none =>
      refine ⟨NodePtr.null, ?_, trivial⟩
      intro fuel hfuel
      obtain ⟨k, rfl⟩ : ∃ k, fuel = k + 1 := ⟨fuel - 1, by omega⟩
      simp [BspBuilder.build_bsp_tree, hfind, bind_ok, pure_eq_ok]
    | some p =>
      obtain ⟨m, pre, post, _, hsc, _, _⟩ := hsome p rfl
      obtain ⟨plane, hd, hacc, _⟩ := score_some b s p m hsc
      have hfl := front_length_lt b plane s hacc.2.1
      have hbl := back_length_lt b plane s hacc.1
      obtain ⟨fn, hfn, efn⟩ := ih _ (by omega) (s.filter (b.to_front plane)) rfl
        (BspBuilder.InRange.filter hs _)
      obtain ⟨bn, hbn, ebn⟩ := ih _ (by omega) (s.filter (b.to_back plane)) rfl
        (BspBuilder.InRange.filter hs _)
      have hroute := route_eq b plane s hs [] []
      simp only [List.nil_append] at hroute
      refine ⟨NodePtr.node plane (if fn = NodePtr.null then s.filter (b.to_front plane) else [])
        (if bn = NodePtr.null then s.filter (b.to_back plane) else []) fn bn, ?_, ?_⟩
      · intro fuel hfuel
        obtain ⟨k, rfl⟩ : ∃ k, fuel = k + 1 := ⟨fuel - 1, by omega⟩
        simp only [BspBuilder.build_bsp_tree, hfind, bind_ok, hd, hroute,
          hfn k (by omega), hbn k (by omega), pure_eq_ok]
      · refine ⟨_, _, hroute, ?_, efn, ebn⟩
        exact ⟨⟨p, hfind, hd⟩, hacc, hs, rfl, rfl, rfl, rfl⟩

theorem BspBuilder.EveryNode.mono (b : BspBuilder)
    {P Q : List Nat → Plane → List Nat → List Nat → List Nat → List Nat → NodePtr → NodePtr → Prop}
    (hPQ : ∀ s plane front back ff bf fn bn, P s plane front back ff bf fn bn →
      Q s plane front back ff bf fn bn)
    (t : NodePtr) : ∀ s, b.EveryNode P s t → b.EveryNode Q s t := by
  induction t with
  | null => intro s _; trivial
  | node plane ff bf fn bn ihf ihb =>
    intro s h
    obtain ⟨front, back, hr, hp, hf, hbk⟩ := h
    exact ⟨front, back, hr, hPQ _ _ _ _ _ _ _ _ hp, ihf _ hf, ihb _ hbk⟩

theorem plane_new_ok (val : ℚ) (a : Nat) (ha : a < 3) :
    ∃ plane, Plane.new val (a : Int) = Except.ok plane ∧ plane.val = val ∧
      plane.axis = (a : Int) ∧ plane.d = -val ∧
      (∀ u : Vec3, u.dot_product plane.normal = u.coord a) ∧ plane.point.coord a = val := by
  have h : a = 0 ∨ a = 1 ∨ a = 2 := by omega
  rcases h with rfl | rfl | rfl
  · exact ⟨_, rfl, rfl, rfl, by simp [Vec3.dot_product, Vec3.zero],
      fun u => by simp [Vec3.dot_product, Vec3.zero, Vec3.coord], by simp [Vec3.coord]⟩
  · exact ⟨_, rfl, rfl, rfl, by simp [Vec3.dot_product, Vec3.zero],
      fun u => by simp [Vec3.dot_product, Vec3.zero, Vec3.coord], by simp [Vec3.coord]⟩
  · exact ⟨_, rfl, rfl, rfl, by simp [Vec3.dot_product, Vec3.zero],
      fun u => by simp [Vec3.dot_product, Vec3.zero, Vec3.coord], by simp [Vec3.coord]⟩

theorem aligned_of_new (val : ℚ) (a : Nat) (ha : a < 3) (plane : Plane)
    (h : Plane.new val (a : Int) = Except.ok plane) : plane.Aligned a val := by
  obtain ⟨p, hp, hv, hax, hd, hn, hc⟩ := plane_new_ok val a ha
  rw [hp] at h
  cases h
  exact ⟨ha, hv, hax, hd, hn, hc⟩

theorem sub_vectors_coord (p q : Vec3) (a : Nat) :
    (Vec3.sub_vectors p q).coord a = p.coord a - q.coord a := by
  unfold Vec3.coord Vec3.sub_vectors
  split <;> rfl

theorem intersects_loop_cons (poly : Poly) (plane : Plane) (a : Nat) (val : ℚ)
    (hp : plane.Aligned a val) (vertex : Nat) (rest : List Nat) (lsp : Bool) :
    poly.intersects_loop plane (vertex :: rest) lsp =
      if crosses ((poly.points.get (if vertex ≠ 0 then vertex - 1 else 3 - 1)).coord a)
          ((poly.points.get vertex).coord a) val then true
      else poly.intersects_loop plane rest
        (decide ((poly.points.get vertex).coord a -
          (poly.points.get (if vertex ≠ 0 then vertex - 1 else 3 - 1)).coord a = 0)) := by
  rw [Poly.intersects_loop]
  simp only [hp.dot_normal, hp.d_eq, sub_vectors_coord]
  generalize (poly.points.get vertex).coord a = cv
  generalize (poly.points.get (if vertex ≠ 0 then vertex - 1 else 3 - 1)).coord a = cp
  have ht : -(cp + -val) / (cv - cp) = (val - cp) / (cv - cp) := by ring
  rw [ht]
  unfold crosses
  by_cases hd : cv - cp = 0
  · simp [hd]
  · by_cases h0 : 0 < (val - cp) / (cv - cp)
    · have hne : (val - cp) / (cv - cp) ≠ 0 := ne_of_gt h0
      by_cases h1 : (val - cp) / (cv - cp) < 16777199 / 16777216
      · simp [hd, h0, h1, hne]
      · simp [hd, h0, h1, hne]
    · simp [hd, h0]

theorem intersects_loop_iff (poly : Poly) (plane : Plane) (a : Nat) (val : ℚ)
    (hp : plane.Aligned a val) :
    poly.intersects_loop plane [0, 1, 2] false = true ↔
      (crosses ((poly.points.get 2).coord a) ((poly.points.get 0).coord a) val ∨
       crosses ((poly.points.get 0).coord a) ((poly.points.get 1).coord a) val ∨
       crosses ((poly.points.get 1).coord a) ((poly.points.get 2).coord a) val) := by
  rw [intersects_loop_cons poly plane a val hp, intersects_loop_cons poly plane a val hp,
    intersects_loop_cons poly plane a val hp]
  simp only [Poly.intersects_loop, ne_eq, not_true_eq_false, if_false, Nat.reduceSub,
    one_ne_zero, not_false_eq_true, if_true, OfNat.ofNat_ne_zero]
  by_cases h1 : crosses ((poly.points.get 2).coord a) ((poly.points.get 0).coord a) val <;>
  by_cases h2 : crosses ((poly.points.get 0).coord a) ((poly.points.get 1).coord a) val <;>
  by_cases h3 : crosses ((poly.points.get 1).coord a) ((poly.points.get 2).coord a) val <;>
  simp [h1, h2, h3]

theorem intersects_false_of_no_cross (poly : Poly) (plane : Plane) (a : Nat) (val : ℚ)
    (hp : plane.Aligned a val)
    (h1 : ¬ crosses ((poly.points.get 2).coord a) ((poly.points.get 0).coord a) val)
    (h2 : ¬ crosses ((poly.points.get 0).coord a) ((poly.points.get 1).coord a) val)
    (h3 : ¬ crosses ((poly.points.get 1).coord a) ((poly.points.get 2).coord a) val) :
    poly.intersects plane = false := by
  unfold Poly.intersects
  split
  · have := (intersects_loop_iff poly plane a val hp).not.2 (by tauto)
    simpa using this
  · rfl

theorem clasify_of_not_intersects (poly : Poly) (plane : Plane) (a : Nat) (val : ℚ)
    (hp : plane.Aligned a val) (h : poly.intersects plane = false) :
    poly.clasify plane =
      if poly.center.coord a = val then PolyType.COPLANAR
      else if poly.center.coord a < val then PolyType.FRONT
      else PolyType.BACK := by
  unfold Poly.clasify
  simp only [h, Bool.false_eq_true, if_false, hp.dot_normal, sub_vectors_coord, hp.point_coord,
    sub_eq_zero, sub_neg]

theorem at_int_of_lt {α : Type} (xs : List α) (i : Int) (h0 : 0 ≤ i) (h1 : i < xs.length) :
    ∃ a, at_int xs i = Except.ok a ∧ xs[i.toNat]? = some a := by
  have h2 : i.toNat < xs.length := by omega
  have h3 : ¬ i < 0 := by omega
  exact ⟨xs[i.toNat], by simp [at_int, h3, at_index_of_lt _ _ h2],
    List.getElem?_eq_getElem h2⟩

theorem at_int_error {α : Type} (xs : List α) (i : Int) (h : ¬ (0 ≤ i ∧ i < xs.length)) :
    at_int xs i = Except.error Fault.outOfRange := by
  unfold at_int
  by_cases h0 : i < 0
  · simp [h0]
  · have h2 : xs.length ≤ i.toNat := by omega
    simp [h0, at_index, List.getElem?_eq_none h2]

theorem at_int_cases {α : Type} (xs : List α) (i : Int) :
    (∃ a, at_int xs i = Except.ok a ∧ xs[i.toNat]? = some a ∧ 0 ≤ i ∧ i < xs.length) ∨
    (at_int xs i = Except.error Fault.outOfRange ∧ ¬ (0 ≤ i ∧ i < xs.length)) := by
  by_cases h : 0 ≤ i ∧ i < xs.length
  · obtain ⟨a, h1, h2⟩ := at_int_of_lt xs i h.1 h.2
    exact Or.inl ⟨a, h1, h2, h.1, h.2⟩
  · exact Or.inr ⟨at_int_error xs i h, h⟩

theorem poly_new_cases (sqrt : ℚ → ℚ) (face : Face) (verts : List Vertex) :
    (FaceValid verts face ∧ ∃ poly, Poly.new sqrt face verts = Except.ok poly ∧
      poly.Made face verts) ∨
    (¬ FaceValid verts face ∧ Poly.new sqrt face verts = Except.error Fault.outOfRange) := by
  unfold Poly.new
  rcases at_int_cases verts face.1 with ⟨v0, h0, g0, r0⟩ | ⟨h0, r0⟩
  · rcases at_int_cases verts face.2.1 with ⟨v1, h1, g1, r1⟩ | ⟨h1, r1⟩
    · rcases at_int_cases verts face.2.2 with ⟨v2, h2, g2, r2⟩ | ⟨h2, r2⟩
      · left
        simp only [h0, h1, h2, bind_ok, pure_eq_ok]
        refine ⟨⟨r0, r1, r2⟩, _, rfl, ?_⟩
        refine ⟨rfl, ⟨v0, g0, rfl⟩, ⟨v1, g1, rfl⟩, ⟨v2, g2, rfl⟩, ?_⟩
        intro a
        simp only [Vec3.coord, Vec3.scale, Vec3.add, Vec3.zero]
        split <;> ring
      · right
        exact ⟨fun h => r2 h.2.2, by simp only [h0, h1, h2, bind_ok, bind_error]⟩
    · right
      exact ⟨fun h => r1 h.2.1, by simp only [h0, h1, bind_ok, bind_error]⟩
  · right
    exact ⟨fun h => r0 h.1, by simp only [h0, bind_error]⟩

theorem make_polys_ok (sqrt : ℚ → ℚ) (verts : List Vertex) (faces : List Face)
    (h : FacesValid verts faces) :
    ∃ polys, make_polys sqrt verts faces = Except.ok polys ∧
      List.Forall₂ (fun face poly => Poly.new sqrt face verts = Except.ok poly ∧
        poly.Made face verts) faces polys := by
  induction faces with
  | nil => exact ⟨[], rfl, List.Forall₂.nil⟩
  | cons face rest ih =>
    obtain ⟨polys, hp, hall⟩ := ih (fun f hf => h f (List.mem_cons_of_mem _ hf))
    rcases poly_new_cases sqrt face verts with ⟨_, poly, hpoly, hm⟩ | ⟨hn, _⟩
    · exact ⟨poly :: polys, by simp only [make_polys, hpoly, hp, bind_ok, pure_eq_ok],
        List.Forall₂.cons ⟨hpoly, hm⟩ hall⟩
    · exact absurd (h face (List.mem_cons_self _ _)) hn

theorem make_polys_error (sqrt : ℚ → ℚ) (verts : List Vertex) (faces : List Face)
    (h : ¬ FacesValid verts faces) :
    make_polys sqrt verts faces = Except.error Fault.outOfRange := by
  induction faces with
  | nil => exact absurd (fun f hf => by simp at hf) h
  | cons face rest ih =>
    rcases poly_new_cases sqrt face verts with ⟨hv, poly, hpoly, _⟩ | ⟨_, he⟩
    · have hr : ¬ FacesValid verts rest := by
        intro hr
        apply h
        intro f hf
        rcases List.mem_cons.1 hf with rfl | hf
        · exact hv
        · exact hr f hf
      simp only [make_polys, hpoly, ih hr, bind_ok, bind_error]
    · simp only [make_polys, he, bind_error]

theorem make_planes_ok (verts : List Vertex) :
    ∃ planes, make_planes verts = Except.ok planes ∧
      List.Forall₂ (fun v (ap : AxisPlanes) => ∀ i, i < 3 →
        Plane.new ((Vec3.ofVertex v).coord i) (i : Int) = Except.ok (ap.get i)) verts planes := by
  induction verts with
  | nil => exact ⟨[], rfl, List.Forall₂.nil⟩
  | cons v rest ih =>
    obtain ⟨planes, hp, hall⟩ := ih
    obtain ⟨px, hx, _⟩ := plane_new_ok (Vec3.ofVertex v).x 0 (by omega)
    obtain ⟨py, hy, _⟩ := plane_new_ok (Vec3.ofVertex v).y 1 (by omega)
    obtain ⟨pz, hz, _⟩ := plane_new_ok (Vec3.ofVertex v).z 2 (by omega)
    refine ⟨⟨px, py, pz⟩ :: planes, ?_, List.Forall₂.cons ?_ hall⟩
    · simp only [Nat.cast_zero, Nat.cast_one, Nat.cast_ofNat] at hx hy hz
      simp only [make_planes, hx, hy, hz, hp, bind_ok, pure_eq_ok]
    · intro i hi
      have h : i = 0 ∨ i = 1 ∨ i = 2 := by omega
      rcases h with rfl | rfl | rfl
      · exact hx
      · exact hy
      · exact hz

theorem count_loop_root (b : BspBuilder) (r : NodePtr) (plane : Plane) (s : List Nat)
    (c : Counts) :
    BspBuilder.count_loop { b with root := r } plane s c = b.count_loop plane s c := by
  induction s generalizing c with
  | nil => rfl
  | cons f rest ih =>
    simp only [BspBuilder.count_loop]
    cases at_index b.polys f with
    | error e => rfl
    | ok poly =>
      simp only [bind_ok]
      cases poly.clasify plane <;> simp only [ih]

theorem plane_metric_root (b : BspBuilder) (r : NodePtr) (s : List Nat) (plane : Plane) :
    BspBuilder.plane_metric { b with root := r } s plane = b.plane_metric s plane := by
  simp only [BspBuilder.plane_metric, count_loop_root]

theorem test_plane_root (b : BspBuilder) (r : NodePtr) (s : List Nat) (poly : Poly) (i : Nat)
    (st : Search) :
    BspBuilder.test_plane { b with root := r } s poly i st = b.test_plane s poly i st := by
  simp only [BspBuilder.test_plane, plane_metric_root]

theorem inner_loop_root (b : BspBuilder) (r : NodePtr) (s : List Nat) (poly : Poly)
    (l : List Nat) (st : Search) :
    BspBuilder.inner_loop { b with root := r } s poly l st = b.inner_loop s poly l st := by
  induction l generalizing st with
  | nil => rfl
  | cons i rest ih => simp only [BspBuilder.inner_loop, test_plane_root, ih]

theorem outer_loop_root (b : BspBuilder) (r : NodePtr) (s : List Nat) (l : List Nat)
    (st : Search) :
    BspBuilder.outer_loop { b with root := r } s l st = b.outer_loop s l st := by
  induction l generalizing st with
  | nil => rfl
  | cons i rest ih => simp only [BspBuilder.outer_loop, inner_loop_root, ih]

theorem find_root (b : BspBuilder) (r : NodePtr) (s : List Nat) :
    BspBuilder.find_best_split_plane { b with root := r } s = b.find_best_split_plane s := by
  simp only [BspBuilder.find_best_split_plane, outer_loop_root]

theorem route_root (b : BspBuilder) (r : NodePtr) (plane : Plane) (s front back : List Nat) :
    BspBuilder.route { b with root := r } plane s front back = b.route plane s front back := by
  induction s generalizing front back with
  | nil => rfl
  | cons f rest ih =>
    simp only [BspBuilder.route]
    cases at_index b.polys f with
    | error e => rfl
    | ok poly =>
      simp only [bind_ok]
      cases poly.clasify plane <;> simp only [ih]

theorem build_root (b : BspBuilder) (r : NodePtr) (fuel : Nat) (s : List Nat) :
    BspBuilder.build_bsp_tree { b with root := r } fuel s = b.build_bsp_tree fuel s := by
  induction fuel generalizing s with
  | zero => rfl
  | succ k ih =>
    simp only [BspBuilder.build_bsp_tree, find_root, route_root, ih]
    rfl

theorem forall₂_mem_right {α β : Type} {R : α → β → Prop} {l₁ : List α} {l₂ : List β}
    (h : List.Forall₂ R l₁ l₂) {y : β} (hy : y ∈ l₂) : ∃ x ∈ l₁, R x y := by
  induction h with
  | nil => simp at hy
  | cons hr _ ih =>
    rcases List.mem_cons.1 hy with rfl | hy
    · exact ⟨_, List.mem_cons_self _ _, hr⟩
    · obtain ⟨x, hx, hxy⟩ := ih hy
      exact ⟨x, List.mem_cons_of_mem _ hx, hxy⟩

theorem BspBuilder.Built.wf {b : BspBuilder} {sqrt : ℚ → ℚ} {verts : List Vertex} {faces : List Face}
    (h : b.Built sqrt verts faces) : b.WF := by
  refine ⟨by rw [← h.planes_made.length_eq, h.vert_count_eq], ?_⟩
  intro poly hp i hi
  obtain ⟨face, hf, _, hm⟩ := forall₂_mem_right h.polys_made hp
  have hv := h.faces_valid face hf
  rw [hm.indexes_eq, h.vert_count_eq]
  have hi' : i = 0 ∨ i = 1 ∨ i = 2 := by omega
  rcases hi' with rfl | rfl | rfl
  · exact hv.1
  · exact hv.2.1
  · exact hv.2.2

theorem BspBuilder.Built.in_range {b : BspBuilder} {sqrt : ℚ → ℚ} {verts : List Vertex}
    {faces : List Face} (h : b.Built sqrt verts faces) :
    b.InRange (List.range faces.length) := by
  intro f hf
  rw [← h.polys_made.length_eq]
  exact List.mem_range.1 hf

theorem new_spec (sqrt : ℚ → ℚ) (verts : List Vertex) (faces : List Face)
    (cw iw sw : ℚ) (msm : FloatInf) (h : FacesValid verts faces) :
    ∃ b : BspBuilder, b.Built sqrt verts faces ∧
      (b.coplanar_weight = cw ∧ b.intersect_weight = iw ∧ b.split_weight = sw ∧
        b.min_split_metric = msm) ∧
      (∀ fuel, faces.length < fuel →
        BspBuilder.new sqrt fuel verts faces cw iw sw msm = Except.ok b) ∧
      (∀ fuel, faces.length < fuel →
        b.build_bsp_tree fuel (List.range faces.length) = Except.ok b.root) ∧
      b.EveryNode b.NodeOK (List.range faces.length) b.root := by
  obtain ⟨polys, hpolys, hpm⟩ := make_polys_ok sqrt verts faces h
  obtain ⟨planes, hplanes, hplm⟩ := make_planes_ok verts
  have hbuilt : ∀ r, BspBuilder.Built
      { root := r, polys := polys, planes := planes, vert_count := verts.length,
        coplanar_weight := cw, intersect_weight := iw, split_weight := sw,
        min_split_metric := msm } sqrt verts faces :=
    fun r => ⟨h, hpm, hplm, rfl⟩
  obtain ⟨t, ht, _⟩ := build_bsp_tree_spec _ (hbuilt NodePtr.null).wf _ (List.range faces.length)
    rfl (hbuilt NodePtr.null).in_range
  obtain ⟨t', ht', hev⟩ := build_bsp_tree_spec _ (hbuilt t).wf _ (List.range faces.length)
    rfl (hbuilt t).in_range
  have hlen : (List.range faces.length).length = faces.length := List.length_range _
  have htt : t' = t := by
    have h1 := ht (faces.length + 1) (by omega)
    have h2 := ht' (faces.length + 1) (by omega)
    have h3 := build_root
      { root := NodePtr.null, polys := polys, planes := planes, vert_count := verts.length,
        coplanar_weight := cw, intersect_weight := iw, split_weight := sw,
        min_split_metric := msm } t (faces.length + 1) (List.range faces.length)
    rw [h1] at h3
    have h4 := h2.symm.trans h3
    exact Except.ok.inj h4
  subst htt
  refine ⟨_, hbuilt t', ⟨rfl, rfl, rfl, rfl⟩, ?_, ?_, hev⟩
  · intro fuel hfuel
    simp only [BspBuilder.new, hpolys, hplanes, bind_ok, ht fuel (by omega), pure_eq_ok]
  · intro fuel hfuel
    exact ht' fuel (by omega)

theorem mem_filter_front (b : BspBuilder) (plane : Plane) (s : List Nat) (f : Nat) :
    f ∈ s.filter (b.to_front plane) ↔ f ∈ s ∧
      (b.type_of plane f = some PolyType.FRONT ∨ b.type_of plane f = some PolyType.STRADDLE ∨
        b.type_of plane f = some PolyType.COPLANAR) := by
  simp [List.mem_filter, BspBuilder.to_front]

theorem mem_filter_back (b : BspBuilder) (plane : Plane) (s : List Nat) (f : Nat) :
    f ∈ s.filter (b.to_back plane) ↔ f ∈ s ∧
      (b.type_of plane f = some PolyType.BACK ∨ b.type_of plane f = some PolyType.STRADDLE ∨
        b.type_of plane f = some PolyType.COPLANAR) := by
  simp [List.mem_filter, BspBuilder.to_back]

theorem type_of_eq_some (b : BspBuilder) (plane : Plane) (f : Nat) (ty : PolyType) :
    b.type_of plane f = some ty ↔ ∃ poly, b.polys[f]? = some poly ∧ poly.clasify plane = ty := by
  simp [BspBuilder.type_of]

/-- C1: for a mesh with valid face indices and any weights (the ceiling may be
infinite), the constructor returns, with the same result for every recursion
budget above the number of faces; whenever a split plane is chosen for a subset,
the front and the back subset are strictly shorter than the subset, in
particular at every Node of the tree. -/
theorem build_bsp_tree_terminates (sqrt : ℚ → ℚ) (verts : List Vertex) (faces : List Face)
    (cw iw sw : ℚ) (msm : FloatInf) (h : FacesValid verts faces) :
    ∃ b : BspBuilder,
      (∀ fuel, faces.length < fuel →
        BspBuilder.new sqrt fuel verts faces cw iw sw msm = Except.ok b) ∧
      (∀ (s : List Nat) (p : PlanePtr) (plane : Plane) (front back : List Nat),
        b.InRange s → b.find_best_split_plane s = Except.ok (some p) →
        b.deref p = Except.ok plane → b.route plane s [] [] = Except.ok (front, back) →
        front.length < s.length ∧ back.length < s.length) ∧
      b.EveryNode (fun s _ front back _ _ _ _ =>
        front.length < s.length ∧ back.length < s.length) (List.range faces.length) b.root := by
  obtain ⟨b, hbuilt, _, hnew, _, hev⟩ := new_spec sqrt verts faces cw iw sw msm h
  refine ⟨b, hnew, ?_, ?_⟩
  · intro s p plane front back hs hfind hd hroute
    obtain ⟨r, hfind', _, hsome⟩ := find_best_split_plane_spec b hbuilt.wf s hs
    rw [hfind] at hfind'
    have hr : r = some p := (Except.ok.inj hfind').symm
    obtain ⟨m, pre, post, _, hsc, _, _⟩ := hsome p hr
    obtain ⟨plane', hd', hacc, _⟩ := score_some b s p m hsc
    rw [hd] at hd'
    have hpl : plane' = plane := (Except.ok.inj hd').symm
    subst hpl
    have hr' := route_eq b plane' s hs [] []
    rw [hroute] at hr'
    simp only [List.nil_append] at hr'
    have hpair := Except.ok.inj hr'
    have h1 : front = s.filter (b.to_front plane') := congrArg Prod.fst hpair
    have h2 : back = s.filter (b.to_back plane') := congrArg Prod.snd hpair
    rw [h1, h2]
    exact ⟨front_length_lt b plane' s hacc.2.1, back_length_lt b plane' s hacc.1⟩
  · refine BspBuilder.EveryNode.mono b ?_ _ _ hev
    intro s plane front back ff bf fn bn hok
    rw [hok.front_eq, hok.back_eq]
    exact ⟨front_length_lt b plane s hok.accepted.2.1, back_length_lt b plane s hok.accepted.1⟩

/-- Witness of C1 on the two-triangle mesh with the default weights. -/
theorem build_bsp_tree_terminates_witness :
    FacesValid demo_verts demo_faces ∧
    ∃ b : BspBuilder,
      (∀ fuel, demo_faces.length < fuel →
        BspBuilder.new Rat.sqrt fuel demo_verts demo_faces (1 / 2) 1 1 (some (1 / 2))
          = Except.ok b) ∧
      (∀ (s : List Nat) (p : PlanePtr) (plane : Plane) (front back : List Nat),
        b.InRange s → b.find_best_split_plane s = Except.ok (some p) →
        b.deref p = Except.ok plane → b.route plane s [] [] = Except.ok (front, back) →
        front.length < s.length ∧ back.length < s.length) ∧
      b.EveryNode (fun s _ front back _ _ _ _ =>
        front.length < s.length ∧ back.length < s.length)
        (List.range demo_faces.length) b.root :=
  ⟨by decide, build_bsp_tree_terminates Rat.sqrt demo_verts demo_faces (1 / 2) 1 1
    (some (1 / 2)) (by decide)⟩

/-- C2: at every Node of the built tree, every face of the input subset of the
Node goes to the front subset or to the back subset; it goes to both exactly
when `clasify` against the split plane gives STRADDLE or COPLANAR; a FRONT face
goes to the front subset only and a BACK face to the back subset only. -/
theorem routing_complete (sqrt : ℚ → ℚ) (verts : List Vertex) (faces : List Face)
    (cw iw sw : ℚ) (msm : FloatInf) (h : FacesValid verts faces) :
    ∃ b : BspBuilder,
      (∀ fuel, faces.length < fuel →
        BspBuilder.new sqrt fuel verts faces cw iw sw msm = Except.ok b) ∧
      b.EveryNode (fun s plane front back _ _ _ _ =>
        ∀ f ∈ s, ∃ poly, b.polys[f]? = some poly ∧
          (f ∈ front ∨ f ∈ back) ∧
          ((f ∈ front ∧ f ∈ back) ↔
            (poly.clasify plane = PolyType.STRADDLE ∨ poly.clasify plane = PolyType.COPLANAR)) ∧
          (poly.clasify plane = PolyType.FRONT → f ∈ front ∧ f ∉ back) ∧
          (poly.clasify plane = PolyType.BACK → f ∈ back ∧ f ∉ front))
        (List.range faces.length) b.root := by
  obtain ⟨b, _, _, hnew, _, hev⟩ := new_spec sqrt verts faces cw iw sw msm h
  refine ⟨b, hnew, BspBuilder.EveryNode.mono b ?_ _ _ hev⟩
  intro s plane front back ff bf fn bn hok f hf
  have hlt : f < b.polys.length := hok.in_range f hf
  have hget : b.polys[f]? = some b.polys[f] := List.getElem?_eq_getElem hlt
  have hty : b.type_of plane f = some (b.polys[f].clasify plane) := by
    simp [BspBuilder.type_of, hget]
  refine ⟨b.polys[f], hget, ?_⟩
  rw [hok.front_eq, hok.back_eq, mem_filter_front, mem_filter_back, hty]
  cases hc : b.polys[f].clasify plane <;> simp [hf]

/-- Witness of C2 on the two-triangle mesh with the default weights. -/
theorem routing_complete_witness :
    FacesValid demo_verts demo_faces ∧
    ∃ b : BspBuilder,
      (∀ fuel, demo_faces.length < fuel →
        BspBuilder.new Rat.sqrt fuel demo_verts demo_faces (1 / 2) 1 1 (some (1 / 2))
          = Except.ok b) ∧
      b.EveryNode (fun s plane front back _ _ _ _ =>
        ∀ f ∈ s, ∃ poly, b.polys[f]? = some poly ∧
          (f ∈ front ∨ f ∈ back) ∧
          ((f ∈ front ∧ f ∈ back) ↔
            (poly.clasify plane = PolyType.STRADDLE ∨ poly.clasify plane = PolyType.COPLANAR)) ∧
          (poly.clasify plane = PolyType.FRONT → f ∈ front ∧ f ∉ back) ∧
          (poly.clasify plane = PolyType.BACK → f ∈ back ∧ f ∉ front))
        (List.range demo_faces.length) b.root :=
  ⟨by decide, routing_complete Rat.sqrt demo_verts demo_faces (1 / 2) 1 1
    (some (1 / 2)) (by decide)⟩

/-- C3: at every Node of the built tree, at least one face of the input subset
of the Node is classified FRONT against the split plane and at least one is
classified BACK. -/
theorem no_degenerate_split (sqrt : ℚ → ℚ) (verts : List Vertex) (faces : List Face)
    (cw iw sw : ℚ) (msm : FloatInf) (h : FacesValid verts faces) :
    ∃ b : BspBuilder,
      (∀ fuel, faces.length < fuel →
        BspBuilder.new sqrt fuel verts faces cw iw sw msm = Except.ok b) ∧
      b.EveryNode (fun s plane _ _ _ _ _ _ =>
        (∃ f ∈ s, ∃ poly, b.polys[f]? = some poly ∧ poly.clasify plane = PolyType.FRONT) ∧
        (∃ f ∈ s, ∃ poly, b.polys[f]? = some poly ∧ poly.clasify plane = PolyType.BACK))
        (List.range faces.length) b.root := by
  obtain ⟨b, _, _, hnew, _, hev⟩ := new_spec sqrt verts faces cw iw sw msm h
  refine ⟨b, hnew, BspBuilder.EveryNode.mono b ?_ _ _ hev⟩
  intro s plane front back ff bf fn bn hok
  obtain ⟨f, hf, hty⟩ := exists_of_count_pos b plane s _ hok.accepted.1
  obtain ⟨g, hg, hty'⟩ := exists_of_count_pos b plane s _ hok.accepted.2.1
  exact ⟨⟨f, hf, (type_of_eq_some b plane f _).1 hty⟩,
    ⟨g, hg, (type_of_eq_some b plane g _).1 hty'⟩⟩

/-- Witness of C3 on the two-triangle mesh with the default weights. -/
theorem no_degenerate_split_witness :
    FacesValid demo_verts demo_faces ∧
    ∃ b : BspBuilder,
      (∀ fuel, demo_faces.length < fuel →
        BspBuilder.new Rat.sqrt fuel demo_verts demo_faces (1 / 2) 1 1 (some (1 / 2))
          = Except.ok b) ∧
      b.EveryNode (fun s plane _ _ _ _ _ _ =>
        (∃ f ∈ s, ∃ poly, b.polys[f]? = some poly ∧ poly.clasify plane = PolyType.FRONT) ∧
        (∃ f ∈ s, ∃ poly, b.polys[f]? = some poly ∧ poly.clasify plane = PolyType.BACK))
        (List.range demo_faces.length) b.root :=
  ⟨by decide, no_degenerate_split Rat.sqrt demo_verts demo_faces (1 / 2) 1 1
    (some (1 / 2)) (by decide)⟩

theorem not_accepts_of_short (b : BspBuilder) (plane : Plane) (s : List Nat)
    (h : s.length ≤ 1) : ¬ b.accepts s plane := by
  intro ha
  obtain ⟨f, hf, hty⟩ := exists_of_count_pos b plane s _ ha.1
  obtain ⟨g, hg, hty'⟩ := exists_of_count_pos b plane s _ ha.2.1
  match s, h with
  | [], _ => simp at hf
  | [x], _ =>
    have h1 : f = x := by simpa using hf
    have h2 : g = x := by simpa using hg
    subst h1; subst h2
    rw [hty] at hty'
    exact absurd hty' (by simp)

theorem score_none_of_not_accepts (b : BspBuilder) (s : List Nat) (c : PlanePtr)
    (h : ∀ plane, b.deref c = Except.ok plane → ¬ b.accepts s plane) : b.score s c = none := by
  unfold BspBuilder.score
  cases hd : b.deref c with
  | error e => rfl
  | ok plane => simp [h plane hd]

/-- C4: a mesh of at most one triangle gets no Node.  Whatever the vertex
positions and the weights, every result of the constructor has a null root; and
with valid face indices the constructor does return (any positive budget). -/
theorem single_triangle_no_node (sqrt : ℚ → ℚ) (verts : List Vertex) (faces : List Face)
    (cw iw sw : ℚ) (msm : FloatInf) (hlen : faces.length ≤ 1) :
    (∀ fuel b, BspBuilder.new sqrt fuel verts faces cw iw sw msm = Except.ok b →
      b.root = NodePtr.null) ∧
    (FacesValid verts faces → ∀ fuel, 0 < fuel →
      ∃ b, BspBuilder.new sqrt fuel verts faces cw iw sw msm = Except.ok b ∧
        b.root = NodePtr.null) := by
  have key : FacesValid verts faces → ∀ fuel, 0 < fuel →
      ∃ b, BspBuilder.new sqrt fuel verts faces cw iw sw msm = Except.ok b ∧
        b.root = NodePtr.null := by
    intro h fuel hfuel
    obtain ⟨polys, hpolys, hpm⟩ := make_polys_ok sqrt verts faces h
    obtain ⟨planes, hplanes, hplm⟩ := make_planes_ok verts
    have hbuilt : BspBuilder.Built
        { root := NodePtr.null, polys := polys, planes := planes, vert_count := verts.length,
          coplanar_weight := cw, intersect_weight := iw, split_weight := sw,
          min_split_metric := msm } sqrt verts faces := ⟨h, hpm, hplm, rfl⟩
    obtain ⟨r, hfind, hnone, _⟩ :=
      find_best_split_plane_spec _ hbuilt.wf (List.range faces.length) hbuilt.in_range
    have hr : r = none := by
      apply hnone.2
      intro c _
      apply score_none_of_not_accepts
      intro plane _
      exact not_accepts_of_short _ plane _ (by simpa using hlen)
    subst hr
    obtain ⟨k, rfl⟩ : ∃ k, fuel = k + 1 := ⟨fuel - 1, by omega⟩
    refine ⟨BspBuilder.mk NodePtr.null polys planes verts.length cw iw sw msm, ?_, rfl⟩
    simp only [BspBuilder.new, hpolys, hplanes, bind_ok, BspBuilder.build_bsp_tree, hfind,
      pure_eq_ok]
  refine ⟨?_, key⟩
  intro fuel b hb
  by_cases hv : FacesValid verts faces
  · cases fuel with
    | zero =>
      obtain ⟨polys, hpolys, _⟩ := make_polys_ok sqrt verts faces hv
      obtain ⟨planes, hplanes, _⟩ := make_planes_ok verts
      simp [BspBuilder.new, hpolys, hplanes, bind_ok, BspBuilder.build_bsp_tree, bind_error]
        at hb
    | succ k =>
      obtain ⟨b', hb', hroot⟩ := key hv (k + 1) (by omega)
      rw [hb] at hb'
      rw [Except.ok.inj hb']
      exact hroot
  · simp [BspBuilder.new, make_polys_error sqrt verts faces hv, bind_error] at hb

/-- Witness of C4: one triangle, default weights. -/
theorem single_triangle_no_node_witness :
    [tri_face].length ≤ 1 ∧
    ((∀ fuel b, BspBuilder.new Rat.sqrt fuel tri_verts [tri_face]
        (1 / 2) 1 1 (some (1 / 2)) = Except.ok b → b.root = NodePtr.null) ∧
    (FacesValid tri_verts [tri_face] → ∀ fuel, 0 < fuel →
      ∃ b, BspBuilder.new Rat.sqrt fuel tri_verts [tri_face]
        (1 / 2) 1 1 (some (1 / 2)) = Except.ok b ∧ b.root = NodePtr.null)) :=
  ⟨by decide, single_triangle_no_node Rat.sqrt tri_verts [tri_face]
    (1 / 2) 1 1 (some (1 / 2)) (by decide)⟩

/-- C9: at every Node of the built tree and on each side, the face list of the
side is non-empty exactly when the child of the side is null; with a null child
the list is the subset routed to the side, with a child it is empty. -/
theorem leaf_lists (sqrt : ℚ → ℚ) (verts : List Vertex) (faces : List Face)
    (cw iw sw : ℚ) (msm : FloatInf) (h : FacesValid verts faces) :
    ∃ b : BspBuilder,
      (∀ fuel, faces.length < fuel →
        BspBuilder.new sqrt fuel verts faces cw iw sw msm = Except.ok b) ∧
      b.EveryNode (fun _ _ front back front_faces back_faces front_node back_node =>
        ((front_faces ≠ [] ↔ front_node = NodePtr.null) ∧
          (front_node = NodePtr.null → front_faces = front) ∧
          (front_node ≠ NodePtr.null → front_faces = [])) ∧
        ((back_faces ≠ [] ↔ back_node = NodePtr.null) ∧
          (back_node = NodePtr.null → back_faces = back) ∧
          (back_node ≠ NodePtr.null → back_faces = [])))
        (List.range faces.length) b.root := by
  obtain ⟨b, _, _, hnew, _, hev⟩ := new_spec sqrt verts faces cw iw sw msm h
  refine ⟨b, hnew, BspBuilder.EveryNode.mono b ?_ _ _ hev⟩
  intro s plane front back ff bf fn bn hok
  have hfront : front ≠ [] := by
    obtain ⟨f, hf, hty⟩ := exists_of_count_pos b plane s _ hok.accepted.1
    have : f ∈ front := by
      rw [hok.front_eq, mem_filter_front]
      exact ⟨hf, Or.inl hty⟩
    exact List.ne_nil_of_mem this
  have hback : back ≠ [] := by
    obtain ⟨f, hf, hty⟩ := exists_of_count_pos b plane s _ hok.accepted.2.1
    have : f ∈ back := by
      rw [hok.back_eq, mem_filter_back]
      exact ⟨hf, Or.inl hty⟩
    exact List.ne_nil_of_mem this
  rw [hok.front_faces_eq, hok.back_faces_eq]
  constructor
  · by_cases hn : fn = NodePtr.null <;> simp [hn, hfront]
  · by_cases hn : bn = NodePtr.null <;> simp [hn, hback]

/-- Witness of C9 on the two-triangle mesh with the default weights. -/
theorem leaf_lists_witness :
    FacesValid demo_verts demo_faces ∧
    ∃ b : BspBuilder,
      (∀ fuel, demo_faces.length < fuel →
        BspBuilder.new Rat.sqrt fuel demo_verts demo_faces (1 / 2) 1 1 (some (1 / 2))
          = Except.ok b) ∧
      b.EveryNode (fun _ _ front back front_faces back_faces front_node back_node =>
        ((front_faces ≠ [] ↔ front_node = NodePtr.null) ∧
          (front_node = NodePtr.null → front_faces = front) ∧
          (front_node ≠ NodePtr.null → front_faces = [])) ∧
        ((back_faces ≠ [] ↔ back_node = NodePtr.null) ∧
          (back_node = NodePtr.null → back_faces = back) ∧
          (back_node ≠ NodePtr.null → back_faces = [])))
        (List.range demo_faces.length) b.root :=
  ⟨by decide, leaf_lists Rat.sqrt demo_verts demo_faces (1 / 2) 1 1 (some (1 / 2)) (by decide)⟩

theorem not_crosses_of_le (cp cv val : ℚ) (h1 : cp ≤ val) (h2 : cv ≤ val) :
    ¬ crosses cp cv val := by
  rintro ⟨hd, h0, ht⟩
  rcases lt_or_gt_of_ne hd with hneg | hpos
  · -- negative denominator, numerator is not negative
    have : (val - cp) / (cv - cp) ≤ 0 :=
      div_nonpos_of_nonneg_of_nonpos (by linarith) (le_of_lt hneg)
    linarith
  · have h3 : 1 ≤ (val - cp) / (cv - cp) := by
      rw [le_div_iff₀ hpos]; linarith
    linarith

theorem not_crosses_of_ge (cp cv val : ℚ) (h1 : val ≤ cp) (h2 : val ≤ cv) :
    ¬ crosses cp cv val := by
  rintro ⟨hd, h0, ht⟩
  rcases lt_or_gt_of_ne hd with hneg | hpos
  · have h3 : 1 ≤ (val - cp) / (cv - cp) := by
      rw [le_div_iff_of_neg hneg]; linarith
    linarith
  · have : (val - cp) / (cv - cp) ≤ 0 :=
      div_nonpos_of_nonpos_of_nonneg (by linarith) (le_of_lt hpos)
    linarith

theorem made_point_mem {poly : Poly} {face : Face} {verts : List Vertex}
    (hm : poly.Made face verts) (k : Nat) :
    ∃ v ∈ verts, poly.points.get k = Vec3.ofVertex v := by
  have h : ∀ (i : Nat) (v : Vertex), verts[i]? = some v → v ∈ verts := fun i v hv =>
    List.getElem?_mem hv
  obtain ⟨v0, hv0, hp0⟩ := hm.p0
  obtain ⟨v1, hv1, hp1⟩ := hm.p1
  obtain ⟨v2, hv2, hp2⟩ := hm.p2
  match k with
  | 0 => exact ⟨v0, h _ _ hv0, hp0⟩
  | 1 => exact ⟨v1, h _ _ hv1, hp1⟩
  | _ + 2 => exact ⟨v2, h _ _ hv2, hp2⟩

theorem made_center {poly : Poly} {face : Face} {verts : List Vertex}
    (hm : poly.Made face verts) (a : Nat) :
    poly.center.coord a = ((poly.points.get 0).coord a + (poly.points.get 1).coord a +
      (poly.points.get 2).coord a) / 3 := hm.center_eq a

theorem clasify_one_sided_le {poly : Poly} {face : Face} {verts : List Vertex}
    (hm : poly.Made face verts) {plane : Plane} {a : Nat} {val : ℚ} (hp : plane.Aligned a val)
    (h : ∀ v ∈ verts, (Vec3.ofVertex v).coord a ≤ val) :
    poly.intersects plane = false ∧ poly.clasify plane ≠ PolyType.BACK := by
  have hk : ∀ k, (poly.points.get k).coord a ≤ val := by
    intro k
    obtain ⟨v, hv, he⟩ := made_point_mem hm k
    rw [he]; exact h v hv
  have hint := intersects_false_of_no_cross poly plane a val hp
    (not_crosses_of_le _ _ _ (hk 2) (hk 0)) (not_crosses_of_le _ _ _ (hk 0) (hk 1))
    (not_crosses_of_le _ _ _ (hk 1) (hk 2))
  refine ⟨hint, ?_⟩
  rw [clasify_of_not_intersects poly plane a val hp hint, made_center hm a]
  have := hk 0
  have := hk 1
  have := hk 2
  split
  · simp
  · split
    · simp
    · rename_i h1 h2
      exfalso
      apply h1
      have : ((poly.points.get 0).coord a + (poly.points.get 1).coord a +
        (poly.points.get 2).coord a) / 3 ≤ val := by linarith
      exact le_antisymm this (not_lt.1 h2)

theorem clasify_one_sided_ge {poly : Poly} {face : Face} {verts : List Vertex}
    (hm : poly.Made face verts) {plane : Plane} {a : Nat} {val : ℚ} (hp : plane.Aligned a val)
    (h : ∀ v ∈ verts, val ≤ (Vec3.ofVertex v).coord a) :
    poly.intersects plane = false ∧ poly.clasify plane ≠ PolyType.FRONT := by
  have hk : ∀ k, val ≤ (poly.points.get k).coord a := by
    intro k
    obtain ⟨v, hv, he⟩ := made_point_mem hm k
    rw [he]; exact h v hv
  have hint := intersects_false_of_no_cross poly plane a val hp
    (not_crosses_of_ge _ _ _ (hk 2) (hk 0)) (not_crosses_of_ge _ _ _ (hk 0) (hk 1))
    (not_crosses_of_ge _ _ _ (hk 1) (hk 2))
  refine ⟨hint, ?_⟩
  rw [clasify_of_not_intersects poly plane a val hp hint, made_center hm a]
  have := hk 0
  have := hk 1
  have := hk 2
  split
  · simp
  · split
    · rename_i h1 h2
      exfalso
      linarith
    · simp

theorem count_zero_of_one_sided {b : BspBuilder} {sqrt : ℚ → ℚ} {verts : List Vertex}
    {faces : List Face} (hb : b.Built sqrt verts faces) {plane : Plane} {a : Nat} {val : ℚ}
    (hp : plane.Aligned a val) (h : one_sided verts a val) (s : List Nat) :
    b.count_of plane s PolyType.FRONT = 0 ∨ b.count_of plane s PolyType.BACK = 0 := by
  rcases h with h | h
  · right
    by_contra hne
    obtain ⟨f, _, hty⟩ := exists_of_count_pos b plane s _ (Nat.pos_of_ne_zero hne)
    obtain ⟨poly, hget, hc⟩ := (type_of_eq_some b plane f _).1 hty
    obtain ⟨face, _, _, hm⟩ := forall₂_mem_right hb.polys_made (List.getElem?_mem hget)
    exact (clasify_one_sided_le hm hp h).2 hc
  · left
    by_contra hne
    obtain ⟨f, _, hty⟩ := exists_of_count_pos b plane s _ (Nat.pos_of_ne_zero hne)
    obtain ⟨poly, hget, hc⟩ := (type_of_eq_some b plane f _).1 hty
    obtain ⟨face, _, _, hm⟩ := forall₂_mem_right hb.polys_made (List.getElem?_mem hget)
    exact (clasify_one_sided_ge hm hp h).2 hc

theorem not_accepts_of_one_sided {b : BspBuilder} {sqrt : ℚ → ℚ} {verts : List Vertex}
    {faces : List Face} (hb : b.Built sqrt verts faces) {plane : Plane} {a : Nat} {val : ℚ}
    (hp : plane.Aligned a val) (h : one_sided verts a val) (s : List Nat) :
    ¬ b.accepts s plane := by
  intro hacc
  have h1 := hacc.1
  have h2 := hacc.2.1
  rcases count_zero_of_one_sided hb hp h s with h0 | h0 <;> omega

theorem forall₂_getElem? {α β : Type} {R : α → β → Prop} {l₁ : List α} {l₂ : List β}
    (h : List.Forall₂ R l₁ l₂) (k : Nat) {y : β} (hy : l₂[k]? = some y) :
    ∃ x, l₁[k]? = some x ∧ R x y := by
  induction h generalizing k with
  | nil => simp at hy
  | cons hr _ ih =>
    cases k with
    | zero =>
      simp only [List.getElem?_cons_zero, Option.some.injEq] at hy
      subst hy
      exact ⟨_, by simp, hr⟩
    | succ k =>
      simp only [List.getElem?_cons_succ] at hy
      obtain ⟨x, hx, hxy⟩ := ih k hy
      exact ⟨x, by simpa using hx, hxy⟩

theorem BspBuilder.Built.deref_aligned {b : BspBuilder} {sqrt : ℚ → ℚ} {verts : List Vertex}
    {faces : List Face} (hb : b.Built sqrt verts faces) {v : Int} {i : Nat} (hi : i < 3)
    {plane : Plane} (hd : b.deref ⟨v, i⟩ = Except.ok plane) :
    ∃ vert, verts[v.toNat]? = some vert ∧ plane.Aligned i ((Vec3.ofVertex vert).coord i) := by
  unfold BspBuilder.deref at hd
  rcases at_int_cases b.planes v with ⟨ap, h1, h2, _⟩ | ⟨h1, _⟩
  · simp only [h1, bind_ok, pure_eq_ok] at hd
    have hpl : ap.get i = plane := Except.ok.inj hd
    obtain ⟨vert, hvert, hr⟩ := forall₂_getElem? hb.planes_made _ h2
    refine ⟨vert, hvert, ?_⟩
    rw [← hpl]
    exact aligned_of_new _ i hi _ (hr i hi)
  · simp [h1, bind_error] at hd

theorem BspBuilder.Built.candidate {b : BspBuilder} {sqrt : ℚ → ℚ} {verts : List Vertex}
    {faces : List Face} (hb : b.Built sqrt verts faces) {s : List Nat} {c : PlanePtr}
    (hc : c ∈ b.candidates s) :
    ∃ face ∈ faces, c = ⟨face.1, 0⟩ ∨ c = ⟨face.2.1, 1⟩ ∨ c = ⟨face.2.2, 2⟩ := by
  unfold BspBuilder.candidates at hc
  obtain ⟨f, _, hf⟩ := List.mem_flatMap.1 hc
  cases hget : b.polys[f]? with
  | none => simp [hget] at hf
  | some poly =>
    obtain ⟨face, hface, _, hm⟩ := forall₂_getElem? hb.polys_made f hget
    refine ⟨face, List.getElem?_mem hface, ?_⟩
    simp only [hget, hm.indexes_eq, Array3.get, List.mem_cons, List.mem_singleton,
      List.not_mem_nil, or_false] at hf
    exact hf

theorem score_none_of_one_sided {b : BspBuilder} {sqrt : ℚ → ℚ} {verts : List Vertex}
    {faces : List Face} (hb : b.Built sqrt verts faces)
    (h : all_candidates_one_sided verts faces) (s : List Nat) {c : PlanePtr}
    (hc : c ∈ b.candidates s) : b.score s c = none := by
  apply score_none_of_not_accepts
  intro plane hd
  obtain ⟨face, hface, hcase⟩ := hb.candidate hc
  obtain ⟨h0, h1, h2⟩ := h face hface
  rcases hcase with rfl | rfl | rfl
  · obtain ⟨vert, hvert, hal⟩ := hb.deref_aligned (by omega) hd
    exact not_accepts_of_one_sided hb hal (h0 vert hvert) s
  · obtain ⟨vert, hvert, hal⟩ := hb.deref_aligned (by omega) hd
    exact not_accepts_of_one_sided hb hal (h1 vert hvert) s
  · obtain ⟨vert, hvert, hal⟩ := hb.deref_aligned (by omega) hd
    exact not_accepts_of_one_sided hb hal (h2 vert hvert) s

theorem find_none_of_one_sided {b : BspBuilder} {sqrt : ℚ → ℚ} {verts : List Vertex}
    {faces : List Face} (hb : b.Built sqrt verts faces)
    (h : all_candidates_one_sided verts faces) (s : List Nat) (hs : b.InRange s) :
    b.find_best_split_plane s = Except.ok none := by
  obtain ⟨r, hfind, hnone, _⟩ := find_best_split_plane_spec b hb.wf s hs
  have : r = none := hnone.2 (fun c hc => score_none_of_one_sided hb h s hc)
  rw [hfind, this]

theorem root_null_of_find_none {b : BspBuilder} {s : List Nat}
    (hfind : b.find_best_split_plane s = Except.ok none)
    (hroot : b.build_bsp_tree (s.length + 1) s = Except.ok b.root) : b.root = NodePtr.null := by
  simp only [BspBuilder.build_bsp_tree, hfind, bind_ok, pure_eq_ok] at hroot
  exact (Except.ok.inj hroot).symm

theorem new_null_of_one_sided (sqrt : ℚ → ℚ) (verts : List Vertex) (faces : List Face)
    (cw iw sw : ℚ) (msm : FloatInf) (hv : FacesValid verts faces)
    (h : all_candidates_one_sided verts faces) :
    ∃ b : BspBuilder, b.Built sqrt verts faces ∧
      (b.coplanar_weight = cw ∧ b.intersect_weight = iw ∧ b.split_weight = sw ∧
        b.min_split_metric = msm) ∧
      (∀ fuel, faces.length < fuel →
        BspBuilder.new sqrt fuel verts faces cw iw sw msm = Except.ok b) ∧
      b.find_best_split_plane (List.range faces.length) = Except.ok none ∧
      b.root = NodePtr.null := by
  obtain ⟨b, hb, hw, hnew, hbuild, _⟩ := new_spec sqrt verts faces cw iw sw msm hv
  have hfind := find_none_of_one_sided hb h _ hb.in_range
  refine ⟨b, hb, hw, hnew, hfind, root_null_of_find_none hfind ?_⟩
  have := hbuild (faces.length + 1) (by omega)
  simpa using this

theorem unit_coord_cases {verts : List Vertex} (hu : unit_coords verts) {v : Vertex}
    (hv : v ∈ verts) (a : Nat) :
    (Vec3.ofVertex v).coord a = 0 ∨ (Vec3.ofVertex v).coord a = 1 := by
  obtain ⟨h0, h1, h2⟩ := hu v hv
  unfold Vec3.coord Vec3.ofVertex
  split
  · exact h0
  · exact h1
  · exact h2

theorem one_sided_of_unit {verts : List Vertex} (hu : unit_coords verts) {v : Vertex}
    (hv : v ∈ verts) (a : Nat) : one_sided verts a ((Vec3.ofVertex v).coord a) := by
  rcases unit_coord_cases hu hv a with h | h
  · right
    intro w hw
    rw [h]
    rcases unit_coord_cases hu hw a with h' | h' <;> simp [h']
  · left
    intro w hw
    rw [h]
    rcases unit_coord_cases hu hw a with h' | h' <;> simp [h']

theorem all_one_sided_of_unit {verts : List Vertex} (hu : unit_coords verts)
    (faces : List Face) : all_candidates_one_sided verts faces := by
  intro face _
  refine ⟨?_, ?_, ?_⟩
  · intro vert hvert
    exact one_sided_of_unit hu (List.getElem?_mem hvert) 0
  · intro vert hvert
    exact one_sided_of_unit hu (List.getElem?_mem hvert) 1
  · intro vert hvert
    exact one_sided_of_unit hu (List.getElem?_mem hvert) 2

theorem candidate_plane (b : BspBuilder) {sqrt : ℚ → ℚ} {verts : List Vertex}
    {faces : List Face} (hb : b.Built sqrt verts faces) {s : List Nat} {c : PlanePtr}
    (hc : c ∈ b.candidates s) :
    ∃ plane vert, b.deref c = Except.ok plane ∧ vert ∈ verts ∧ c.axis < 3 ∧
      plane.Aligned c.axis ((Vec3.ofVertex vert).coord c.axis) := by
  obtain ⟨face, hface, hcase⟩ := hb.candidate hc
  obtain ⟨h0, h1, h2⟩ := hb.faces_valid face hface
  have hlen : b.planes.length = verts.length := by
    rw [hb.wf.planes_length, hb.vert_count_eq]
  rcases hcase with rfl | rfl | rfl
  · have hd := deref_eq b face.1 0 h0.1 (by omega)
    obtain ⟨vert, hvert, hal⟩ := hb.deref_aligned (by omega) hd
    exact ⟨_, vert, hd, List.getElem?_mem hvert, by simp, hal⟩
  · have hd := deref_eq b face.2.1 1 h1.1 (by omega)
    obtain ⟨vert, hvert, hal⟩ := hb.deref_aligned (by omega) hd
    exact ⟨_, vert, hd, List.getElem?_mem hvert, by simp, hal⟩
  · have hd := deref_eq b face.2.2 2 h2.1 (by omega)
    obtain ⟨vert, hvert, hal⟩ := hb.deref_aligned (by omega) hd
    exact ⟨_, vert, hd, List.getElem?_mem hvert, by simp, hal⟩

/-- C5 (as amended): for a mesh whose vertices are corners of the unit cube
(any triangulation with valid indices, any weights) the root is null.  Every
candidate plane of the root subset passes through a cube face coordinate
(`val` is `0` or `1`) and is rejected, because no face is FRONT or no face is
BACK against it. -/
theorem unit_cube_no_node (sqrt : ℚ → ℚ) (verts : List Vertex) (faces : List Face)
    (cw iw sw : ℚ) (msm : FloatInf) (hv : FacesValid verts faces) (hu : unit_coords verts) :
    ∃ b : BspBuilder,
      (∀ fuel, faces.length < fuel →
        BspBuilder.new sqrt fuel verts faces cw iw sw msm = Except.ok b) ∧
      b.root = NodePtr.null ∧
      ∀ c ∈ b.candidates (List.range faces.length), ∃ plane,
        b.deref c = Except.ok plane ∧ (plane.val = 0 ∨ plane.val = 1) ∧
        (b.count_of plane (List.range faces.length) PolyType.FRONT = 0 ∨
          b.count_of plane (List.range faces.length) PolyType.BACK = 0) := by
  obtain ⟨b, hb, _, hnew, _, hroot⟩ :=
    new_null_of_one_sided sqrt verts faces cw iw sw msm hv (all_one_sided_of_unit hu faces)
  refine ⟨b, hnew, hroot, ?_⟩
  intro c hc
  obtain ⟨plane, vert, hd, hvert, _, hal⟩ := candidate_plane b hb hc
  refine ⟨plane, hd, ?_, count_zero_of_one_sided hb hal (one_sided_of_unit hu hvert _) _⟩
  rw [hal.val_eq]
  exact unit_coord_cases hu hvert _

/-- Witness of C5 (as amended) on the triangulated unit cube with the default weights. -/
theorem unit_cube_no_node_witness :
    FacesValid cube_verts cube_faces ∧ unit_coords cube_verts ∧
    ∃ b : BspBuilder,
      (∀ fuel, cube_faces.length < fuel →
        BspBuilder.new Rat.sqrt fuel cube_verts cube_faces (1 / 2) 1 1 (some (1 / 2))
          = Except.ok b) ∧
      b.root = NodePtr.null ∧
      ∀ c ∈ b.candidates (List.range cube_faces.length), ∃ plane,
        b.deref c = Except.ok plane ∧ (plane.val = 0 ∨ plane.val = 1) ∧
        (b.count_of plane (List.range cube_faces.length) PolyType.FRONT = 0 ∨
          b.count_of plane (List.range cube_faces.length) PolyType.BACK = 0) :=
  ⟨by decide, by decide, unit_cube_no_node Rat.sqrt cube_verts cube_faces (1 / 2) 1 1
    (some (1 / 2)) (by decide) (by decide)⟩

/-- Counterexample to C5 as stated: for the unit cube (8 corners, 12 triangles)
with the default weights the constructor returns a builder whose root is null,
not a Node. -/
theorem unit_cube_root_is_null :
    ∃ b : BspBuilder,
      BspBuilder.new Rat.sqrt 13 cube_verts cube_faces (1 / 2) 1 1 (some (1 / 2))
        = Except.ok b ∧
      b.root = NodePtr.null ∧
      ¬ ∃ plane ff bf fn bn, b.root = NodePtr.node plane ff bf fn bn := by
  obtain ⟨b, _, _, hnew, _, hroot⟩ :=
    new_null_of_one_sided Rat.sqrt cube_verts cube_faces (1 / 2) 1 1 (some (1 / 2))
      (by decide) (by decide)
  refine ⟨b, hnew 13 (by decide), hroot, ?_⟩
  rintro ⟨plane, ff, bf, fn, bn, h⟩
  rw [hroot] at h
  exact NodePtr.noConfusion h

/-- C8 (as amended): with every face index in range the constructor does not
fail; with a face index out of range it makes the unchecked read of the vertex
array (`Fault.outOfRange`: undefined behaviour, no error is reported). -/
theorem face_index_unchecked (sqrt : ℚ → ℚ) (verts : List Vertex) (faces : List Face)
    (cw iw sw : ℚ) (msm : FloatInf) :
    (FacesValid verts faces → ∃ b, ∀ fuel, faces.length < fuel →
      BspBuilder.new sqrt fuel verts faces cw iw sw msm = Except.ok b) ∧
    (¬ FacesValid verts faces → ∀ fuel,
      BspBuilder.new sqrt fuel verts faces cw iw sw msm = Except.error Fault.outOfRange) := by
  constructor
  · intro h
    obtain ⟨b, _, _, hnew, _, _⟩ := new_spec sqrt verts faces cw iw sw msm h
    exact ⟨b, hnew⟩
  · intro h fuel
    simp only [BspBuilder.new, make_polys_error sqrt verts faces h, bind_error]

/-- Counterexample to C8 as stated: a triangle whose third index is 3 in a mesh
of 3 vertices.  The run ends in the unchecked read of `verts[3]`
(`Fault.outOfRange`, undefined behaviour); the source has no validation and
reports nothing. -/
theorem bad_index_is_read :
    ¬ FaceValid tri_verts (0, 1, 3) ∧
    Poly.new Rat.sqrt (0, 1, 3) tri_verts = Except.error Fault.outOfRange ∧
    ∀ fuel, BspBuilder.new Rat.sqrt fuel tri_verts [(0, 1, 3)]
      (1 / 2) 1 1 (some (1 / 2)) = Except.error Fault.outOfRange := by
  refine ⟨by decide, ?_, ?_⟩
  · rcases poly_new_cases Rat.sqrt (0, 1, 3) tri_verts with ⟨h, _⟩ | ⟨_, h⟩
    · exact absurd h (by decide)
    · exact h
  · intro fuel
    have h : ¬ FacesValid tri_verts [(0, 1, 3)] := by decide
    simp only [BspBuilder.new, make_polys_error Rat.sqrt _ _ h, bind_error]

theorem forall₂_getElem?_left {α β : Type} {R : α → β → Prop} {l₁ : List α} {l₂ : List β}
    (h : List.Forall₂ R l₁ l₂) (k : Nat) {x : α} (hx : l₁[k]? = some x) :
    ∃ y, l₂[k]? = some y ∧ R x y := by
  induction h generalizing k with
  | nil => simp at hx
  | cons hr _ ih =>
    cases k with
    | zero =>
      simp only [List.getElem?_cons_zero, Option.some.injEq] at hx
      subst hx
      exact ⟨_, by simp, hr⟩
    | succ k =>
      simp only [List.getElem?_cons_succ] at hx
      obtain ⟨y, hy, hxy⟩ := ih k hx
      exact ⟨y, by simpa using hy, hxy⟩

theorem clasify_eval {poly : Poly} {face : Face} {verts : List Vertex}
    (hm : poly.Made face verts) {plane : Plane} {a : Nat} {val : ℚ} (hp : plane.Aligned a val)
    (v0 v1 v2 : Vertex) (h0 : verts[face.1.toNat]? = some v0)
    (h1 : verts[face.2.1.toNat]? = some v1) (h2 : verts[face.2.2.toNat]? = some v2)
    (n0 : ¬ crosses ((Vec3.ofVertex v2).coord a) ((Vec3.ofVertex v0).coord a) val)
    (n1 : ¬ crosses ((Vec3.ofVertex v0).coord a) ((Vec3.ofVertex v1).coord a) val)
    (n2 : ¬ crosses ((Vec3.ofVertex v1).coord a) ((Vec3.ofVertex v2).coord a) val) :
    poly.clasify plane =
      if ((Vec3.ofVertex v0).coord a + (Vec3.ofVertex v1).coord a +
          (Vec3.ofVertex v2).coord a) / 3 = val then PolyType.COPLANAR
      else if ((Vec3.ofVertex v0).coord a + (Vec3.ofVertex v1).coord a +
          (Vec3.ofVertex v2).coord a) / 3 < val then PolyType.FRONT
      else PolyType.BACK := by
  obtain ⟨w0, hw0, hp0⟩ := hm.p0
  obtain ⟨w1, hw1, hp1⟩ := hm.p1
  obtain ⟨w2, hw2, hp2⟩ := hm.p2
  rw [h0] at hw0; rw [h1] at hw1; rw [h2] at hw2
  cases hw0; cases hw1; cases hw2
  have e0 : poly.points.get 0 = Vec3.ofVertex v0 := hp0
  have e1 : poly.points.get 1 = Vec3.ofVertex v1 := hp1
  have e2 : poly.points.get 2 = Vec3.ofVertex v2 := hp2
  have hint := intersects_false_of_no_cross poly plane a val hp
    (by rw [e2, e0]; exact n0) (by rw [e0, e1]; exact n1) (by rw [e1, e2]; exact n2)
  rw [clasify_of_not_intersects poly plane a val hp hint, hm.center_eq a, hp0, hp1, hp2]

/-- C7, the code at a failing input: on the two-triangle mesh `skew_verts` with
the default weights the pass over both faces never meets the plane of vertex 1
on axis 0 (x = 1), returns no plane and the root is null, although that plane
is accepted with metric 0. -/
theorem vertex_axis_pair_skipped :
    ∃ b : BspBuilder,
      BspBuilder.new Rat.sqrt 3 skew_verts skew_faces (1 / 2) 1 1 (some (1 / 2))
        = Except.ok b ∧
      b.find_best_split_plane [0, 1] = Except.ok none ∧ b.root = NodePtr.null ∧
      (⟨1, 0⟩ : PlanePtr) ∉ b.candidates [0, 1] ∧
      ∃ plane, b.deref ⟨1, 0⟩ = Except.ok plane ∧ plane.val = 1 ∧ plane.axis = 0 ∧
        b.accepts [0, 1] plane ∧ b.metric_of [0, 1] plane = 0 := by
  obtain ⟨b, hb, ⟨hcw, hiw, hsw, hmsm⟩, hnew, hfind, hroot⟩ :=
    new_null_of_one_sided Rat.sqrt skew_verts skew_faces (1 / 2) 1 1 (some (1 / 2))
      (by decide) (by decide)
  obtain ⟨poly0, hget0, _, hm0⟩ :=
    forall₂_getElem?_left hb.polys_made 0 (x := (0, 1, 2)) (by simp [skew_faces])
  obtain ⟨poly1, hget1, _, hm1⟩ :=
    forall₂_getElem?_left hb.polys_made 1 (x := (3, 4, 5)) (by simp [skew_faces])
  refine ⟨b, hnew 3 (by decide), hfind, hroot, ?_, ?_⟩
  · simp [BspBuilder.candidates, hget0, hget1, hm0.indexes_eq, hm1.indexes_eq, Array3.get]
  · have hlen : b.planes.length = 6 := by
      rw [hb.wf.planes_length, hb.vert_count_eq]; rfl
    have hd := deref_eq b 1 0 (by decide) (by rw [hlen]; decide)
    obtain ⟨vert, hvert, hal⟩ := hb.deref_aligned (by decide) hd
    have hv : vert = (1, 1, 0) := by
      simp [skew_verts] at hvert
      exact hvert.symm
    subst hv
    have hval : (Vec3.ofVertex ((1 : ℚ), (1 : ℚ), (0 : ℚ))).coord 0 = 1 := rfl
    rw [hval] at hal
    have hc0 : poly0.clasify (b.planes[(1 : Int).toNat].get 0) = PolyType.FRONT := by
      rw [clasify_eval hm0 hal (0, 0, 0) (1, 1, 0) (1, 0, 1) (by simp [skew_verts])
        (by simp [skew_verts]) (by simp [skew_verts])
        (by norm_num [crosses, Vec3.coord, Vec3.ofVertex])
        (by norm_num [crosses, Vec3.coord, Vec3.ofVertex])
        (by norm_num [crosses, Vec3.coord, Vec3.ofVertex])]
      norm_num [Vec3.coord, Vec3.ofVertex]
    have hc1 : poly1.clasify (b.planes[(1 : Int).toNat].get 0) = PolyType.BACK := by
      rw [clasify_eval hm1 hal (4, 0, 0) (3, 1, 0) (3, 0, 1) (by simp [skew_verts])
        (by simp [skew_verts]) (by simp [skew_verts])
        (by norm_num [crosses, Vec3.coord, Vec3.ofVertex])
        (by norm_num [crosses, Vec3.coord, Vec3.ofVertex])
        (by norm_num [crosses, Vec3.coord, Vec3.ofVertex])]
      norm_num [Vec3.coord, Vec3.ofVertex]
    have hcount : ∀ ty, b.count_of (b.planes[(1 : Int).toNat].get 0) [0, 1] ty =
        (if PolyType.FRONT = ty then 1 else 0) + (if PolyType.BACK = ty then 1 else 0) := by
      intro ty
      simp only [BspBuilder.count_of, BspBuilder.type_of, List.countP_cons, hget0, hget1,
        Option.map_some', hc0, hc1, Option.some.injEq, List.countP_nil, decide_eq_true_eq,
        Nat.zero_add]
      exact Nat.add_comm _ _
    have hmetric : b.metric_of [0, 1] (b.planes[(1 : Int).toNat].get 0) = 0 := by
      have hF := hcount PolyType.FRONT
      have hB := hcount PolyType.BACK
      have hS := hcount PolyType.STRADDLE
      have hC := hcount PolyType.COPLANAR
      simp only [reduceCtorEq, if_true, if_false] at hF hB hS hC
      simp only [BspBuilder.metric_of, hF, hB, hS, hC, hcw, hiw, hsw]
      norm_num
    refine ⟨_, hd, hal.val_eq, hal.axis_eq, ⟨?_, ?_, ?_⟩, hmetric⟩
    · rw [hcount]; decide
    · rw [hcount]; decide
    · intro v hv
      rw [hmsm] at hv
      cases hv
      rw [hmetric]
      norm_num

theorem build_ne_null_of_find_some (b : BspBuilder) (k : Nat) (s : List Nat) (p : PlanePtr)
    (t : NodePtr) (hfind : b.find_best_split_plane s = Except.ok (some p))
    (hbuild : b.build_bsp_tree (k + 1) s = Except.ok t) : t ≠ NodePtr.null := by
  simp only [BspBuilder.build_bsp_tree, hfind, bind_ok] at hbuild
  cases hd : b.deref p with
  | error e => simp [hd, bind_error] at hbuild
  | ok plane =>
    simp only [hd, bind_ok] at hbuild
    cases hr : b.route plane s [] [] with
    | error e => simp [hr, bind_error] at hbuild
    | ok fb =>
      simp only [hr, bind_ok] at hbuild
      cases hf : b.build_bsp_tree k fb.1 with
      | error e => simp [hf, bind_error] at hbuild
      | ok fn =>
        simp only [hf, bind_ok] at hbuild
        cases hbk : b.build_bsp_tree k fb.2 with
        | error e => simp [hbk, bind_error] at hbuild
        | ok bn =>
          simp only [hbk, bind_ok, pure_eq_ok] at hbuild
          intro hnull
          rw [hnull] at hbuild
          exact NodePtr.noConfusion (Except.ok.inj hbuild)

/-- The two-triangle mesh `demo_verts` is split: with the default weights the
root of the built tree is a Node. -/
theorem demo_root_is_node :
    ∃ b : BspBuilder,
      BspBuilder.new Rat.sqrt 3 demo_verts demo_faces (1 / 2) 1 1 (some (1 / 2))
        = Except.ok b ∧ b.root ≠ NodePtr.null := by
  obtain ⟨b, hb, ⟨hcw, hiw, hsw, hmsm⟩, hnew, hbuild, _⟩ :=
    new_spec Rat.sqrt demo_verts demo_faces (1 / 2) 1 1 (some (1 / 2)) (by decide)
  refine ⟨b, hnew 3 (by decide), ?_⟩
  obtain ⟨poly0, hget0, _, hm0⟩ :=
    forall₂_getElem?_left hb.polys_made 0 (x := (0, 1, 2)) (by simp [demo_faces])
  obtain ⟨poly1, hget1, _, hm1⟩ :=
    forall₂_getElem?_left hb.polys_made 1 (x := (3, 4, 5)) (by simp [demo_faces])
  have hlen : b.planes.length = 6 := by
    rw [hb.wf.planes_length, hb.vert_count_eq]; rfl
  have hd := deref_eq b 0 0 (by decide) (by rw [hlen]; decide)
  obtain ⟨vert, hvert, hal⟩ := hb.deref_aligned (by decide) hd
  have hv : vert = (1, 1, 0) := by
    simp [demo_verts] at hvert
    exact hvert.symm
  subst hv
  have hval : (Vec3.ofVertex ((1 : ℚ), (1 : ℚ), (0 : ℚ))).coord 0 = 1 := rfl
  rw [hval] at hal
  have hc0 : poly0.clasify (b.planes[(0 : Int).toNat].get 0) = PolyType.FRONT := by
    rw [clasify_eval hm0 hal (1, 1, 0) (0, 0, 0) (1, 0, 1) (by simp [demo_verts])
      (by simp [demo_verts]) (by simp [demo_verts])
      (by norm_num [crosses, Vec3.coord, Vec3.ofVertex])
      (by norm_num [crosses, Vec3.coord, Vec3.ofVertex])
      (by norm_num [crosses, Vec3.coord, Vec3.ofVertex])]
    norm_num [Vec3.coord, Vec3.ofVertex]
  have hc1 : poly1.clasify (b.planes[(0 : Int).toNat].get 0) = PolyType.BACK := by
    rw [clasify_eval hm1 hal (4, 0, 0) (3, 1, 0) (3, 0, 1) (by simp [demo_verts])
      (by simp [demo_verts]) (by simp [demo_verts])
      (by norm_num [crosses, Vec3.coord, Vec3.ofVertex])
      (by norm_num [crosses, Vec3.coord, Vec3.ofVertex])
      (by norm_num [crosses, Vec3.coord, Vec3.ofVertex])]
    norm_num [Vec3.coord, Vec3.ofVertex]
  have hcount : ∀ ty, b.count_of (b.planes[(0 : Int).toNat].get 0) [0, 1] ty =
      (if PolyType.FRONT = ty then 1 else 0) + (if PolyType.BACK = ty then 1 else 0) := by
    intro ty
    simp only [BspBuilder.count_of, BspBuilder.type_of, List.countP_cons, hget0, hget1,
      Option.map_some', hc0, hc1, Option.some.injEq, List.countP_nil, decide_eq_true_eq,
      Nat.zero_add]
    exact Nat.add_comm _ _
  have hF := hcount PolyType.FRONT
  have hB := hcount PolyType.BACK
  have hS := hcount PolyType.STRADDLE
  have hC := hcount PolyType.COPLANAR
  simp only [reduceCtorEq, if_true, if_false] at hF hB hS hC
  have hmetric : b.metric_of [0, 1] (b.planes[(0 : Int).toNat].get 0) = 0 := by
    simp only [BspBuilder.metric_of, hF, hB, hS, hC, hcw, hiw, hsw]
    norm_num
  have hacc : b.accepts [0, 1] (b.planes[(0 : Int).toNat].get 0) := by
    refine ⟨by rw [hF], by rw [hB], ?_⟩
    intro v hv
    rw [hmsm] at hv
    cases hv
    rw [hmetric]
    norm_num
  have hscore : b.score [0, 1] ⟨0, 0⟩ = some 0 := by
    simp only [BspBuilder.score, hd, hacc, hmetric, if_true]
  have hmem : (⟨0, 0⟩ : PlanePtr) ∈ b.candidates [0, 1] := by
    simp [BspBuilder.candidates, hget0, hget1, hm0.indexes_eq, hm1.indexes_eq, Array3.get]
  obtain ⟨r, hfind, hnone, _⟩ := find_best_split_plane_spec b hb.wf [0, 1] hb.in_range
  cases r with
  | none =>
    have := hnone.1 rfl _ hmem
    rw [hscore] at this
    exact absurd this (by simp)
  | some p =>
    exact build_ne_null_of_find_some b 2 [0, 1] p b.root hfind (hbuild 3 (by decide))

theorem strictly_between_of_crosses {cp cv val : ℚ} (h : crosses cp cv val) :
    (cp < val ∧ val < cv) ∨ (cv < val ∧ val < cp) := by
  obtain ⟨hd, h0, ht⟩ := h
  have h1 : (val - cp) / (cv - cp) < 1 := lt_trans ht (by norm_num)
  rcases lt_or_gt_of_ne hd with hneg | hpos
  · right
    rw [div_lt_one_of_neg hneg] at h1
    have h2 : val - cp < 0 := by
      by_contra hc
      have : (val - cp) / (cv - cp) ≤ 0 :=
        div_nonpos_of_nonneg_of_nonpos (not_lt.1 hc) (le_of_lt hneg)
      linarith
    constructor <;> linarith
  · left
    rw [div_lt_one hpos] at h1
    have h2 : 0 < val - cp := by
      by_contra hc
      have : (val - cp) / (cv - cp) ≤ 0 :=
        div_nonpos_of_nonpos_of_nonneg (not_lt.1 hc) (le_of_lt hpos)
      linarith
    constructor <;> linarith

theorem intersects_true_imp_loop {poly : Poly} {plane : Plane}
    (h : poly.intersects plane = true) : poly.intersects_loop plane [0, 1, 2] false = true := by
  unfold Poly.intersects at h
  split at h
  · exact h
  · exact absurd h (by simp)

theorem clasify_straddle_iff (poly : Poly) (plane : Plane) :
    poly.clasify plane = PolyType.STRADDLE ↔ poly.intersects plane = true := by
  unfold Poly.clasify
  by_cases h : poly.intersects plane = true
  · simp [h]
  · simp only [h, Bool.false_eq_true, if_false, iff_false]
    split
    · simp
    · split <;> simp

theorem cut_plane_new : Plane.new (1 / 2) ((0 : Nat) : Int) = Except.ok cut_plane := by
  simp [Plane.new, cut_plane, Vec3.dot_product, Vec3.zero]

theorem cut_poly_straddle : cut_poly.clasify cut_plane = PolyType.STRADDLE := by
  rw [clasify_straddle_iff]
  have hal := aligned_of_new (1 / 2) 0 (by decide) cut_plane cut_plane_new
  unfold Poly.intersects
  have hne : (!(cut_poly.normal.equals cut_plane.normal)) = true := by
    simp [Vec3.equals, cut_poly, cut_plane]
  rw [if_pos hne, intersects_loop_iff cut_poly cut_plane 0 (1 / 2) hal]
  right; left
  norm_num [crosses, cut_poly, Array3.get, Vec3.coord]

/-- C13: whenever `clasify` returns STRADDLE for a polygon and the axis-aligned
plane of axis `a` through `val`, some vertex `i` with its predecessor `p`
(0 with 2, 1 with 0, 2 with 1) has `val` strictly between coordinate `a` of
`p` and coordinate `a` of `i`. -/
theorem straddle_has_crossing_edge (poly : Poly) (val : ℚ) (a : Nat) (plane : Plane)
    (ha : a < 3) (hp : Plane.new val (a : Int) = Except.ok plane)
    (hs : poly.clasify plane = PolyType.STRADDLE) :
    ∃ ip ∈ [((0 : Nat), (2 : Nat)), (1, 0), (2, 1)],
      ((poly.points.get ip.2).coord a < val ∧ val < (poly.points.get ip.1).coord a) ∨
      ((poly.points.get ip.1).coord a < val ∧ val < (poly.points.get ip.2).coord a) := by
  have hal := aligned_of_new val a ha plane hp
  have hloop := intersects_true_imp_loop ((clasify_straddle_iff poly plane).1 hs)
  rcases (intersects_loop_iff poly plane a val hal).1 hloop with h | h | h
  · exact ⟨(0, 2), by simp, strictly_between_of_crosses h⟩
  · exact ⟨(1, 0), by simp, strictly_between_of_crosses h⟩
  · exact ⟨(2, 1), by simp, strictly_between_of_crosses h⟩

/-- Witness of C13: the triangle `cut_poly` against the plane x = 1/2. -/
theorem straddle_has_crossing_edge_witness :
    (0 : Nat) < 3 ∧ Plane.new (1 / 2) ((0 : Nat) : Int) = Except.ok cut_plane ∧
    cut_poly.clasify cut_plane = PolyType.STRADDLE ∧
    ∃ ip ∈ [((0 : Nat), (2 : Nat)), (1, 0), (2, 1)],
      ((cut_poly.points.get ip.2).coord 0 < 1 / 2 ∧
        1 / 2 < (cut_poly.points.get ip.1).coord 0) ∨
      ((cut_poly.points.get ip.1).coord 0 < 1 / 2 ∧
        1 / 2 < (cut_poly.points.get ip.2).coord 0) :=
  ⟨by decide, cut_plane_new, cut_poly_straddle,
    straddle_has_crossing_edge cut_poly (1 / 2) 0 cut_plane (by decide) cut_plane_new
      cut_poly_straddle⟩

theorem guard_redundant {α : Type} (lsp : Bool) (denom t c : ℚ) (x y : α) :
    (if denom ≠ 0 then (if ¬ (lsp = true ∧ t = 0) then (if t > 0 ∧ t < c then x else y) else y)
      else y) =
    (if denom ≠ 0 then (if t > 0 ∧ t < c then x else y) else y) := by
  by_cases hd : denom ≠ 0
  · rw [if_pos hd, if_pos hd]
    by_cases hg : lsp = true ∧ t = 0
    · have hn : ¬ (t > 0 ∧ t < c) := by
        intro hc
        rw [hg.2] at hc
        exact lt_irrefl _ hc.1
      rw [if_neg (not_not.2 hg), if_neg hn]
    · rw [if_pos hg]
  · rw [if_neg hd, if_neg hd]

theorem intersects_loop_unguarded_eq (poly : Poly) (plane : Plane) (l : List Nat)
    (lsp : Bool) :
    poly.intersects_loop plane l lsp = poly.intersects_loop_unguarded plane l := by
  induction l generalizing lsp with
  | nil => rfl
  | cons vertex rest ih =>
    rw [Poly.intersects_loop, Poly.intersects_loop_unguarded]
    simp only [ih]
    exact guard_redundant _ _ _ _ _ _

/-- C16: the suppression on `last_side_parallel` never changes the result of the
straddle test: for every polygon and every plane `intersects` equals the
variant that tests `0 < t < 0.999999` alone. -/
theorem parallel_guard_redundant (poly : Poly) (plane : Plane) :
    poly.intersects plane = poly.intersects_unguarded plane := by
  unfold Poly.intersects Poly.intersects_unguarded
  rw [intersects_loop_unguarded_eq]

theorem aligned_normal {plane : Plane} {a : Nat} {val : ℚ} (hp : plane.Aligned a val) :
    plane.normal.x = (if a = 0 then 1 else 0) ∧ plane.normal.y = (if a = 1 then 1 else 0) ∧
      plane.normal.z = (if a = 2 then 1 else 0) := by
  have hx := hp.dot_normal ⟨1, 0, 0⟩
  have hy := hp.dot_normal ⟨0, 1, 0⟩
  have hz := hp.dot_normal ⟨0, 0, 1⟩
  have ha := hp.axis_lt
  simp only [Vec3.dot_product, mul_one, mul_zero, add_zero, zero_add] at hx hy hz
  have h : a = 0 ∨ a = 1 ∨ a = 2 := by omega
  rcases h with rfl | rfl | rfl <;> simp_all [Vec3.coord]

theorem aligned_point {plane : Plane} {a : Nat} {val : ℚ} (hp : plane.Aligned a val)
    (hnew : Plane.new val (a : Int) = Except.ok plane) :
    plane.point.x = (if a = 0 then val else 0) ∧ plane.point.y = (if a = 1 then val else 0) ∧
      plane.point.z = (if a = 2 then val else 0) := by
  have ha := hp.axis_lt
  have h : a = 0 ∨ a = 1 ∨ a = 2 := by omega
  rcases h with rfl | rfl | rfl
  · have : plane = _ := (Except.ok.inj hnew).symm
    subst this
    simp [Vec3.zero]
  · have : plane = _ := (Except.ok.inj hnew).symm
    subst this
    simp [Vec3.zero]
  · have : plane = _ := (Except.ok.inj hnew).symm
    subst this
    simp [Vec3.zero]

theorem flatMap_toList_length {α : Type} (l : List (Array3 α)) :
    (l.flatMap Array3.toList).length = 3 * l.length := by
  induction l with
  | nil => rfl
  | cons a rest ih =>
    simp only [List.flatMap_cons, List.length_append, ih, Array3.toList, List.length_cons,
      List.length_nil]
    omega

/-- C11: `Plane(val, axis)` for an axis in `0, 1, 2` keeps `val` and `axis`, has
a normal with 1 on the axis and 0 elsewhere, a point with `val` on the axis and
0 elsewhere, and `d = -(normal · point) = -val`; the table of the builder holds
for every vertex `v` and axis `k` the plane `Plane(coordinate k of v, k)`, three
planes per vertex. -/
theorem plane_table (val : ℚ) (a : Nat) (sqrt : ℚ → ℚ) (verts : List Vertex)
    (faces : List Face) (cw iw sw : ℚ) (msm : FloatInf) (ha : a < 3)
    (h : FacesValid verts faces) :
    (∃ plane, Plane.new val (a : Int) = Except.ok plane ∧
      plane.val = val ∧ plane.axis = (a : Int) ∧
      (∀ k, k < 3 → plane.normal.coord k = if k = a then 1 else 0) ∧
      (∀ k, k < 3 → plane.point.coord k = if k = a then val else 0) ∧
      plane.d = -(plane.normal.dot_product plane.point) ∧ plane.d = -val) ∧
    (∃ b : BspBuilder,
      (∀ fuel, faces.length < fuel →
        BspBuilder.new sqrt fuel verts faces cw iw sw msm = Except.ok b) ∧
      b.planes.length = verts.length ∧
      (b.planes.flatMap Array3.toList).length = 3 * verts.length ∧
      ∀ (v : Nat) (vert : Vertex), verts[v]? = some vert → ∃ ap : AxisPlanes,
        b.planes[v]? = some ap ∧
        ∀ k, k < 3 →
          Plane.new ((Vec3.ofVertex vert).coord k) (k : Int) = Except.ok (ap.get k)) := by
  constructor
  · obtain ⟨plane, hnew, hv, hax, hd, _, _⟩ := plane_new_ok val a ha
    have hal := aligned_of_new val a ha plane hnew
    obtain ⟨nx, ny, nz⟩ := aligned_normal hal
    obtain ⟨px, py, pz⟩ := aligned_point hal hnew
    have hcases : a = 0 ∨ a = 1 ∨ a = 2 := by omega
    refine ⟨plane, hnew, hv, hax, ?_, ?_, ?_, hd⟩
    · intro k hk
      have hkc : k = 0 ∨ k = 1 ∨ k = 2 := by omega
      rcases hkc with rfl | rfl | rfl
      · simpa [Vec3.coord, eq_comm] using nx
      · simpa [Vec3.coord, eq_comm] using ny
      · simpa [Vec3.coord, eq_comm] using nz
    · intro k hk
      have hkc : k = 0 ∨ k = 1 ∨ k = 2 := by omega
      rcases hkc with rfl | rfl | rfl
      · simpa [Vec3.coord, eq_comm] using px
      · simpa [Vec3.coord, eq_comm] using py
      · simpa [Vec3.coord, eq_comm] using pz
    · rw [hd, Vec3.dot_product, nx, ny, nz, px, py, pz]
      rcases hcases with rfl | rfl | rfl <;> simp
  · obtain ⟨b, hb, _, hnew, _, _⟩ := new_spec sqrt verts faces cw iw sw msm h
    have hlen : b.planes.length = verts.length := by
      rw [hb.wf.planes_length, hb.vert_count_eq]
    refine ⟨b, hnew, hlen, by rw [flatMap_toList_length, hlen], ?_⟩
    intro v vert hv
    obtain ⟨ap, hap, hr⟩ := forall₂_getElem?_left hb.planes_made v hv
    exact ⟨ap, hap, hr⟩

/-- Witness of C11: the plane `Plane(1/2, 0)` and the two-triangle mesh. -/
theorem plane_table_witness :
    (0 : Nat) < 3 ∧ FacesValid demo_verts demo_faces ∧
    ((∃ plane, Plane.new (1 / 2) ((0 : Nat) : Int) = Except.ok plane ∧
      plane.val = 1 / 2 ∧ plane.axis = ((0 : Nat) : Int) ∧
      (∀ k, k < 3 → plane.normal.coord k = if k = 0 then 1 else 0) ∧
      (∀ k, k < 3 → plane.point.coord k = if k = 0 then 1 / 2 else 0) ∧
      plane.d = -(plane.normal.dot_product plane.point) ∧ plane.d = -(1 / 2)) ∧
    (∃ b : BspBuilder,
      (∀ fuel, demo_faces.length < fuel →
        BspBuilder.new Rat.sqrt fuel demo_verts demo_faces (1 / 2) 1 1 (some (1 / 2))
          = Except.ok b) ∧
      b.planes.length = demo_verts.length ∧
      (b.planes.flatMap Array3.toList).length = 3 * demo_verts.length ∧
      ∀ (v : Nat) (vert : Vertex), demo_verts[v]? = some vert → ∃ ap : AxisPlanes,
        b.planes[v]? = some ap ∧
        ∀ k, k < 3 →
          Plane.new ((Vec3.ofVertex vert).coord k) (k : Int) = Except.ok (ap.get k))) :=
  ⟨by decide, by decide, plane_table (1 / 2) 0 Rat.sqrt demo_verts demo_faces (1 / 2) 1 1
    (some (1 / 2)) (by decide) (by decide)⟩

theorem made_points {poly : Poly} {face : Face} {verts : List Vertex}
    (hm : poly.Made face verts) (v0 v1 v2 : Vertex) (h0 : verts[face.1.toNat]? = some v0)
    (h1 : verts[face.2.1.toNat]? = some v1) (h2 : verts[face.2.2.toNat]? = some v2) :
    poly.points.get 0 = Vec3.ofVertex v0 ∧ poly.points.get 1 = Vec3.ofVertex v1 ∧
      poly.points.get 2 = Vec3.ofVertex v2 := by
  obtain ⟨w0, hw0, hp0⟩ := hm.p0
  obtain ⟨w1, hw1, hp1⟩ := hm.p1
  obtain ⟨w2, hw2, hp2⟩ := hm.p2
  rw [h0] at hw0; rw [h1] at hw1; rw [h2] at hw2
  cases hw0; cases hw1; cases hw2
  exact ⟨hp0, hp1, hp2⟩

/-- Counterexample to C14 as stated: the thin triangle `sliver_verts` against
the plane x = 0.  Vertex 0 is strictly on the negative side and vertex 1
strictly on the positive side, but the one crossing that is walked towards
vertex 1 has fraction 10000000/10000001 > 0.999999, and `clasify` returns FRONT. -/
theorem sliver_not_straddle :
    ∃ poly plane, Poly.new Rat.sqrt tri_face sliver_verts = Except.ok poly ∧
      Plane.new 0 ((0 : Nat) : Int) = Except.ok plane ∧
      (poly.points.get 0).coord 0 < 0 ∧ 0 < (poly.points.get 1).coord 0 ∧
      poly.clasify plane = PolyType.FRONT ∧ poly.clasify plane ≠ PolyType.STRADDLE := by
  rcases poly_new_cases Rat.sqrt tri_face sliver_verts with ⟨_, poly, hpoly, hm⟩ | ⟨hn, _⟩
  · obtain ⟨plane, hplane, _⟩ := plane_new_ok 0 0 (by decide)
    have hal := aligned_of_new 0 0 (by decide) plane hplane
    obtain ⟨e0, e1, _⟩ := made_points hm (-1, 0, 0) (1 / 10000000, 1, 0) (0, 0, 1)
      (by simp [sliver_verts, tri_face]) (by simp [sliver_verts, tri_face])
      (by simp [sliver_verts, tri_face])
    have hc : poly.clasify plane = PolyType.FRONT := by
      rw [clasify_eval hm hal (-1, 0, 0) (1 / 10000000, 1, 0) (0, 0, 1)
        (by simp [sliver_verts, tri_face]) (by simp [sliver_verts, tri_face])
        (by simp [sliver_verts, tri_face])
        (by norm_num [crosses, Vec3.coord, Vec3.ofVertex])
        (by norm_num [crosses, Vec3.coord, Vec3.ofVertex])
        (by norm_num [crosses, Vec3.coord, Vec3.ofVertex])]
      norm_num [Vec3.coord, Vec3.ofVertex]
    refine ⟨poly, plane, hpoly, hplane, ?_, ?_, hc, by rw [hc]; simp⟩
    · rw [e0]; norm_num [Vec3.coord, Vec3.ofVertex]
    · rw [e1]; norm_num [Vec3.coord, Vec3.ofVertex]
  · exact absurd (by decide) hn

theorem test_plane_no_flags_step (b : BspBuilder) (hb : b.WF) (s : List Nat)
    (hs : b.InRange s) (poly : Poly) (hp : poly ∈ b.polys) (i : Nat) (hi : i < 3)
    (seen : List PlanePtr) (st : Search) (inv : b.BestInv s seen st) :
    ∃ st', b.test_plane_no_flags s poly i st = Except.ok st' ∧
      b.BestInv s (seen ++ [⟨poly.indexes.get i, i⟩]) st' := by
  obtain ⟨hv0, hv1⟩ := hb.indexes_lt poly hp i hi
  generalize hv : poly.indexes.get i = v at hv0 hv1
  have hpl : v.toNat < b.planes.length := by rw [hb.planes_length]; omega
  have hvn : ¬ v < 0 := by omega
  have hscore : b.score s ⟨v, i⟩ =
      if b.accepts s (b.planes[v.toNat].get i) then
        some (b.metric_of s (b.planes[v.toNat].get i)) else none := by
    simp [BspBuilder.score, deref_eq b v i hv0 hpl]
  unfold BspBuilder.test_plane_no_flags
  simp only [hv, at_int, hvn, if_false, at_index_of_lt _ _ hpl, bind_ok,
    plane_metric_eq b s _ hs]
  by_cases hacc : b.accepts s (b.planes[v.toNat].get i)
  · simp only [hacc, if_true] at hscore ⊢
    generalize b.metric_of s (b.planes[v.toNat].get i) = metric at hscore ⊢
    by_cases habove : st.best_metric.above metric = true
    · refine ⟨_, by simp [habove, pure_eq_ok]; rfl, by simp, ?_⟩
      intro c hc
      have hc' : c = ⟨v, i⟩ := by simpa using hc.symm
      subst hc'
      refine ⟨metric, rfl, BspBuilder.FirstBest.replace _ _ hscore ?_⟩
      intro c' hc' m' hs'
      cases hbest : st.best_split_plane with
      | none =>
        have := (inv.no_best hbest).2 c' hc'
        rw [this] at hs'
        exact absurd hs' (by simp)
      | some cb =>
        obtain ⟨m, hm', hfb⟩ := inv.best cb hbest
        have h1 : metric < m := by simpa [FloatInf.above, hm'] using habove
        exact lt_of_lt_of_le h1 (hfb.le_of_mem hc' hs')
    · refine ⟨_, by simp [habove, pure_eq_ok]; rfl, ?_, ?_⟩
      · intro hn
        have := (inv.no_best hn).1
        simp [FloatInf.above, this] at habove
      · intro c hc
        obtain ⟨m, hm', hfb⟩ := inv.best c hc
        refine ⟨m, hm', hfb.snoc _ ?_⟩
        intro m' hs'
        rw [hscore] at hs'
        have : metric = m' := Option.some.inj hs'
        subst this
        simpa [FloatInf.above, hm'] using habove
  · simp only [hacc, if_false] at hscore ⊢
    refine ⟨_, by simp [pure_eq_ok]; rfl, ?_, ?_⟩
    · intro hn
      refine ⟨(inv.no_best hn).1, ?_⟩
      intro c hc
      rcases List.mem_append.1 hc with h | h
      · exact (inv.no_best hn).2 c h
      · have : c = ⟨v, i⟩ := by simpa using h
        rw [this]; exact hscore
    · intro c hc
      obtain ⟨m, hm', hfb⟩ := inv.best c hc
      refine ⟨m, hm', hfb.snoc _ ?_⟩
      intro m' hs'
      rw [hscore] at hs'
      exact absurd hs' (by simp)

theorem inner_loop_no_flags_step (b : BspBuilder) (hb : b.WF) (s : List Nat)
    (hs : b.InRange s) (poly : Poly) (hp : poly ∈ b.polys) (seen : List PlanePtr)
    (st : Search) (inv : b.BestInv s seen st) :
    ∃ st', b.inner_loop_no_flags s poly [0, 1, 2] st = Except.ok st' ∧
      b.BestInv s (seen ++ [⟨poly.indexes.get 0, 0⟩, ⟨poly.indexes.get 1, 1⟩,
        ⟨poly.indexes.get 2, 2⟩]) st' := by
  obtain ⟨st0, h0, inv0⟩ := test_plane_no_flags_step b hb s hs poly hp 0 (by omega) seen st inv
  obtain ⟨st1, h1, inv1⟩ := test_plane_no_flags_step b hb s hs poly hp 1 (by omega) _ st0 inv0
  obtain ⟨st2, h2, inv2⟩ := test_plane_no_flags_step b hb s hs poly hp 2 (by omega) _ st1 inv1
  refine ⟨st2, ?_, ?_⟩
  · simp only [BspBuilder.inner_loop_no_flags, h0, h1, h2, bind_ok, pure_eq_ok]
  · simpa [List.append_assoc] using inv2

theorem outer_loop_no_flags_steps (b : BspBuilder) (hb : b.WF) (s : List Nat)
    (hs : b.InRange s) (rest : List Nat) (hr : b.InRange rest) (seen : List PlanePtr)
    (st : Search) (inv : b.BestInv s seen st) :
    ∃ st', b.outer_loop_no_flags s rest st = Except.ok st' ∧
      b.BestInv s (seen ++ b.candidates rest) st' := by
  induction rest generalizing seen st with
  | nil => exact ⟨st, by simp [BspBuilder.outer_loop_no_flags, pure_eq_ok], by
      simpa [BspBuilder.candidates] using inv⟩
  | cons f rest ih =>
    have hf : f < b.polys.length := hr f (List.mem_cons_self _ _)
    have hr' : b.InRange rest := fun g hg => hr g (List.mem_cons_of_mem _ hg)
    have hp : b.polys[f] ∈ b.polys := List.getElem_mem _
    obtain ⟨st1, h1, inv1⟩ := inner_loop_no_flags_step b hb s hs b.polys[f] hp seen st inv
    obtain ⟨st2, h2, inv2⟩ := ih hr' _ st1 inv1
    refine ⟨st2, ?_, ?_⟩
    · simp only [BspBuilder.outer_loop_no_flags, at_index_of_lt _ _ hf, bind_ok, h1, h2]
    · have hc : b.candidates (f :: rest) =
          [⟨b.polys[f].indexes.get 0, 0⟩, ⟨b.polys[f].indexes.get 1, 1⟩,
            ⟨b.polys[f].indexes.get 2, 2⟩] ++ b.candidates rest := by
        simp [BspBuilder.candidates, List.getElem?_eq_getElem hf]
      rw [hc, ← List.append_assoc]
      exact inv2

theorem find_no_flags_spec (b : BspBuilder) (hb : b.WF) (s : List Nat) (hs : b.InRange s) :
    ∃ r, b.find_best_split_plane_no_flags s = Except.ok r ∧
      (r = none ↔ ∀ c ∈ b.candidates s, b.score s c = none) ∧
      (∀ c, r = some c → ∃ m, b.FirstBest s (b.candidates s) c m) := by
  have init : b.BestInv s []
      { best_metric := none, best_split_plane := none, plane_flags := [] } :=
    ⟨by simp, by simp⟩
  obtain ⟨st, h, inv⟩ := outer_loop_no_flags_steps b hb s hs s hs [] _ init
  rw [List.nil_append] at inv
  refine ⟨st.best_split_plane, ?_, ?_, ?_⟩
  · simp only [BspBuilder.find_best_split_plane_no_flags, h, bind_ok, pure_eq_ok]
  · constructor
    · intro hn
      exact (inv.no_best hn).2
    · intro hall
      cases hbest : st.best_split_plane with
      | none => rfl
      | some c =>
        obtain ⟨m, _, pre, post, hseen, hsc, _⟩ := inv.best c hbest
        have hmem : c ∈ b.candidates s := by rw [hseen]; simp
        rw [hall c hmem] at hsc
        exact absurd hsc (by simp)
  · intro c hc
    obtain ⟨m, _, hfb⟩ := inv.best c hc
    exact ⟨m, hfb⟩

theorem BspBuilder.FirstBest.unique {b : BspBuilder} {s : List Nat} {seen : List PlanePtr}
    {c c' : PlanePtr} {m m' : ℚ} (h : b.FirstBest s seen c m) (h' : b.FirstBest s seen c' m') :
    c = c' := by
  obtain ⟨pre, post, hseen, hsc, hpre, hpost⟩ := h
  obtain ⟨pre', post', hseen', hsc', hpre', hpost'⟩ := h'
  rw [hseen] at hseen'
  rcases List.append_eq_append_iff.1 hseen' with ⟨a, ha1, ha2⟩ | ⟨a, ha1, ha2⟩
  · cases a with
    | nil =>
      simp only [List.nil_append] at ha2
      exact (List.cons.inj ha2).1
    | cons x a =>
      simp only [List.cons_append] at ha2
      obtain ⟨hx, hpost_eq⟩ := List.cons.inj ha2
      subst hx
      have h1 : m' < m := hpre' c (by rw [ha1]; simp) m hsc
      have h2 : m ≤ m' := hpost c' (by rw [hpost_eq]; simp) m' hsc'
      exact absurd h1 (not_lt.2 h2)
  · cases a with
    | nil =>
      simp only [List.nil_append] at ha2
      exact (List.cons.inj ha2).1.symm
    | cons x a =>
      simp only [List.cons_append] at ha2
      obtain ⟨hx, hpost_eq⟩ := List.cons.inj ha2
      subst hx
      have h1 : m < m' := hpre c' (by rw [ha1]; simp) m' hsc'
      have h2 : m' ≤ m := hpost' c (by rw [hpost_eq]; simp) m hsc
      exact absurd h1 (not_lt.2 h2)

theorem find_eq_no_flags (b : BspBuilder) (hb : b.WF) (s : List Nat) (hs : b.InRange s) :
    ∃ r, b.find_best_split_plane s = Except.ok r ∧
      b.find_best_split_plane_no_flags s = Except.ok r := by
  obtain ⟨r, hfind, hnone, hsome⟩ := find_best_split_plane_spec b hb s hs
  obtain ⟨r', hfind', hnone', hsome'⟩ := find_no_flags_spec b hb s hs
  refine ⟨r, hfind, ?_⟩
  rw [hfind']
  congr 1
  cases r with
  | none => exact hnone'.2 (hnone.1 rfl)
  | some c =>
    cases r' with
    | none =>
      have := hnone.2 (hnone'.1 rfl)
      exact absurd this (by simp)
    | some c' =>
      obtain ⟨m, hfb⟩ := hsome c rfl
      obtain ⟨m', hfb'⟩ := hsome' c' rfl
      rw [hfb'.unique hfb]

/-- C17: the `plane_flags` test is a pure optimisation.  For every builder the
constructor returns and every subset of face indices of its table,
`find_best_split_plane` returns, and it returns the same table entry as the
variant that evaluates a candidate every time it is met. -/
theorem dedup_flags_pure (sqrt : ℚ → ℚ) (verts : List Vertex) (faces : List Face)
    (cw iw sw : ℚ) (msm : FloatInf) (h : FacesValid verts faces) :
    ∃ b : BspBuilder,
      (∀ fuel, faces.length < fuel →
        BspBuilder.new sqrt fuel verts faces cw iw sw msm = Except.ok b) ∧
      ∀ s : List Nat, b.InRange s →
        ∃ r, b.find_best_split_plane s = Except.ok r ∧
          b.find_best_split_plane_no_flags s = Except.ok r := by
  obtain ⟨b, hb, _, hnew, _, _⟩ := new_spec sqrt verts faces cw iw sw msm h
  exact ⟨b, hnew, fun s hs => find_eq_no_flags b hb.wf s hs⟩

/-- Witness of C17 on the two-triangle mesh with the default weights. -/
theorem dedup_flags_pure_witness :
    FacesValid demo_verts demo_faces ∧
    ∃ b : BspBuilder,
      (∀ fuel, demo_faces.length < fuel →
        BspBuilder.new Rat.sqrt fuel demo_verts demo_faces (1 / 2) 1 1 (some (1 / 2))
          = Except.ok b) ∧
      ∀ s : List Nat, b.InRange s →
        ∃ r, b.find_best_split_plane s = Except.ok r ∧
          b.find_best_split_plane_no_flags s = Except.ok r :=
  ⟨by decide, dedup_flags_pure Rat.sqrt demo_verts demo_faces (1 / 2) 1 1 (some (1 / 2))
    (by decide)⟩

theorem mem_front_or_back_iff (b : BspBuilder) (plane : Plane) (s : List Nat)
    (hs : b.InRange s) (f : Nat) :
    (f ∈ s.filter (b.to_front plane) ∨ f ∈ s.filter (b.to_back plane)) ↔ f ∈ s := by
  rw [mem_filter_front, mem_filter_back]
  constructor
  · rintro (h | h) <;> exact h.1
  · intro hf
    have hlt : f < b.polys.length := hs f hf
    have hty : b.type_of plane f = some (b.polys[f].clasify plane) := by
      simp [BspBuilder.type_of, List.getElem?_eq_getElem hlt]
    rw [hty]
    cases b.polys[f].clasify plane <;> simp [hf]

theorem leaf_faces_iff (b : BspBuilder) (t : NodePtr) :
    ∀ s, b.EveryNode b.NodeOK s t → t ≠ NodePtr.null → ∀ f, f ∈ t.leaf_faces ↔ f ∈ s := by
  induction t with
  | null => intro s _ h; exact absurd rfl h
  | node plane ff bf fn bn ihf ihb =>
    intro s hev _ f
    obtain ⟨front, back, _, hok, hef, heb⟩ := hev
    have hfront : f ∈ ff ++ fn.leaf_faces ↔ f ∈ front := by
      by_cases hn : fn = NodePtr.null
      · rw [hok.front_faces_eq, hn]
        simp [NodePtr.leaf_faces]
      · rw [hok.front_faces_eq, if_neg hn, List.nil_append]
        exact ihf front hef hn f
    have hback : f ∈ bf ++ bn.leaf_faces ↔ f ∈ back := by
      by_cases hn : bn = NodePtr.null
      · rw [hok.back_faces_eq, hn]
        simp [NodePtr.leaf_faces]
      · rw [hok.back_faces_eq, if_neg hn, List.nil_append]
        exact ihb back heb hn f
    have hsplit : f ∈ (NodePtr.node plane ff bf fn bn).leaf_faces ↔
        (f ∈ ff ++ fn.leaf_faces ∨ f ∈ bf ++ bn.leaf_faces) := by
      simp only [NodePtr.leaf_faces, List.mem_append]
      tauto
    rw [hsplit, hfront, hback, hok.front_eq, hok.back_eq]
    exact mem_front_or_back_iff b plane s hok.in_range f

/-- C18: when the built root is not null, every face index stored in a
`front_faces` or `back_faces` list of the tree is below the number of faces, and
every face index below the number of faces is in one of those lists. -/
theorem no_face_lost (sqrt : ℚ → ℚ) (verts : List Vertex) (faces : List Face)
    (cw iw sw : ℚ) (msm : FloatInf) (h : FacesValid verts faces) :
    ∃ b : BspBuilder,
      (∀ fuel, faces.length < fuel →
        BspBuilder.new sqrt fuel verts faces cw iw sw msm = Except.ok b) ∧
      (b.root ≠ NodePtr.null →
        (∀ f ∈ b.root.leaf_faces, f < faces.length) ∧
        (∀ f, f < faces.length → f ∈ b.root.leaf_faces)) := by
  obtain ⟨b, _, _, hnew, _, hev⟩ := new_spec sqrt verts faces cw iw sw msm h
  refine ⟨b, hnew, ?_⟩
  intro hroot
  have hiff := leaf_faces_iff b b.root _ hev hroot
  exact ⟨fun f hf => List.mem_range.1 ((hiff f).1 hf),
    fun f hf => (hiff f).2 (List.mem_range.2 hf)⟩

/-- Witness of C18 on the two-triangle mesh (its root is a Node) with the
default weights. -/
theorem no_face_lost_witness :
    FacesValid demo_verts demo_faces ∧
    ∃ b : BspBuilder,
      (∀ fuel, demo_faces.length < fuel →
        BspBuilder.new Rat.sqrt fuel demo_verts demo_faces (1 / 2) 1 1 (some (1 / 2))
          = Except.ok b) ∧
      (b.root ≠ NodePtr.null →
        (∀ f ∈ b.root.leaf_faces, f < demo_faces.length) ∧
        (∀ f, f < demo_faces.length → f ∈ b.root.leaf_faces)) :=
  ⟨by decide, no_face_lost Rat.sqrt demo_verts demo_faces (1 / 2) 1 1 (some (1 / 2))
    (by decide)⟩

theorem every_node_sorted (b : BspBuilder) (t : NodePtr) :
    ∀ s, s.Pairwise (· < ·) → b.EveryNode b.NodeOK s t →
      b.EveryNode (fun s _ front back front_faces back_faces _ _ =>
        front.Sublist s ∧ back.Sublist s ∧
        front_faces.Pairwise (· < ·) ∧ back_faces.Pairwise (· < ·)) s t := by
  induction t with
  | null => intro s _ _; trivial
  | node plane ff bf fn bn ihf ihb =>
    intro s hsorted hev
    obtain ⟨front, back, hroute, hok, hef, heb⟩ := hev
    have hfs : front.Sublist s := by rw [hok.front_eq]; exact List.filter_sublist _
    have hbs : back.Sublist s := by rw [hok.back_eq]; exact List.filter_sublist _
    have hfp : front.Pairwise (· < ·) := hsorted.sublist hfs
    have hbp : back.Pairwise (· < ·) := hsorted.sublist hbs
    refine ⟨front, back, hroute, ⟨hfs, hbs, ?_, ?_⟩, ihf front hfp hef, ihb back hbp heb⟩
    · rw [hok.front_faces_eq]
      split
      · exact hfp
      · exact List.Pairwise.nil
    · rw [hok.back_faces_eq]
      split
      · exact hbp
      · exact List.Pairwise.nil

/-- C20: at every Node of the built tree the front and the back subset are
sub-lists of the input subset of the Node (same order), and the `front_faces`
and `back_faces` lists are strictly increasing. -/
theorem leaf_lists_increasing (sqrt : ℚ → ℚ) (verts : List Vertex) (faces : List Face)
    (cw iw sw : ℚ) (msm : FloatInf) (h : FacesValid verts faces) :
    ∃ b : BspBuilder,
      (∀ fuel, faces.length < fuel →
        BspBuilder.new sqrt fuel verts faces cw iw sw msm = Except.ok b) ∧
      b.EveryNode (fun s _ front back front_faces back_faces _ _ =>
        front.Sublist s ∧ back.Sublist s ∧
        front_faces.Pairwise (· < ·) ∧ back_faces.Pairwise (· < ·))
        (List.range faces.length) b.root := by
  obtain ⟨b, _, _, hnew, _, hev⟩ := new_spec sqrt verts faces cw iw sw msm h
  exact ⟨b, hnew, every_node_sorted b b.root _ (List.pairwise_lt_range _) hev⟩

/-- Witness of C20 on the two-triangle mesh with the default weights. -/
theorem leaf_lists_increasing_witness :
    FacesValid demo_verts demo_faces ∧
    ∃ b : BspBuilder,
      (∀ fuel, demo_faces.length < fuel →
        BspBuilder.new Rat.sqrt fuel demo_verts demo_faces (1 / 2) 1 1 (some (1 / 2))
          = Except.ok b) ∧
      b.EveryNode (fun s _ front back front_faces back_faces _ _ =>
        front.Sublist s ∧ back.Sublist s ∧
        front_faces.Pairwise (· < ·) ∧ back_faces.Pairwise (· < ·))
        (List.range demo_faces.length) b.root :=
  ⟨by decide, leaf_lists_increasing Rat.sqrt demo_verts demo_faces (1 / 2) 1 1
    (some (1 / 2)) (by decide)⟩

theorem count_loop_total (b : BspBuilder) (plane : Plane) (s : List Nat) (c c' : Counts)
    (h : b.count_loop plane s c = Except.ok c') :
    c'.coplanar_count + c'.intersect_count + c'.front_count + c'.back_count =
      c.coplanar_count + c.intersect_count + c.front_count + c.back_count + s.length := by
  induction s generalizing c with
  | nil =>
    simp only [BspBuilder.count_loop, pure_eq_ok] at h
    rw [← Except.ok.inj h]
    rfl
  | cons f rest ih =>
    simp only [BspBuilder.count_loop] at h
    cases hp : at_index b.polys f with
    | error e => simp [hp, bind_error] at h
    | ok poly =>
      simp only [hp, bind_ok] at h
      cases hc : poly.clasify plane <;> simp only [hc] at h <;>
        have := ih _ h <;> simp only [List.length_cons] at this ⊢ <;> omega

theorem plane_metric_checked_eq (b : BspBuilder) (s : List Nat) (plane : Plane) :
    b.plane_metric_checked s plane = (b.plane_metric s plane).map some := by
  unfold BspBuilder.plane_metric_checked BspBuilder.plane_metric
  cases hc : b.count_loop plane s ⟨0, 0, 0, 0⟩ with
  | error e => rfl
  | ok c =>
    simp only [bind_ok]
    by_cases hg : c.front_count = 0 ∨ c.back_count = 0
    · simp only [hg, if_true]; rfl
    · have htot := count_loop_total b plane s _ c hc
      have h1 : ((c.front_count + c.back_count : Nat) : ℚ) ≠ 0 := by
        have : c.front_count + c.back_count ≠ 0 := by omega
        exact_mod_cast this
      have h2 : (s.length : ℚ) ≠ 0 := by
        have : s.length ≠ 0 := by
          simp only [Nat.zero_add] at htot
          omega
        exact_mod_cast this
      simp only [hg, if_false, div_checked, h1, h2]
      split <;> rfl

/-- The premises of C12 are met on the three-triangle mesh `weight_verts` with
the default weights: the plane x = 2 of vertex 3 (candidate `A`, one coplanar
face) and the plane x = 1 of vertex 0 (candidate `B`, no coplanar face) both
have a FRONT and a BACK face, and both have metric 1/6 at coplanar weight 1/2. -/
theorem weight_premises_hold :
    ∃ b : BspBuilder,
      BspBuilder.new Rat.sqrt 4 weight_verts weight_faces (1 / 2) 1 1 (some (1 / 2))
        = Except.ok b ∧
      ∃ planeA planeB : Plane,
        (⟨3, 0⟩ : PlanePtr) ∈ b.candidates [0, 1, 2] ∧
        (⟨0, 0⟩ : PlanePtr) ∈ b.candidates [0, 1, 2] ∧
        b.deref ⟨3, 0⟩ = Except.ok planeA ∧ b.deref ⟨0, 0⟩ = Except.ok planeB ∧
        1 ≤ b.count_of planeA [0, 1, 2] PolyType.FRONT ∧
        1 ≤ b.count_of planeA [0, 1, 2] PolyType.BACK ∧
        1 ≤ b.count_of planeB [0, 1, 2] PolyType.FRONT ∧
        1 ≤ b.count_of planeB [0, 1, 2] PolyType.BACK ∧
        b.coplanar_ratio_of [0, 1, 2] planeB < b.coplanar_ratio_of [0, 1, 2] planeA ∧
        b.metric_of [0, 1, 2] planeB ≤ b.metric_of [0, 1, 2] planeA := by
  obtain ⟨b, hb, ⟨hcw, hiw, hsw, _⟩, hnew, _, _⟩ :=
    new_spec Rat.sqrt weight_verts weight_faces (1 / 2) 1 1 (some (1 / 2)) (by decide)
  refine ⟨b, hnew 4 (by decide), ?_⟩
  obtain ⟨poly0, hget0, _, hm0⟩ :=
    forall₂_getElem?_left hb.polys_made 0 (x := (0, 1, 2)) (by simp [weight_faces])
  obtain ⟨poly1, hget1, _, hm1⟩ :=
    forall₂_getElem?_left hb.polys_made 1 (x := (3, 4, 5)) (by simp [weight_faces])
  obtain ⟨poly2, hget2, _, hm2⟩ :=
    forall₂_getElem?_left hb.polys_made 2 (x := (6, 7, 8)) (by simp [weight_faces])
  have hlen : b.planes.length = 9 := by
    rw [hb.wf.planes_length, hb.vert_count_eq]; rfl
  -- candidate A: vertex 3, axis 0, the plane x = 2
  have hdA := deref_eq b 3 0 (by decide) (by rw [hlen]; decide)
  obtain ⟨vertA, hvertA, halA⟩ := hb.deref_aligned (by decide) hdA
  have hvA : vertA = (2, 0, 0) := by
    simp [weight_verts] at hvertA
    exact hvertA.symm
  subst hvA
  have hvalA : (Vec3.ofVertex ((2 : ℚ), (0 : ℚ), (0 : ℚ))).coord 0 = 2 := rfl
  rw [hvalA] at halA
  -- candidate B: vertex 0, axis 0, the plane x = 1
  have hdB := deref_eq b 0 0 (by decide) (by rw [hlen]; decide)
  obtain ⟨vertB, hvertB, halB⟩ := hb.deref_aligned (by decide) hdB
  have hvB : vertB = (1, 0, 0) := by
    simp [weight_verts] at hvertB
    exact hvertB.symm
  subst hvB
  have hvalB : (Vec3.ofVertex ((1 : ℚ), (0 : ℚ), (0 : ℚ))).coord 0 = 1 := rfl
  rw [hvalB] at halB
  have hA0 : poly0.clasify (b.planes[(3 : Int).toNat].get 0) = PolyType.FRONT := by
    rw [clasify_eval hm0 halA (1, 0, 0) (0, 1, 0) (0, 0, 1) (by simp [weight_verts])
      (by simp [weight_verts]) (by simp [weight_verts])
      (by norm_num [crosses, Vec3.coord, Vec3.ofVertex])
      (by norm_num [crosses, Vec3.coord, Vec3.ofVertex])
      (by norm_num [crosses, Vec3.coord, Vec3.ofVertex])]
    norm_num [Vec3.coord, Vec3.ofVertex]
  have hA1 : poly1.clasify (b.planes[(3 : Int).toNat].get 0) = PolyType.COPLANAR := by
    rw [clasify_eval hm1 halA (2, 0, 0) (2, 1, 0) (2, 0, 1) (by simp [weight_verts])
      (by simp [weight_verts]) (by simp [weight_verts])
      (by norm_num [crosses, Vec3.coord, Vec3.ofVertex])
      (by norm_num [crosses, Vec3.coord, Vec3.ofVertex])
      (by norm_num [crosses, Vec3.coord, Vec3.ofVertex])]
    norm_num [Vec3.coord, Vec3.ofVertex]
  have hA2 : poly2.clasify (b.planes[(3 : Int).toNat].get 0) = PolyType.BACK := by
    rw [clasify_eval hm2 halA (4, 0, 0) (3, 1, 0) (3, 0, 1) (by simp [weight_verts])
      (by simp [weight_verts]) (by simp [weight_verts])
      (by norm_num [crosses, Vec3.coord, Vec3.ofVertex])
      (by norm_num [crosses, Vec3.coord, Vec3.ofVertex])
      (by norm_num [crosses, Vec3.coord, Vec3.ofVertex])]
    norm_num [Vec3.coord, Vec3.ofVertex]
  have hB0 : poly0.clasify (b.planes[(0 : Int).toNat].get 0) = PolyType.FRONT := by
    rw [clasify_eval hm0 halB (1, 0, 0) (0, 1, 0) (0, 0, 1) (by simp [weight_verts])
      (by simp [weight_verts]) (by simp [weight_verts])
      (by norm_num [crosses, Vec3.coord, Vec3.ofVertex])
      (by norm_num [crosses, Vec3.coord, Vec3.ofVertex])
      (by norm_num [crosses, Vec3.coord, Vec3.ofVertex])]
    norm_num [Vec3.coord, Vec3.ofVertex]
  have hB1 : poly1.clasify (b.planes[(0 : Int).toNat].get 0) = PolyType.BACK := by
    rw [clasify_eval hm1 halB (2, 0, 0) (2, 1, 0) (2, 0, 1) (by simp [weight_verts])
      (by simp [weight_verts]) (by simp [weight_verts])
      (by norm_num [crosses, Vec3.coord, Vec3.ofVertex])
      (by norm_num [crosses, Vec3.coord, Vec3.ofVertex])
      (by norm_num [crosses, Vec3.coord, Vec3.ofVertex])]
    norm_num [Vec3.coord, Vec3.ofVertex]
  have hB2 : poly2.clasify (b.planes[(0 : Int).toNat].get 0) = PolyType.BACK := by
    rw [clasify_eval hm2 halB (4, 0, 0) (3, 1, 0) (3, 0, 1) (by simp [weight_verts])
      (by simp [weight_verts]) (by simp [weight_verts])
      (by norm_num [crosses, Vec3.coord, Vec3.ofVertex])
      (by norm_num [crosses, Vec3.coord, Vec3.ofVertex])
      (by norm_num [crosses, Vec3.coord, Vec3.ofVertex])]
    norm_num [Vec3.coord, Vec3.ofVertex]
  have hcountA : ∀ ty, b.count_of (b.planes[(3 : Int).toNat].get 0) [0, 1, 2] ty =
      (if PolyType.FRONT = ty then 1 else 0) + (if PolyType.COPLANAR = ty then 1 else 0) +
        (if PolyType.BACK = ty then 1 else 0) := by
    intro ty
    simp only [BspBuilder.count_of, BspBuilder.type_of, List.countP_cons, hget0, hget1, hget2,
      Option.map_some', hA0, hA1, hA2, Option.some.injEq, List.countP_nil, decide_eq_true_eq,
      Nat.zero_add]
    omega
  have hcountB : ∀ ty, b.count_of (b.planes[(0 : Int).toNat].get 0) [0, 1, 2] ty =
      (if PolyType.FRONT = ty then 1 else 0) + (if PolyType.BACK = ty then 1 else 0) +
        (if PolyType.BACK = ty then 1 else 0) := by
    intro ty
    simp only [BspBuilder.count_of, BspBuilder.type_of, List.countP_cons, hget0, hget1, hget2,
      Option.map_some', hB0, hB1, hB2, Option.some.injEq, List.countP_nil, decide_eq_true_eq,
      Nat.zero_add]
    omega
  have hAF := hcountA PolyType.FRONT
  have hAB := hcountA PolyType.BACK
  have hAS := hcountA PolyType.STRADDLE
  have hAC := hcountA PolyType.COPLANAR
  have hBF := hcountB PolyType.FRONT
  have hBB := hcountB PolyType.BACK
  have hBS := hcountB PolyType.STRADDLE
  have hBC := hcountB PolyType.COPLANAR
  simp only [reduceCtorEq, if_true, if_false] at hAF hAB hAS hAC hBF hBB hBS hBC
  refine ⟨_, _, ?_, ?_, hdA, hdB, by rw [hAF], by rw [hAB], by rw [hBF], by rw [hBB]; decide,
    ?_, ?_⟩
  · simp [BspBuilder.candidates, hget0, hget1, hget2, hm0.indexes_eq, hm1.indexes_eq,
      hm2.indexes_eq, Array3.get]
  · simp [BspBuilder.candidates, hget0, hget1, hget2, hm0.indexes_eq, hm1.indexes_eq,
      hm2.indexes_eq, Array3.get]
  · simp only [BspBuilder.coplanar_ratio_of, hAC, hBC]
    norm_num
  · simp only [BspBuilder.metric_of, hAF, hAB, hAS, hAC, hBF, hBB, hBS, hBC, hcw, hiw, hsw]
    norm_num
    rw [abs_of_nonneg (by norm_num)]

theorem intersects_loop_float_id (poly : Poly) (plane : Plane) (l : List Nat) (lsp : Bool) :
    poly.intersects_loop_float id plane l lsp = poly.intersects_loop plane l lsp := by
  induction l generalizing lsp with
  | nil => rfl
  | cons vertex rest ih =>
    rw [Poly.intersects_loop_float, Poly.intersects_loop]
    simp only [ih]
    rfl

theorem clasify_float_id (poly : Poly) (plane : Plane) :
    poly.clasify_float id plane = poly.clasify plane := by
  unfold Poly.clasify_float Poly.clasify Poly.intersects_float Poly.intersects
  simp only [intersects_loop_float_id]
  rfl

theorem poly_new_float_id (sqrt : ℚ → ℚ) (face : Face) (verts : List Vertex) :
    Poly.new_float id sqrt face verts = Poly.new sqrt face verts := rfl

theorem count_loop_float_id (b : BspBuilder) (plane : Plane) (s : List Nat) (c : Counts) :
    b.count_loop_float id plane s c = b.count_loop plane s c := by
  induction s generalizing c with
  | nil => rfl
  | cons f rest ih =>
    simp only [BspBuilder.count_loop_float, BspBuilder.count_loop, clasify_float_id]
    cases at_index b.polys f with
    | error e => rfl
    | ok poly =>
      simp only [bind_ok]
      cases poly.clasify plane <;> exact ih _

theorem plane_metric_float_id (b : BspBuilder) (s : List Nat) (plane : Plane) :
    b.plane_metric_float id s plane = b.plane_metric s plane := by
  unfold BspBuilder.plane_metric_float BspBuilder.plane_metric
  simp only [count_loop_float_id]
  rfl

theorem test_plane_float_id (b : BspBuilder) (s : List Nat) (poly : Poly) (i : Nat)
    (st : Search) : b.test_plane_float id s poly i st = b.test_plane s poly i st := by
  simp only [BspBuilder.test_plane_float, BspBuilder.test_plane, plane_metric_float_id]

theorem inner_loop_float_id (b : BspBuilder) (s : List Nat) (poly : Poly) (l : List Nat)
    (st : Search) : b.inner_loop_float id s poly l st = b.inner_loop s poly l st := by
  induction l generalizing st with
  | nil => rfl
  | cons i rest ih =>
    simp only [BspBuilder.inner_loop_float, BspBuilder.inner_loop, test_plane_float_id, ih]

theorem outer_loop_float_id (b : BspBuilder) (s : List Nat) (l : List Nat) (st : Search) :
    b.outer_loop_float id s l st = b.outer_loop s l st := by
  induction l generalizing st with
  | nil => rfl
  | cons f rest ih =>
    simp only [BspBuilder.outer_loop_float, BspBuilder.outer_loop, inner_loop_float_id, ih]

theorem find_best_split_plane_float_id (b : BspBuilder) (s : List Nat) :
    b.find_best_split_plane_float id s = b.find_best_split_plane s := by
  unfold BspBuilder.find_best_split_plane_float BspBuilder.find_best_split_plane
  simp only [outer_loop_float_id]

theorem count_of_float_id (b : BspBuilder) (plane : Plane) (s : List Nat) (ty : PolyType) :
    b.count_of_float id plane s ty = b.count_of plane s ty := by
  simp only [BspBuilder.count_of_float, BspBuilder.count_of, BspBuilder.type_of_float,
    BspBuilder.type_of, clasify_float_id]

theorem metric_of_float_id (b : BspBuilder) (s : List Nat) (plane : Plane) :
    b.metric_of_float id s plane = b.metric_of s plane := by
  simp only [BspBuilder.metric_of_float, BspBuilder.metric_of, metric_float, count_of_float_id,
    id, Nat.cast_add]

theorem score_float_id (b : BspBuilder) (s : List Nat) (c : PlanePtr) :
    b.score_float id s c = b.score s c := by
  unfold BspBuilder.score_float BspBuilder.score
  cases b.deref c with
  | error e => rfl
  | ok plane =>
    simp only [BspBuilder.accepts_float, BspBuilder.accepts, metric_of_float_id,
      count_of_float_id]

theorem crosses_float_id (cp cv val : ℚ) : crosses_float id cp cv val ↔ crosses cp cv val := by
  unfold crosses_float crosses
  have ht : -(cp + -val) / (cv - cp) = (val - cp) / (cv - cp) := by ring
  simp only [id, ht]

theorem dot_float_aligned (rnd : ℚ → ℚ) (h0 : rnd 0 = 0) (hid : ∀ x, rnd (rnd x) = rnd x)
    {plane : Plane} {a : Nat} {val : ℚ} (hp : plane.Aligned a val) (u : Vec3) :
    u.dot_product_float rnd plane.normal = rnd (u.coord a) := by
  obtain ⟨hx, hy, hz⟩ := aligned_normal hp
  have ha := hp.axis_lt
  have h : a = 0 ∨ a = 1 ∨ a = 2 := by omega
  rcases h with rfl | rfl | rfl <;>
    simp [Vec3.dot_product_float, hx, hy, hz, h0, hid, Vec3.coord]

theorem sub_vectors_float_coord (rnd : ℚ → ℚ) (p q : Vec3) (a : Nat) :
    (Vec3.sub_vectors_float rnd p q).coord a = rnd (p.coord a - q.coord a) := by
  unfold Vec3.coord Vec3.sub_vectors_float
  split <;> rfl

theorem intersects_loop_float_cons (rnd : ℚ → ℚ) (h0 : rnd 0 = 0)
    (hid : ∀ x, rnd (rnd x) = rnd x) (poly : Poly) (plane : Plane) (a : Nat) (val : ℚ)
    (hp : plane.Aligned a val) (vertex : Nat) (rest : List Nat) (lsp : Bool) :
    poly.intersects_loop_float rnd plane (vertex :: rest) lsp =
      if crosses_float rnd ((poly.points.get (if vertex ≠ 0 then vertex - 1 else 3 - 1)).coord a)
          ((poly.points.get vertex).coord a) val then true
      else poly.intersects_loop_float rnd plane rest
        (decide (rnd ((poly.points.get vertex).coord a -
          (poly.points.get (if vertex ≠ 0 then vertex - 1 else 3 - 1)).coord a) = 0)) := by
  rw [Poly.intersects_loop_float]
  simp only [dot_float_aligned rnd h0 hid hp, hp.d_eq, sub_vectors_float_coord, hid]
  generalize (poly.points.get vertex).coord a = cv
  generalize (poly.points.get (if vertex ≠ 0 then vertex - 1 else 3 - 1)).coord a = cp
  unfold crosses_float
  by_cases hd : rnd (cv - cp) = 0
  · simp [hd]
  · by_cases ht0 : 0 < rnd (-(rnd (rnd cp + -val)) / rnd (cv - cp))
    · have hne : rnd (-(rnd (rnd cp + -val)) / rnd (cv - cp)) ≠ 0 := ne_of_gt ht0
      by_cases h1 : rnd (-(rnd (rnd cp + -val)) / rnd (cv - cp)) < 16777199 / 16777216
      · simp [hd, ht0, h1, hne]
      · simp [hd, ht0, h1, hne]
    · simp [hd, ht0]

theorem intersects_loop_float_iff (rnd : ℚ → ℚ) (h0 : rnd 0 = 0)
    (hid : ∀ x, rnd (rnd x) = rnd x) (poly : Poly) (plane : Plane) (a : Nat) (val : ℚ)
    (hp : plane.Aligned a val) :
    poly.intersects_loop_float rnd plane [0, 1, 2] false = true ↔
      (crosses_float rnd ((poly.points.get 2).coord a) ((poly.points.get 0).coord a) val ∨
       crosses_float rnd ((poly.points.get 0).coord a) ((poly.points.get 1).coord a) val ∨
       crosses_float rnd ((poly.points.get 1).coord a) ((poly.points.get 2).coord a) val) := by
  rw [intersects_loop_float_cons rnd h0 hid poly plane a val hp,
    intersects_loop_float_cons rnd h0 hid poly plane a val hp,
    intersects_loop_float_cons rnd h0 hid poly plane a val hp]
  simp only [Poly.intersects_loop_float, ne_eq, not_true_eq_false, if_false, Nat.reduceSub,
    one_ne_zero, not_false_eq_true, if_true, OfNat.ofNat_ne_zero]
  by_cases h1 : crosses_float rnd ((poly.points.get 2).coord a) ((poly.points.get 0).coord a) val <;>
  by_cases h2 : crosses_float rnd ((poly.points.get 0).coord a) ((poly.points.get 1).coord a) val <;>
  by_cases h3 : crosses_float rnd ((poly.points.get 1).coord a) ((poly.points.get 2).coord a) val <;>
  simp [h1, h2, h3]

theorem clasify_float_straddle_iff (rnd : ℚ → ℚ) (poly : Poly) (plane : Plane) :
    poly.clasify_float rnd plane = PolyType.STRADDLE ↔ poly.intersects_float rnd plane = true := by
  unfold Poly.clasify_float
  by_cases h : poly.intersects_float rnd plane = true
  · simp [h]
  · simp only [h, Bool.false_eq_true, if_false, iff_false]
    split
    · simp
    · split <;> simp

/-- C14 (as amended): for every rounding of the float operations that keeps `0`
and is idempotent, a polygon is classified STRADDLE against the axis-aligned
plane of axis `a` through `val` exactly when its normal is not component-wise
equal to the plane normal and, for some vertex `i` with predecessor `p`, the
computed extent of the edge along the axis is not zero and the computed
fraction `t = (val - c_p) / (c_i - c_p)` lies strictly between 0 and
`0.999999f`. -/
theorem straddle_iff_walk_crosses (rnd : ℚ → ℚ) (poly : Poly) (val : ℚ) (a : Nat)
    (plane : Plane) (h0 : rnd 0 = 0) (hid : ∀ x, rnd (rnd x) = rnd x) (ha : a < 3)
    (hp : Plane.new val (a : Int) = Except.ok plane) :
    poly.clasify_float rnd plane = PolyType.STRADDLE ↔
      (poly.normal.equals plane.normal = false ∧
        ∃ ip ∈ [((0 : Nat), (2 : Nat)), (1, 0), (2, 1)],
          crosses_float rnd ((poly.points.get ip.2).coord a)
            ((poly.points.get ip.1).coord a) val) := by
  have hal := aligned_of_new val a ha plane hp
  have hiff := intersects_loop_float_iff rnd h0 hid poly plane a val hal
  rw [clasify_float_straddle_iff]
  unfold Poly.intersects_float
  cases he : poly.normal.equals plane.normal with
  | true => simp
  | false =>
    simp only [Bool.not_false, if_true, true_and]
    rw [hiff]
    simp only [List.mem_cons, List.mem_singleton, List.not_mem_nil, or_false, exists_eq_or_imp,
      exists_eq_left]

theorem round_even_intCast (n : ℤ) : round_even (n : ℚ) = n := by
  unfold round_even
  simp

theorem f32_zero : f32 0 = 0 := by
  simp [f32]

theorem f32_of_int_mul (q : ℚ) (n : ℤ)
    (h : q = (n : ℚ) * 2 ^ (max (Int.log 2 |q|) (-126) - 23)) : f32 q = q := by
  unfold f32
  by_cases hq : q = 0
  · simp [hq]
  · rw [if_neg hq]
    have hu : (2 : ℚ) ^ (max (Int.log 2 |q|) (-126) - 23) ≠ 0 := zpow_ne_zero _ (by norm_num)
    have hdiv : q / 2 ^ (max (Int.log 2 |q|) (-126) - 23) = (n : ℚ) := by
      rw [div_eq_iff hu]
      exact h
    simp only [hdiv, round_even_intCast]
    exact h.symm

theorem log_two_zpow (k : ℤ) : Int.log 2 |(2 : ℚ) ^ k| = k := by
  rw [abs_of_pos (zpow_pos (by norm_num) k)]
  have := Int.log_zpow (R := ℚ) (b := 2) (by norm_num) k
  simpa using this

theorem f32_two_zpow (k : ℤ) (hk : -149 ≤ k) : f32 ((2 : ℚ) ^ k) = 2 ^ k := by
  obtain ⟨m, hm⟩ := Int.eq_ofNat_of_zero_le (a := k - (max k (-126) - 23)) (by
    rcases le_total k (-126) with h | h
    · rw [max_eq_right h]; omega
    · rw [max_eq_left h]; omega)
  apply f32_of_int_mul _ ((2 : ℤ) ^ m)
  rw [log_two_zpow]
  push_cast
  rw [← zpow_natCast, ← hm, ← zpow_add₀ (by norm_num : (2 : ℚ) ≠ 0)]
  congr 1
  ring

theorem f32_one : f32 1 = 1 := by
  have := f32_two_zpow 0 (by norm_num)
  simpa using this

theorem round_even_mem (x : ℚ) : round_even x = ⌊x⌋ ∨ round_even x = ⌊x⌋ + 1 := by
  unfold round_even
  simp only
  split
  · exact Or.inl rfl
  · split
    · exact Or.inr rfl
    · split
      · exact Or.inl rfl
      · exact Or.inr rfl

theorem le_round_even (x : ℚ) (k : ℤ) (h : (k : ℚ) ≤ x) : k ≤ round_even x := by
  have hk : k ≤ ⌊x⌋ := Int.le_floor.2 h
  rcases round_even_mem x with h1 | h1 <;> omega

theorem round_even_le (x : ℚ) (k : ℤ) (h : x ≤ (k : ℚ)) : round_even x ≤ k := by
  rcases eq_or_lt_of_le h with h1 | h1
  · rw [h1, round_even_intCast]
  · have hk : ⌊x⌋ < k := Int.floor_lt.2 h1
    rcases round_even_mem x with h2 | h2 <;> omega

theorem log_two_eq (r : ℚ) (e : ℤ) (h1 : (2 : ℚ) ^ e ≤ r) (h2 : r < 2 ^ (e + 1)) :
    Int.log 2 r = e := by
  have hr : 0 < r := lt_of_lt_of_le (zpow_pos (by norm_num) e) h1
  have ha : e ≤ Int.log 2 r := by
    have := (Int.zpow_le_iff_le_log (R := ℚ) (b := 2) (by norm_num) hr (x := e)).1
      (by simpa using h1)
    exact this
  have hb : Int.log 2 r < e + 1 := by
    have := (Int.lt_zpow_iff_log_lt (R := ℚ) (b := 2) (by norm_num) hr (x := e + 1)).1
      (by simpa using h2)
    exact this
  omega

theorem abs_round_even_ge (x : ℚ) (k : ℤ) (h : (k : ℚ) ≤ |x|) : k ≤ |round_even x| := by
  rcases le_total 0 x with hx | hx
  · rw [abs_of_nonneg hx] at h
    exact le_trans (le_round_even x k h) (le_abs_self _)
  · rw [abs_of_nonpos hx] at h
    have h1 : round_even x ≤ -k := round_even_le x (-k) (by push_cast; linarith)
    have h2 : -round_even x ≤ |round_even x| := neg_le_abs _
    omega

theorem abs_round_even_le (x : ℚ) (k : ℤ) (h : |x| ≤ (k : ℚ)) : |round_even x| ≤ k := by
  have h1 : round_even x ≤ k := round_even_le x k (le_trans (le_abs_self x) h)
  have h2 : -k ≤ round_even x := le_round_even x (-k) (by
    push_cast
    have := neg_abs_le x
    linarith)
  exact abs_le.2 ⟨h2, h1⟩

theorem f32_eq (q : ℚ) (hq : q ≠ 0) :
    f32 q = (round_even (q / 2 ^ (max (Int.log 2 |q|) (-126) - 23)) : ℚ) *
      2 ^ (max (Int.log 2 |q|) (-126) - 23) := by
  unfold f32
  rw [if_neg hq]

/-- Binary32 rounding is idempotent: a binary32 value rounds to itself. -/
theorem f32_idem (q : ℚ) : f32 (f32 q) = f32 q := by
  by_cases hq : q = 0
  · rw [hq, f32_zero, f32_zero]
  rw [f32_eq q hq]
  have habs : 0 < |q| := abs_pos.2 hq
  have hlo : (2 : ℚ) ^ Int.log 2 |q| ≤ |q| := by
    have := Int.zpow_log_le_self (R := ℚ) (b := 2) (by norm_num) habs
    simpa using this
  have hhi : |q| < (2 : ℚ) ^ (Int.log 2 |q| + 1) := by
    have := Int.lt_zpow_succ_log_self (R := ℚ) (b := 2) (by norm_num) |q|
    simpa using this
  generalize hL : Int.log 2 |q| = L at hlo hhi ⊢
  generalize he : max L (-126) = e
  have hu : (0 : ℚ) < 2 ^ (e - 23) := zpow_pos (by norm_num) _
  generalize hn : round_even (q / 2 ^ (e - 23)) = n
  by_cases hn0 : n = 0
  · rw [hn0]; simp [f32_zero]
  have hxabs : |q / 2 ^ (e - 23)| = |q| / 2 ^ (e - 23) := by
    rw [abs_div, abs_of_pos hu]
  have hnabs : |(n : ℚ) * 2 ^ (e - 23)| = ((|n| : ℤ) : ℚ) * 2 ^ (e - 23) := by
    rw [abs_mul, abs_of_pos hu, Int.cast_abs]
  have hn1 : (1 : ℤ) ≤ |n| := Int.one_le_abs hn0
  have two_ne : (2 : ℚ) ≠ 0 := by norm_num
  have hp23 : ∀ c : ℤ, (8388608 : ℚ) * 2 ^ (c - 23) = 2 ^ c := by
    intro c
    have h : (8388608 : ℚ) = 2 ^ (23 : ℤ) := by norm_num
    rw [h, ← zpow_add₀ two_ne]
    congr 1
    ring
  have hp24 : ∀ c : ℤ, (16777216 : ℚ) * 2 ^ (c - 23) = 2 ^ (c + 1) := by
    intro c
    have h : (16777216 : ℚ) = 2 ^ (24 : ℤ) := by norm_num
    rw [h, ← zpow_add₀ two_ne]
    congr 1
    ring
  rcases le_or_lt (-126) L with hnorm | hsub
  · -- normal range: e = L
    have heL : e = L := by rw [← he]; exact max_eq_left hnorm
    subst heL
    have hx1 : ((8388608 : ℤ) : ℚ) ≤ |q / 2 ^ (e - 23)| := by
      rw [hxabs, le_div_iff₀ hu]
      push_cast
      rw [hp23]
      exact hlo
    have hx2 : |q / 2 ^ (e - 23)| ≤ ((16777216 : ℤ) : ℚ) := by
      rw [hxabs, div_le_iff₀ hu]
      push_cast
      rw [hp24]
      exact le_of_lt hhi
    have hb1 : (8388608 : ℤ) ≤ |n| := by rw [← hn]; exact abs_round_even_ge _ _ hx1
    have hb2 : |n| ≤ (16777216 : ℤ) := by rw [← hn]; exact abs_round_even_le _ _ hx2
    rcases lt_or_eq_of_le hb2 with hlt | heq
    · -- |n| < 2^24: the exponent is unchanged
      have hlog : Int.log 2 |(n : ℚ) * 2 ^ (e - 23)| = e := by
        apply log_two_eq
        · rw [hnabs, ← hp23 e]
          have h1 : ((8388608 : ℤ) : ℚ) ≤ ((|n| : ℤ) : ℚ) := Int.cast_le.2 hb1
          exact mul_le_mul_of_nonneg_right (by simpa using h1) (le_of_lt hu)
        · rw [hnabs, ← hp24 e]
          have h1 : ((|n| : ℤ) : ℚ) < ((16777216 : ℤ) : ℚ) := Int.cast_lt.2 hlt
          exact mul_lt_mul_of_pos_right (by simpa using h1) hu
      apply f32_of_int_mul _ n
      rw [hlog, max_eq_left hnorm]
    · -- |n| = 2^24: the value is the power of two 2^(e+1)
      have hlog : Int.log 2 |(n : ℚ) * 2 ^ (e - 23)| = e + 1 := by
        rw [hnabs, heq]
        push_cast
        rw [hp24]
        have := log_two_zpow (e + 1)
        rwa [abs_of_pos (zpow_pos (by norm_num) _)] at this
      have hmax : max (e + 1) (-126) = e + 1 := max_eq_left (by omega)
      have hsplit : (2 : ℚ) ^ (e + 1 - 23) = 2 * 2 ^ (e - 23) := by
        have : e + 1 - 23 = 1 + (e - 23) := by ring
        rw [this, zpow_add₀ two_ne, zpow_one]
      rcases (abs_eq (by norm_num : (0 : ℤ) ≤ 16777216)).1 heq with h | h
      · apply f32_of_int_mul _ 8388608
        rw [hlog, hmax, h, hsplit]
        push_cast
        ring
      · apply f32_of_int_mul _ (-8388608)
        rw [hlog, hmax, h, hsplit]
        push_cast
        ring
  · -- below the normal range: e = -126
    have heL : e = -126 := by rw [← he]; exact max_eq_right (le_of_lt hsub)
    have hq126 : |q| < (2 : ℚ) ^ e := by
      rw [heL]
      exact lt_of_lt_of_le hhi (zpow_le_zpow_right₀ (by norm_num) (by omega))
    have hx2 : |q / 2 ^ (e - 23)| ≤ ((8388608 : ℤ) : ℚ) := by
      rw [hxabs, div_le_iff₀ hu]
      push_cast
      rw [hp23]
      exact le_of_lt hq126
    have hb2 : |n| ≤ (8388608 : ℤ) := by rw [← hn]; exact abs_round_even_le _ _ hx2
    have hle : |(n : ℚ) * 2 ^ (e - 23)| ≤ (2 : ℚ) ^ e := by
      rw [hnabs, ← hp23 e]
      have h1 : ((|n| : ℤ) : ℚ) ≤ ((8388608 : ℤ) : ℚ) := Int.cast_le.2 hb2
      exact mul_le_mul_of_nonneg_right (by simpa using h1) (le_of_lt hu)
    have hpos : 0 < |(n : ℚ) * 2 ^ (e - 23)| := by
      rw [hnabs]
      have : (0 : ℚ) < ((|n| : ℤ) : ℚ) := by exact_mod_cast hn1
      exact mul_pos this hu
    have hlog : Int.log 2 |(n : ℚ) * 2 ^ (e - 23)| ≤ -126 := by
      by_contra hc
      have hc' : e + 1 ≤ Int.log 2 |(n : ℚ) * 2 ^ (e - 23)| := by omega
      have := (Int.zpow_le_iff_le_log (R := ℚ) (b := 2) (by norm_num) hpos
        (x := e + 1)).2 hc'
      have h4 : (2 : ℚ) ^ e < 2 ^ (e + 1) :=
        zpow_lt_zpow_right₀ (by norm_num) (by omega)
      have h5 : (2 : ℚ) ^ (e + 1) ≤ |(n : ℚ) * 2 ^ (e - 23)| := by
        simpa using this
      linarith
    apply f32_of_int_mul _ n
    rw [max_eq_right hlog, heL]

theorem round_even_of_lt (x : ℚ) (f : ℤ) (h1 : (f : ℚ) ≤ x) (h2 : x < f + 1 / 2) :
    round_even x = f := by
  have hf : ⌊x⌋ = f := Int.floor_eq_iff.2 ⟨h1, by linarith⟩
  unfold round_even
  simp only [hf]
  rw [if_pos (by linarith)]

theorem round_even_of_gt (x : ℚ) (f : ℤ) (h1 : (f : ℚ) + 1 / 2 < x) (h2 : x < f + 1) :
    round_even x = f + 1 := by
  have hf : ⌊x⌋ = f := Int.floor_eq_iff.2 ⟨by linarith, h2⟩
  unfold round_even
  simp only [hf]
  rw [if_neg (by linarith), if_pos (by linarith)]

theorem f32_of_bounds (q : ℚ) (e n : ℤ) (he : -126 ≤ e) (h1 : (2 : ℚ) ^ e ≤ |q|)
    (h2 : |q| < 2 ^ (e + 1)) (hr : round_even (q / 2 ^ (e - 23)) = n) :
    f32 q = (n : ℚ) * 2 ^ (e - 23) := by
  have hq : q ≠ 0 := by
    intro h
    rw [h, abs_zero] at h1
    exact absurd h1 (not_le.2 (zpow_pos (by norm_num) e))
  rw [f32_eq q hq, log_two_eq |q| e h1 h2, max_eq_left he, hr]

/-- The rounding of the metric separates two candidates that tie in exact
arithmetic.  Over three faces, a candidate with 1 FRONT and 2 BACK faces and a
candidate with 1 FRONT, 1 BACK and 1 COPLANAR face both have the exact metric
1/6 under the default weights; in binary32 the first metric is
5592405 / 2^25 (0.16666666) and the second 11184811 / 2^26 (0.16666667). -/
theorem rounding_breaks_tie :
    metric_float id 1 2 0 0 3 1 1 (1 / 2) = 1 / 6 ∧
    metric_float id 1 1 0 1 3 1 1 (1 / 2) = 1 / 6 ∧
    metric_float f32 1 2 0 0 3 1 1 (1 / 2) = 5592405 / 33554432 ∧
    metric_float f32 1 1 0 1 3 1 1 (1 / 2) = 11184811 / 67108864 ∧
    metric_float f32 1 2 0 0 3 1 1 (1 / 2) < metric_float f32 1 1 0 1 3 1 1 (1 / 2) := by
  have h2 : f32 2 = 2 := by
    have := f32_two_zpow 1 (by norm_num)
    simpa using this
  have hhalf : f32 (1 / 2) = 1 / 2 := by
    have := f32_two_zpow (-1) (by norm_num)
    rw [show (2 : ℚ) ^ (-1 : ℤ) = 1 / 2 by norm_num] at this
    exact this
  have h3 : f32 3 = 3 := by
    have := f32_of_bounds 3 1 12582912 (by norm_num) (by norm_num) (by norm_num)
      (round_even_of_lt _ _ (by norm_num) (by norm_num))
    rw [this]; norm_num
  have hthird : f32 (1 / 3) = 11184811 / 33554432 := by
    have := f32_of_bounds (1 / 3) (-2) 11184811 (by norm_num)
      (by rw [abs_of_pos (by norm_num)]; norm_num) (by rw [abs_of_pos (by norm_num)]; norm_num)
      (round_even_of_gt _ 11184810 (by norm_num) (by norm_num))
    rw [this]; norm_num
  have hb : f32 (5592405 / 33554432) = 5592405 / 33554432 := by
    have := f32_of_bounds (5592405 / 33554432) (-3) 11184810 (by norm_num)
      (by rw [abs_of_pos (by norm_num)]; norm_num) (by rw [abs_of_pos (by norm_num)]; norm_num)
      (round_even_of_lt _ _ (by norm_num) (by norm_num))
    rw [this]; norm_num
  have ha : f32 (11184811 / 67108864) = 11184811 / 67108864 := by
    have := f32_of_bounds (11184811 / 67108864) (-3) 11184811 (by norm_num)
      (by rw [abs_of_pos (by norm_num)]; norm_num) (by rw [abs_of_pos (by norm_num)]; norm_num)
      (round_even_of_lt _ _ (by norm_num) (by norm_num))
    rw [this]; norm_num
  have mB : metric_float f32 1 2 0 0 3 1 1 (1 / 2) = 5592405 / 33554432 := by
    simp only [metric_float, Nat.cast_one, Nat.cast_zero, Nat.cast_ofNat, Nat.reduceAdd, f32_one,
      f32_zero, h3, hthird, zero_div, zero_mul, add_zero, mul_one]
    have e1 : (1 : ℚ) / 2 - 11184811 / 33554432 = 5592405 / 33554432 := by norm_num
    have hpos : (0 : ℚ) < 5592405 / 33554432 := by norm_num
    simp only [e1, hb, abs_of_pos hpos]
  have mA : metric_float f32 1 1 0 1 3 1 1 (1 / 2) = 11184811 / 67108864 := by
    simp only [metric_float, Nat.cast_one, Nat.cast_zero, Nat.cast_ofNat, Nat.reduceAdd, f32_one,
      f32_zero, h2, h3, hhalf, hthird, zero_div, zero_mul, add_zero, zero_add, mul_one, sub_self,
      abs_zero]
    have e1 : (11184811 : ℚ) / 33554432 * (1 / 2) = 11184811 / 67108864 := by norm_num
    rw [e1, ha, ha]
  refine ⟨?_, ?_, mB, mA, ?_⟩
  · norm_num [metric_float]
  · norm_num [metric_float]
  · rw [mB, mA]; norm_num

/-- Witness of C14 (as amended): binary32 rounding, the triangle `cut_poly` and
the plane x = 1/2. -/
theorem straddle_iff_walk_crosses_witness :
    f32 0 = 0 ∧ (∀ x : ℚ, f32 (f32 x) = f32 x) ∧ (0 : Nat) < 3 ∧
    Plane.new (1 / 2) ((0 : Nat) : Int) = Except.ok cut_plane ∧
    (cut_poly.clasify_float f32 cut_plane = PolyType.STRADDLE ↔
      (cut_poly.normal.equals cut_plane.normal = false ∧
        ∃ ip ∈ [((0 : Nat), (2 : Nat)), (1, 0), (2, 1)],
          crosses_float f32 ((cut_poly.points.get ip.2).coord 0)
            ((cut_poly.points.get ip.1).coord 0) (1 / 2))) :=
  ⟨f32_zero, f32_idem, by decide, cut_plane_new,
    straddle_iff_walk_crosses f32 cut_poly (1 / 2) 0 cut_plane f32_zero f32_idem (by decide)
      cut_plane_new⟩

theorem flag_index_eq (vert : Int) (i : Nat) (h0 : 0 ≤ vert)
    (h1 : 3 * vert + (i : Int) ≤ 2147483647) : flag_index vert i = 3 * vert + (i : Int) := by
  unfold flag_index wrap_int
  omega

theorem test_plane_int32_eq (b : BspBuilder) (s : List Nat) (poly : Poly) (i : Nat)
    (st : Search)
    (h : flag_index (poly.indexes.get i) i = 3 * poly.indexes.get i + (i : Int)) :
    b.test_plane_int32 s poly i st = b.test_plane s poly i st := by
  simp only [BspBuilder.test_plane_int32, BspBuilder.test_plane, h]

theorem inner_loop_int32_eq (b : BspBuilder) (s : List Nat) (poly : Poly) (l : List Nat)
    (st : Search)
    (h : ∀ i ∈ l, flag_index (poly.indexes.get i) i = 3 * poly.indexes.get i + (i : Int)) :
    b.inner_loop_int32 s poly l st = b.inner_loop s poly l st := by
  induction l generalizing st with
  | nil => rfl
  | cons i rest ih =>
    simp only [BspBuilder.inner_loop_int32, BspBuilder.inner_loop,
      test_plane_int32_eq b s poly i _ (h i (List.mem_cons_self _ _))]
    cases b.test_plane s poly i st with
    | error e => rfl
    | ok st1 =>
      simp only [bind_ok]
      exact ih _ (fun j hj => h j (List.mem_cons_of_mem _ hj))

theorem flag_index_of_wf (b : BspBuilder) (hb : b.WF) (hsize : 3 * b.vert_count ≤ 2147483648)
    (poly : Poly) (hp : poly ∈ b.polys) (i : Nat) (hi : i < 3) :
    flag_index (poly.indexes.get i) i = 3 * poly.indexes.get i + (i : Int) := by
  obtain ⟨h0, h1⟩ := hb.indexes_lt poly hp i hi
  exact flag_index_eq _ _ h0 (by omega)

theorem outer_loop_int32_eq (b : BspBuilder) (hb : b.WF)
    (hsize : 3 * b.vert_count ≤ 2147483648) (s : List Nat) (l : List Nat) (st : Search) :
    b.outer_loop_int32 s l st = b.outer_loop s l st := by
  induction l generalizing st with
  | nil => rfl
  | cons f rest ih =>
    simp only [BspBuilder.outer_loop_int32, BspBuilder.outer_loop]
    cases hp : at_index b.polys f with
    | error e => rfl
    | ok poly =>
      simp only [bind_ok]
      have hmem : poly ∈ b.polys :=
        List.getElem?_mem ((at_index_ok_iff _ _ _).1 hp)
      rw [inner_loop_int32_eq b s poly [0, 1, 2] st (fun i hi =>
        flag_index_of_wf b hb hsize poly hmem i (by
          simp only [List.mem_cons, List.mem_singleton, List.not_mem_nil, or_false] at hi
          omega))]
      cases b.inner_loop s poly [0, 1, 2] st with
      | error e => rfl
      | ok st1 =>
        simp only [bind_ok]
        exact ih _

theorem find_int32_eq (b : BspBuilder) (hb : b.WF) (hsize : 3 * b.vert_count ≤ 2147483648)
    (s : List Nat) : b.find_best_split_plane_int32 s = b.find_best_split_plane s := by
  unfold BspBuilder.find_best_split_plane_int32 BspBuilder.find_best_split_plane
  rw [outer_loop_int32_eq b hb hsize]

theorem build_int32_eq (b : BspBuilder) (hb : b.WF) (hsize : 3 * b.vert_count ≤ 2147483648)
    (fuel : Nat) : ∀ s : List Nat, b.InRange s →
      b.build_bsp_tree_int32 fuel s = b.build_bsp_tree fuel s := by
  induction fuel with
  | zero => intro s _; rfl
  | succ k ih =>
    intro s hs
    rw [BspBuilder.build_bsp_tree_int32, BspBuilder.build_bsp_tree, find_int32_eq b hb hsize]
    cases b.find_best_split_plane s with
    | error e => simp only [bind_error]
    | ok r =>
      cases r with
      | none => simp only [bind_ok]
      | some p =>
        simp only [bind_ok]
        cases b.deref p with
        | error e => simp only [bind_error]
        | ok plane =>
          have hroute := route_eq b plane s hs [] []
          simp only [List.nil_append] at hroute
          have hf := ih (s.filter (b.to_front plane)) (BspBuilder.InRange.filter hs _)
          have hbk := ih (s.filter (b.to_back plane)) (BspBuilder.InRange.filter hs _)
          simp only [bind_ok, hroute, hf, hbk]

theorem new_int32_eq (sqrt : ℚ → ℚ) (fuel : Nat) (verts : List Vertex) (faces : List Face)
    (cw iw sw : ℚ) (msm : FloatInf) (h : FacesValid verts faces)
    (hsize : 3 * verts.length ≤ 2147483648) :
    BspBuilder.new_int32 sqrt fuel verts faces cw iw sw msm =
      BspBuilder.new sqrt fuel verts faces cw iw sw msm := by
  obtain ⟨polys, hpolys, hpm⟩ := make_polys_ok sqrt verts faces h
  obtain ⟨planes, hplanes, hplm⟩ := make_planes_ok verts
  have hbuilt : BspBuilder.Built
      { root := NodePtr.null, polys := polys, planes := planes, vert_count := verts.length,
        coplanar_weight := cw, intersect_weight := iw, split_weight := sw,
        min_split_metric := msm } sqrt verts faces := ⟨h, hpm, hplm, rfl⟩
  simp only [BspBuilder.new_int32, BspBuilder.new, hpolys, hplanes, bind_ok,
    build_int32_eq _ hbuilt.wf hsize fuel _ hbuilt.in_range]

theorem outer_loop_int32_error (b : BspBuilder) (s : List Nat) (f : Nat) (rest : List Nat)
    (st : Search) (poly : Poly) (hat : at_index b.polys f = Except.ok poly)
    (hidx : ∀ flags : List Bool,
      at_int flags (flag_index (poly.indexes.get 0) 0) = Except.error Fault.outOfRange) :
    b.outer_loop_int32 s (f :: rest) st = Except.error Fault.outOfRange := by
  simp only [BspBuilder.outer_loop_int32, hat, bind_ok, BspBuilder.inner_loop_int32,
    BspBuilder.test_plane_int32, hidx, bind_error]

theorem build_int32_error (b : BspBuilder) (k : Nat) (f : Nat) (rest : List Nat)
    (poly : Poly) (hat : at_index b.polys f = Except.ok poly)
    (hidx : ∀ flags : List Bool,
      at_int flags (flag_index (poly.indexes.get 0) 0) = Except.error Fault.outOfRange) :
    b.build_bsp_tree_int32 (k + 1) (f :: rest) = Except.error Fault.outOfRange := by
  rw [BspBuilder.build_bsp_tree_int32, BspBuilder.find_best_split_plane_int32,
    outer_loop_int32_error b _ f rest _ poly hat hidx]
  simp only [bind_error]

/-- Counterexample to C19 as stated: the mesh `huge_verts`, `huge_faces` has
every face index in `[0, vertex_count)`, but for vertex 715827883 at position 0
the `int` expression `3 * vert + i` is 2147483649, above the largest `int`; the
wrapped value is -2147483647, a position of no array, and the constructor stops
at the first lookup `plane_flags[3 * vert + i]` of the root selection pass. -/
theorem flag_lookup_overflows :
    FacesValid huge_verts huge_faces ∧
    flag_index 715827883 0 = -2147483647 ∧
    (∀ flags : List Bool,
      at_int flags (flag_index 715827883 0) = Except.error Fault.outOfRange) ∧
    ∀ fuel, 0 < fuel →
      BspBuilder.new_int32 Rat.sqrt fuel huge_verts huge_faces (1 / 2) 1 1 (some (1 / 2))
        = Except.error Fault.outOfRange := by
  have hvalid : FacesValid huge_verts huge_faces := by
    have hlen : huge_verts.length = 715827884 := List.length_replicate _ _
    intro face hface
    simp only [huge_faces, List.mem_singleton] at hface
    subst hface
    unfold FaceValid
    rw [hlen]
    norm_num
  have hidx : flag_index 715827883 0 = -2147483647 := by
    simp [flag_index, wrap_int]
  have hflag : ∀ flags : List Bool,
      at_int flags (flag_index 715827883 0) = Except.error Fault.outOfRange := by
    intro flags
    rw [hidx]
    simp [at_int]
  refine ⟨hvalid, hidx, hflag, ?_⟩
  intro fuel hfuel
  obtain ⟨k, rfl⟩ : ∃ k, fuel = k + 1 := ⟨fuel - 1, by omega⟩
  obtain ⟨polys, hpolys, hpm⟩ := make_polys_ok Rat.sqrt huge_verts huge_faces hvalid
  obtain ⟨planes, hplanes, _⟩ := make_planes_ok huge_verts
  obtain ⟨poly, hget, _, hm⟩ :=
    forall₂_getElem?_left hpm 0 (x := (715827883, 0, 0)) (by simp [huge_faces])
  have hv : poly.indexes.get 0 = 715827883 := by
    rw [hm.indexes_eq]; rfl
  have hat : at_index polys 0 = Except.ok poly := (at_index_ok_iff _ _ _).2 hget
  have hrange : List.range huge_faces.length = [0] := rfl
  have hidx' : ∀ flags : List Bool,
      at_int flags (flag_index (poly.indexes.get 0) 0) = Except.error Fault.outOfRange := by
    intro flags
    rw [hv]
    exact hflag flags
  unfold BspBuilder.new_int32
  rw [hpolys, hplanes, hrange]
  simp only [bind_ok]
  rw [build_int32_error _ k 0 [] poly hat hidx']
  simp only [bind_error]

/-- C19 (as amended): with every face index in `[0, vertex_count)` and
`3 * vertex_count` at most `2^31`, the run makes no lookup outside a table.
The constructor, with the flag index computed in `int`, returns (each
`operator[]` of the embedding is in range); every `Poly` stores indices that
are positions of the `planes` table, and the `int` expression `3*vert+i` does
not overflow and is a position of the `plane_flags` array; every subset given
to `build_bsp_tree` holds positions of the `polys` table, and
`find_best_split_plane` returns on every such subset; and the divisions of the
metric never meet a zero divisor. -/
theorem lookups_in_range_int32 (sqrt : ℚ → ℚ) (verts : List Vertex) (faces : List Face)
    (cw iw sw : ℚ) (msm : FloatInf) (h : FacesValid verts faces)
    (hsize : 3 * verts.length ≤ 2147483648) :
    ∃ b : BspBuilder,
      (∀ fuel, faces.length < fuel →
        BspBuilder.new_int32 sqrt fuel verts faces cw iw sw msm = Except.ok b) ∧
      (∀ face ∈ faces, ∃ v0 v1 v2, at_int verts face.1 = Except.ok v0 ∧
        at_int verts face.2.1 = Except.ok v1 ∧ at_int verts face.2.2 = Except.ok v2) ∧
      (∀ poly ∈ b.polys, ∀ i, i < 3 →
        (∃ ap, at_int b.planes (poly.indexes.get i) = Except.ok ap) ∧
        flag_index (poly.indexes.get i) i = 3 * poly.indexes.get i + (i : Int) ∧
        0 ≤ flag_index (poly.indexes.get i) i ∧
        (flag_index (poly.indexes.get i) i).toNat < b.vert_count * 3) ∧
      b.InRange (List.range faces.length) ∧
      b.EveryNode (fun s _ front back _ _ _ _ =>
        b.InRange s ∧ b.InRange front ∧ b.InRange back) (List.range faces.length) b.root ∧
      (∀ s, b.InRange s → ∃ r, b.find_best_split_plane_int32 s = Except.ok r) ∧
      (∀ s plane, b.plane_metric_checked s plane = (b.plane_metric s plane).map some) := by
  obtain ⟨b, hb, _, hnew, _, hev⟩ := new_spec sqrt verts faces cw iw sw msm h
  have hsz : 3 * b.vert_count ≤ 2147483648 := by rw [hb.vert_count_eq]; exact hsize
  refine ⟨b, ?_, ?_, ?_, hb.in_range, ?_, ?_, fun s plane => plane_metric_checked_eq b s plane⟩
  · intro fuel hfuel
    rw [new_int32_eq sqrt fuel verts faces cw iw sw msm h hsize]
    exact hnew fuel hfuel
  · intro face hface
    obtain ⟨h0, h1, h2⟩ := h face hface
    obtain ⟨v0, e0, _⟩ := at_int_of_lt verts face.1 h0.1 h0.2
    obtain ⟨v1, e1, _⟩ := at_int_of_lt verts face.2.1 h1.1 h1.2
    obtain ⟨v2, e2, _⟩ := at_int_of_lt verts face.2.2 h2.1 h2.2
    exact ⟨v0, v1, v2, e0, e1, e2⟩
  · intro poly hp i hi
    obtain ⟨hv0, hv1⟩ := hb.wf.indexes_lt poly hp i hi
    have hfi := flag_index_of_wf b hb.wf hsz poly hp i hi
    refine ⟨?_, hfi, by rw [hfi]; omega, by rw [hfi]; omega⟩
    obtain ⟨ap, hap, _⟩ := at_int_of_lt b.planes (poly.indexes.get i) hv0
      (by rw [hb.wf.planes_length]; exact hv1)
    exact ⟨ap, hap⟩
  · refine BspBuilder.EveryNode.mono b ?_ _ _ hev
    intro s plane front back ff bf fn bn hok
    refine ⟨hok.in_range, ?_, ?_⟩
    · rw [hok.front_eq]; exact BspBuilder.InRange.filter hok.in_range _
    · rw [hok.back_eq]; exact BspBuilder.InRange.filter hok.in_range _
  · intro s hs
    obtain ⟨r, hr, _⟩ := find_best_split_plane_spec b hb.wf s hs
    rw [find_int32_eq b hb.wf hsz]
    exact ⟨r, hr⟩

/-- Witness of C19 (as amended) on the two-triangle mesh with the default weights. -/
theorem lookups_in_range_int32_witness :
    FacesValid demo_verts demo_faces ∧ 3 * demo_verts.length ≤ 2147483648 ∧
    ∃ b : BspBuilder,
      (∀ fuel, demo_faces.length < fuel →
        BspBuilder.new_int32 Rat.sqrt fuel demo_verts demo_faces (1 / 2) 1 1 (some (1 / 2))
          = Except.ok b) ∧
      (∀ face ∈ demo_faces, ∃ v0 v1 v2, at_int demo_verts face.1 = Except.ok v0 ∧
        at_int demo_verts face.2.1 = Except.ok v1 ∧
        at_int demo_verts face.2.2 = Except.ok v2) ∧
      (∀ poly ∈ b.polys, ∀ i, i < 3 →
        (∃ ap, at_int b.planes (poly.indexes.get i) = Except.ok ap) ∧
        flag_index (poly.indexes.get i) i = 3 * poly.indexes.get i + (i : Int) ∧
        0 ≤ flag_index (poly.indexes.get i) i ∧
        (flag_index (poly.indexes.get i) i).toNat < b.vert_count * 3) ∧
      b.InRange (List.range demo_faces.length) ∧
      b.EveryNode (fun s _ front back _ _ _ _ =>
        b.InRange s ∧ b.InRange front ∧ b.InRange back)
        (List.range demo_faces.length) b.root ∧
      (∀ s, b.InRange s → ∃ r, b.find_best_split_plane_int32 s = Except.ok r) ∧
      (∀ s plane, b.plane_metric_checked s plane = (b.plane_metric s plane).map some) :=
  ⟨by decide, by decide, lookups_in_range_int32 Rat.sqrt demo_verts demo_faces (1 / 2) 1 1
    (some (1 / 2)) (by decide) (by decide)⟩

end Bsp
